import Mathlib

/-!
Verification of the Canvas3D scene-specification pipeline.

This file shallowly embeds the validation / reachability-gate /
transactional-build core of the repository:

* `src/canvas3d/utils/traversability.py` — grid A* search and traversability
  checks (`astar_path_length`, `check_traversable`, `is_spec_traversable`);
* `src/canvas3d/utils/spec_validation.py` — the scene-spec validator;
* `src/canvas3d/utils/cleanup.py` and
  `src/canvas3d/generation/spec_executor.py` — snapshot / build / commit /
  rollback over the host scene-graph world.

Python `int` is modelled as `ℤ`, Python `float` as `ℚ` (the float literals in
the sources are small decimal constants, written here as the exact rationals
they denote), Python sets of cells as `Finset (ℤ × ℤ)`, and Python `heapq`
operations through their contract: pushing adds an entry, popping removes a
least entry under the lexicographic tuple order.
-/

namespace Canvas3D

/-! ## Grid cells and the 4-connected neighbourhood
    (traversability.py, lines 28–50) -/

abbrev Cell := ℤ × ℤ

/-- `_in_bounds(c, r, cols, rows)`: `0 <= c < cols and 0 <= r < rows`. -/
def inBounds (cols rows : ℤ) (p : Cell) : Prop :=
  0 ≤ p.1 ∧ p.1 < cols ∧ 0 ≤ p.2 ∧ p.2 < rows

instance (cols rows : ℤ) (p : Cell) : Decidable (inBounds cols rows p) := by
  unfold inBounds; infer_instance

/-- `_neighbors_4`: the in-bounds cells among `(c+1,r), (c-1,r), (c,r+1), (c,r-1)`. -/
def neighbors4 (cols rows : ℤ) (p : Cell) : List Cell :=
  [(p.1 + 1, p.2), (p.1 - 1, p.2), (p.1, p.2 + 1), (p.1, p.2 - 1)].filter
    (fun q => decide (inBounds cols rows q))

/-- `_manhattan`: `abs(a0-b0) + abs(a1-b1)`. -/
def manhattan (a b : Cell) : ℕ := (a.1 - b.1).natAbs + (a.2 - b.2).natAbs

/-! ## The heap

`heapq` stores tuples `(f, (c, r))` and pops a least tuple under Python's
lexicographic tuple comparison.  We model the heap as the list of entries it
holds; `popMin` removes one least entry. -/

/-- Lexicographic order on heap entries `(f, (c, r))`, as Python compares the
tuples pushed by `astar_path_length`. -/
def entLE (a b : ℕ × Cell) : Bool :=
  decide (a.1 < b.1) ||
    (decide (a.1 = b.1) &&
      (decide (a.2.1 < b.2.1) ||
        (decide (a.2.1 = b.2.1) && decide (a.2.2 ≤ b.2.2))))

theorem entLE_total (a b : ℕ × Cell) : entLE a b = true ∨ entLE b a = true := by
  unfold entLE
  by_cases h1 : a.1 < b.1 <;> by_cases h2 : b.1 < a.1 <;>
    by_cases h3 : a.2.1 < b.2.1 <;> by_cases h4 : b.2.1 < a.2.1 <;>
      simp_all <;> omega

theorem entLE_fst_le {a b : ℕ × Cell} (h : entLE a b = true) : a.1 ≤ b.1 := by
  unfold entLE at h
  simp only [Bool.or_eq_true, Bool.and_eq_true, decide_eq_true_eq] at h
  rcases h with h | ⟨h, _⟩ <;> omega

/-- `heapq.heappop`: remove one least entry, returning it and the rest. -/
def popMin : List (ℕ × Cell) → Option ((ℕ × Cell) × List (ℕ × Cell))
  | [] => none
  | e :: es =>
    match popMin es with
    | none => some (e, [])
    | some (m, rest) => if entLE e m then some (e, es) else some (m, e :: rest)

theorem popMin_eq_none_iff (l : List (ℕ × Cell)) : popMin l = none ↔ l = [] := by
  cases l with
  | nil => simp [popMin]
  | cons e es =>
    simp only [popMin]
    cases h : popMin es with
    | none => simp
    | some p => cases p with | mk m rest => by_cases he : entLE e m <;> simp [he]

theorem popMin_perm {l : List (ℕ × Cell)} {m : ℕ × Cell} {rest : List (ℕ × Cell)}
    (h : popMin l = some (m, rest)) : l.Perm (m :: rest) := by
  induction l generalizing m rest with
  | nil => simp [popMin] at h
  | cons e es ih =>
    simp only [popMin] at h
    cases hes : popMin es with
    | none =>
      rw [hes] at h
      have : es = [] := (popMin_eq_none_iff es).mp hes
      subst this
      simp only [Option.some.injEq, Prod.mk.injEq] at h
      obtain ⟨rfl, rfl⟩ := h
      exact List.Perm.refl _
    | some p =>
      rw [hes] at h
      obtain ⟨m', rest'⟩ := p
      by_cases he : entLE e m'
      · simp only [he, if_true, Option.some.injEq, Prod.mk.injEq] at h
        obtain ⟨rfl, rfl⟩ := h
        exact List.Perm.refl _
      · simp only [he, Bool.false_eq_true, if_false, Option.some.injEq, Prod.mk.injEq] at h
        obtain ⟨rfl, rfl⟩ := h
        exact ((ih hes).cons e).trans (List.Perm.swap m' e rest')

theorem popMin_mem {l : List (ℕ × Cell)} {m : ℕ × Cell} {rest : List (ℕ × Cell)}
    (h : popMin l = some (m, rest)) : m ∈ l :=
  (popMin_perm h).mem_iff.mpr (List.mem_cons_self _ _)

theorem popMin_rest_subset {l : List (ℕ × Cell)} {m : ℕ × Cell} {rest : List (ℕ × Cell)}
    (h : popMin l = some (m, rest)) : ∀ x ∈ rest, x ∈ l := fun x hx =>
  (popMin_perm h).mem_iff.mpr (List.mem_cons_of_mem _ hx)

theorem popMin_length {l : List (ℕ × Cell)} {m : ℕ × Cell} {rest : List (ℕ × Cell)}
    (h : popMin l = some (m, rest)) : rest.length + 1 = l.length := by
  have := (popMin_perm h).length_eq
  simpa using this.symm

theorem popMin_le {l : List (ℕ × Cell)} {m : ℕ × Cell} {rest : List (ℕ × Cell)}
    (h : popMin l = some (m, rest)) : ∀ x ∈ l, entLE m x = true := by
  induction l generalizing m rest with
  | nil => simp [popMin] at h
  | cons e es ih =>
    simp only [popMin] at h
    cases hes : popMin es with
    | none =>
      rw [hes] at h
      have : es = [] := (popMin_eq_none_iff es).mp hes
      subst this
      simp only [Option.some.injEq, Prod.mk.injEq] at h
      obtain ⟨rfl, rfl⟩ := h
      intro x hx
      simp only [List.mem_singleton] at hx
      subst hx
      rcases entLE_total x x with hh | hh <;> exact hh
    | some p =>
      rw [hes] at h
      obtain ⟨m', rest'⟩ := p
      by_cases he : entLE e m'
      · simp only [he, if_true, Option.some.injEq, Prod.mk.injEq] at h
        obtain ⟨rfl, rfl⟩ := h
        intro x hx
        rcases List.mem_cons.mp hx with rfl | hx
        · rcases entLE_total x x with hh | hh <;> exact hh
        · -- m ≤ m' ≤ every element of es
          have hm' := ih hes x hx
          -- entLE is transitive
          have := he
          unfold entLE at this hm' ⊢
          simp only [Bool.or_eq_true, Bool.and_eq_true, decide_eq_true_eq] at this hm' ⊢
          rcases this with h1 | ⟨h1, h2⟩ <;> rcases hm' with h3 | ⟨h3, h4⟩
          · left; omega
          · left; omega
          · left; omega
          · rcases h2 with h2 | ⟨h2, h5⟩ <;> rcases h4 with h4 | ⟨h4, h6⟩
            · right; exact ⟨by omega, by left; omega⟩
            · right; exact ⟨by omega, by left; omega⟩
            · right; exact ⟨by omega, by left; omega⟩
            · right; exact ⟨by omega, by right; exact ⟨by omega, by omega⟩⟩
      · simp only [he, Bool.false_eq_true, if_false, Option.some.injEq, Prod.mk.injEq] at h
        obtain ⟨rfl, rfl⟩ := h
        intro x hx
        rcases List.mem_cons.mp hx with hxe | hx
        · subst hxe
          rcases entLE_total x m' with hh | hh
          · exact absurd hh he
          · exact hh
        · exact ih hes x hx

/-! ## The relaxation step

`astar_path_length`'s inner `for nb in _neighbors_4(...)` loop: skip blocked
neighbours; on a strict improvement of `g_score[nb]`, record the new score and
push `(tentative + h(nb), nb)`. -/

def pushNeighbor (blocked : Finset Cell) (goal : Cell) (gc : ℕ)
    (acc : List (ℕ × Cell) × (Cell → Option ℕ)) (nb : Cell) :
    List (ℕ × Cell) × (Cell → Option ℕ) :=
  if nb ∈ blocked then acc
  else
    let tentative := gc + 1
    let improves : Bool :=
      match acc.2 nb with
      | none => true
      | some prev => decide (tentative < prev)
    if improves then
      ((tentative + manhattan nb goal, nb) :: acc.1, Function.update acc.2 nb (some tentative))
    else acc

/-! ## The main loop -/

def gridCells (cols rows : ℤ) : Finset Cell := Finset.Ico 0 cols ×ˢ Finset.Ico 0 rows

theorem mem_gridCells {cols rows : ℤ} {p : Cell} :
    p ∈ gridCells cols rows ↔ inBounds cols rows p := by
  unfold gridCells inBounds
  simp [Finset.mem_product, Finset.mem_Ico, and_assoc]

theorem sdiff_insert_card_lt {α : Type} [DecidableEq α] (s t : Finset α) (a : α)
    (ha : a ∈ s) (hna : a ∉ t) : (s \ insert a t).card < (s \ t).card := by
  apply Finset.card_lt_card
  constructor
  · exact Finset.sdiff_subset_sdiff (le_refl s) (Finset.subset_insert a t)
  · intro hsub
    have h1 : a ∈ s \ t := Finset.mem_sdiff.mpr ⟨ha, hna⟩
    have h2 := hsub h1
    simp [Finset.mem_sdiff] at h2

theorem foldl_pushNeighbor_mem {blocked : Finset Cell} {goal : Cell} {gc : ℕ}
    (l : List Cell) (acc : List (ℕ × Cell) × (Cell → Option ℕ)) :
    ∀ x ∈ (l.foldl (pushNeighbor blocked goal gc) acc).1,
      x ∈ acc.1 ∨ x.2 ∈ l := by
  induction l generalizing acc with
  | nil => intro x hx; exact Or.inl hx
  | cons nb l ih =>
    intro x hx
    simp only [List.foldl_cons] at hx
    rcases ih (pushNeighbor blocked goal gc acc nb) x hx with h | h
    · unfold pushNeighbor at h
      by_cases hb : nb ∈ blocked
      · simp only [hb, if_true] at h
        exact Or.inl h
      · simp only [hb, if_false] at h
        rcases hmatch : (match acc.2 nb with
          | none => true
          | some prev => decide (gc + 1 < prev)) with _ | _
        · rw [hmatch] at h
          simp only [Bool.false_eq_true, if_false] at h
          exact Or.inl h
        · rw [hmatch] at h
          simp only [if_true, List.mem_cons] at h
          rcases h with rfl | h
          · exact Or.inr (List.mem_cons_self _ _)
          · exact Or.inl h
    · exact Or.inr (List.mem_cons_of_mem _ h)

theorem mem_neighbors4_inBounds {cols rows : ℤ} {p q : Cell}
    (h : q ∈ neighbors4 cols rows p) : inBounds cols rows q := by
  unfold neighbors4 at h
  rw [List.mem_filter] at h
  exact of_decide_eq_true h.2

/-- The `while open_heap:` loop of `astar_path_length`.  The extra hypothesis
`hh` records that every heap entry's cell is in bounds (true of everything the
source pushes), which bounds the closed set for termination. -/
def astarLoop (cols rows : ℤ) (blocked : Finset Cell) (goal : Cell)
    (heap : List (ℕ × Cell)) (g : Cell → Option ℕ) (closed : Finset Cell)
    (hh : ∀ e ∈ heap, inBounds cols rows e.2) : Option ℕ :=
  match hpop : popMin heap with
  | none => none
  | some (e, rest) =>
    if hcl : e.2 ∈ closed then
      astarLoop cols rows blocked goal rest g closed
        (fun x hx => hh x (popMin_rest_subset hpop x hx))
    else if e.2 = goal then g e.2
    else
      let s := (neighbors4 cols rows e.2).foldl
        (pushNeighbor blocked goal ((g e.2).getD 0)) (rest, g)
      astarLoop cols rows blocked goal s.1 s.2 (insert e.2 closed)
        (fun x hx => by
          rcases foldl_pushNeighbor_mem _ _ x hx with h | h
          · exact hh x (popMin_rest_subset hpop x h)
          · exact mem_neighbors4_inBounds h)
termination_by ((gridCells cols rows \ closed).card, heap.length)
decreasing_by
  · apply Prod.Lex.right
    have := popMin_length hpop
    omega
  · apply Prod.Lex.left
    exact sdiff_insert_card_lt _ _ _
      (mem_gridCells.mpr (hh _ (popMin_mem hpop))) hcl

/-- `astar_path_length(cols, rows, blocked, start, goal)` (traversability.py
lines 53–94). -/
def astar_path_length (cols rows : ℤ) (blocked : Finset Cell)
    (start goal : Cell) : Option ℕ :=
  if h1 : ¬ inBounds cols rows start then none
  else if ¬ inBounds cols rows goal then none
  else if start ∈ blocked ∨ goal ∈ blocked then none
  else
    astarLoop cols rows blocked goal [(0, start)]
      (Function.update (fun _ => none) start (some 0)) ∅
      (by
        intro e he
        simp only [List.mem_singleton] at he
        subst he
        exact not_not.mp h1)

/-! ## Paths on the grid

A path is a sequence of in-bounds, unblocked cells, each step moving to a
4-neighbour.  `PathTo cols rows blocked x z n` holds when there is such a path
from `x` to `z` taking `n` steps (edges). -/

inductive PathTo (cols rows : ℤ) (blocked : Finset Cell) : Cell → Cell → ℕ → Prop
  | nil (x : Cell) (hb : inBounds cols rows x) (hx : x ∉ blocked) :
      PathTo cols rows blocked x x 0
  | cons (x y z : Cell) (n : ℕ) (hb : inBounds cols rows x) (hx : x ∉ blocked)
      (hadj : y ∈ neighbors4 cols rows x) (hp : PathTo cols rows blocked y z n) :
      PathTo cols rows blocked x z (n + 1)

/-- There is a path of some length. -/
def Reachable (cols rows : ℤ) (blocked : Finset Cell) (s t : Cell) : Prop :=
  ∃ n, PathTo cols rows blocked s t n

/-- `n` is the length of a shortest path. -/
def ShortestPathLen (cols rows : ℤ) (blocked : Finset Cell) (s t : Cell) (n : ℕ) : Prop :=
  PathTo cols rows blocked s t n ∧ ∀ m, PathTo cols rows blocked s t m → n ≤ m

theorem PathTo.left_valid {cols rows : ℤ} {blocked : Finset Cell} {x z : Cell} {n : ℕ}
    (h : PathTo cols rows blocked x z n) : inBounds cols rows x ∧ x ∉ blocked := by
  cases h with
  | nil _ hb hx => exact ⟨hb, hx⟩
  | cons _ _ _ _ hb hx _ _ => exact ⟨hb, hx⟩

theorem PathTo.right_valid {cols rows : ℤ} {blocked : Finset Cell} {x z : Cell} {n : ℕ}
    (h : PathTo cols rows blocked x z n) : inBounds cols rows z ∧ z ∉ blocked := by
  induction h with
  | nil _ hb hx => exact ⟨hb, hx⟩
  | cons _ _ _ _ _ _ _ _ ih => exact ih

theorem mem_neighbors4_iff {cols rows : ℤ} {x y : Cell} :
    y ∈ neighbors4 cols rows x ↔ inBounds cols rows y ∧
      (y = (x.1 + 1, x.2) ∨ y = (x.1 - 1, x.2) ∨ y = (x.1, x.2 + 1) ∨ y = (x.1, x.2 - 1)) := by
  unfold neighbors4
  simp only [List.mem_filter, decide_eq_true_eq, List.mem_cons, List.mem_singleton,
    List.not_mem_nil, or_false]
  tauto

theorem manhattan_self (a : Cell) : manhattan a a = 0 := by
  simp [manhattan]

theorem manhattan_comm (a b : Cell) : manhattan a b = manhattan b a := by
  unfold manhattan
  rw [← Int.natAbs_neg (a.1 - b.1), ← Int.natAbs_neg (a.2 - b.2)]
  ring_nf

theorem manhattan_triangle (a b c : Cell) :
    manhattan a c ≤ manhattan a b + manhattan b c := by
  unfold manhattan
  have h1 : (a.1 - c.1).natAbs ≤ (a.1 - b.1).natAbs + (b.1 - c.1).natAbs := by
    have : a.1 - c.1 = (a.1 - b.1) + (b.1 - c.1) := by ring
    rw [this]
    exact Int.natAbs_add_le _ _
  have h2 : (a.2 - c.2).natAbs ≤ (a.2 - b.2).natAbs + (b.2 - c.2).natAbs := by
    have : a.2 - c.2 = (a.2 - b.2) + (b.2 - c.2) := by ring
    rw [this]
    exact Int.natAbs_add_le _ _
  omega

theorem manhattan_of_adjacent {cols rows : ℤ} {x y : Cell}
    (h : y ∈ neighbors4 cols rows x) : manhattan x y = 1 := by
  rcases (mem_neighbors4_iff.mp h).2 with rfl | rfl | rfl | rfl <;>
    simp [manhattan] <;> omega

theorem manhattan_eq_zero_iff {a b : Cell} : manhattan a b = 0 ↔ a = b := by
  unfold manhattan
  constructor
  · intro h
    have h1 : a.1 = b.1 := by omega
    have h2 : a.2 = b.2 := by omega
    exact Prod.ext h1 h2
  · rintro rfl; simp

/-- Each step changes the Manhattan distance to any fixed cell by at most one;
hence a path from `x` to `z` has at least `manhattan x z` edges. -/
theorem PathTo.manhattan_le {cols rows : ℤ} {blocked : Finset Cell} {x z : Cell} {n : ℕ}
    (h : PathTo cols rows blocked x z n) : manhattan x z ≤ n := by
  induction h with
  | nil _ _ _ => simp [manhattan_self]
  | cons x y z n _ _ hadj _ ih =>
    calc manhattan x z ≤ manhattan x y + manhattan y z := manhattan_triangle _ _ _
      _ = 1 + manhattan y z := by rw [manhattan_of_adjacent hadj]
      _ ≤ 1 + n := by omega
      _ = n + 1 := by omega

/-- Extend a path by one edge at the far end. -/
theorem PathTo.snoc {cols rows : ℤ} {blocked : Finset Cell} {s cur nb : Cell} {m : ℕ}
    (h : PathTo cols rows blocked s cur m) (hadj : nb ∈ neighbors4 cols rows cur)
    (hnb : nb ∉ blocked) : PathTo cols rows blocked s nb (m + 1) := by
  induction h with
  | nil x hb hx =>
    exact PathTo.cons x nb nb 0 hb hx hadj
      (PathTo.nil nb ((mem_neighbors4_iff.mp hadj).1) hnb)
  | cons x y z n hb hx hadj' _ ih =>
    exact PathTo.cons x y nb (n + 1) hb hx hadj' (ih hadj)

theorem shortest_unique {cols rows : ℤ} {blocked : Finset Cell} {s t : Cell} {n m : ℕ}
    (hn : ShortestPathLen cols rows blocked s t n)
    (hm : ShortestPathLen cols rows blocked s t m) : n = m :=
  Nat.le_antisymm (hn.2 m hm.1) (hm.2 n hn.1)

theorem exists_shortest {cols rows : ℤ} {blocked : Finset Cell} {s t : Cell}
    (h : Reachable cols rows blocked s t) :
    ∃ n, ShortestPathLen cols rows blocked s t n := by
  classical
  obtain ⟨n, hn⟩ := h
  have hex : ∃ k, PathTo cols rows blocked s t k := ⟨n, hn⟩
  refine ⟨Nat.find hex, Nat.find_spec hex, fun m hm => ?_⟩
  exact Nat.find_le hm

/-! ## Properties of the relaxation fold -/

section FoldLemmas

variable {blocked : Finset Cell} {goal : Cell} {gc : ℕ}

private theorem push_fst (acc : List (ℕ × Cell) × (Cell → Option ℕ)) (nb : Cell) :
    (pushNeighbor blocked goal gc acc nb).1 = acc.1 ∨
      (pushNeighbor blocked goal gc acc nb).1 =
        (gc + 1 + manhattan nb goal, nb) :: acc.1 := by
  unfold pushNeighbor
  by_cases hb : nb ∈ blocked
  · simp [hb]
  · simp only [hb, if_false]
    rcases h : (match acc.2 nb with
      | none => true
      | some prev => decide (gc + 1 < prev)) with _ | _ <;> rw [h] <;> simp

private theorem push_snd (acc : List (ℕ × Cell) × (Cell → Option ℕ)) (nb y : Cell) :
    (pushNeighbor blocked goal gc acc nb).2 y = acc.2 y ∨
      (y = nb ∧ (pushNeighbor blocked goal gc acc nb).2 y = some (gc + 1)) := by
  unfold pushNeighbor
  by_cases hb : nb ∈ blocked
  · simp [hb]
  · simp only [hb, if_false]
    rcases h : (match acc.2 nb with
      | none => true
      | some prev => decide (gc + 1 < prev)) with _ | _
    · rw [h]; simp
    · rw [h]
      by_cases hy : y = nb
      · subst hy
        right
        simp [Function.update_same]
      · left
        simp [Function.update_noteq hy]

private theorem push_snd_ne (acc : List (ℕ × Cell) × (Cell → Option ℕ)) {nb y : Cell}
    (hy : y ≠ nb) : (pushNeighbor blocked goal gc acc nb).2 y = acc.2 y := by
  unfold pushNeighbor
  by_cases hb : nb ∈ blocked
  · simp [hb]
  · simp only [hb, if_false]
    rcases h : (match acc.2 nb with
      | none => true
      | some prev => decide (gc + 1 < prev)) with _ | _
    · rw [h]; simp
    · rw [h]; simp [Function.update_noteq hy]

/-- A score at most `gc + 1` can never be improved by this round of relaxation. -/
private theorem push_fix_le (acc : List (ℕ × Cell) × (Cell → Option ℕ)) (nb y : Cell)
    {v : ℕ} (hv : acc.2 y = some v) (hle : v ≤ gc + 1) :
    (pushNeighbor blocked goal gc acc nb).2 y = some v := by
  unfold pushNeighbor
  by_cases hb : nb ∈ blocked
  · simp [hb, hv]
  · simp only [hb, if_false]
    by_cases hy : y = nb
    · subst hy
      rw [hv]
      have : decide (gc + 1 < v) = false := by simp; omega
      simp [this, hv]
    · rcases h : (match acc.2 nb with
        | none => true
        | some prev => decide (gc + 1 < prev)) with _ | _
      · rw [h]; simp [hv]
      · rw [h]; simp [Function.update_noteq hy, hv]

theorem fold_g_outside (l : List Cell) (acc : List (ℕ × Cell) × (Cell → Option ℕ))
    (y : Cell) (hy : y ∉ l) :
    (l.foldl (pushNeighbor blocked goal gc) acc).2 y = acc.2 y := by
  induction l generalizing acc with
  | nil => rfl
  | cons nb l ih =>
    simp only [List.foldl_cons]
    rw [ih _ (fun h => hy (List.mem_cons_of_mem _ h))]
    exact push_snd_ne acc (fun h => hy (h ▸ List.mem_cons_self _ _))

theorem fold_fix_le (l : List Cell) (acc : List (ℕ × Cell) × (Cell → Option ℕ))
    (y : Cell) {v : ℕ} (hv : acc.2 y = some v) (hle : v ≤ gc + 1) :
    (l.foldl (pushNeighbor blocked goal gc) acc).2 y = some v := by
  induction l generalizing acc with
  | nil => exact hv
  | cons nb l ih =>
    simp only [List.foldl_cons]
    exact ih _ (push_fix_le acc nb y hv hle)

theorem fold_g_le (l : List Cell) (acc : List (ℕ × Cell) × (Cell → Option ℕ))
    (y : Cell) {p : ℕ} (hp : acc.2 y = some p) :
    ∃ p' ≤ p, (l.foldl (pushNeighbor blocked goal gc) acc).2 y = some p' := by
  induction l generalizing acc p with
  | nil => exact ⟨p, le_refl p, hp⟩
  | cons nb l ih =>
    simp only [List.foldl_cons]
    rcases push_snd acc nb y with h | ⟨rfl, h⟩
    · rw [hp] at h
      exact ih _ h
    · -- updated: the new value is gc + 1, and it was a strict improvement
      rcases ih _ h with ⟨p', hp', hfix⟩
      -- p' ≤ gc + 1; relate to p: the update only happens when gc + 1 < p
      -- (or the old value was absent, impossible here)
      have hlt : gc + 1 ≤ p := by
        -- from the definition of pushNeighbor: the update fired
        unfold pushNeighbor at h
        by_cases hb : y ∈ blocked
        · simp [hb, hp] at h; omega
        · simp only [hb, if_false] at h
          rcases hm : (match acc.2 y with
            | none => true
            | some prev => decide (gc + 1 < prev)) with _ | _
          · rw [hm] at h
            simp only [Bool.false_eq_true, if_false] at h
            rw [hp] at h
            simp at h; omega
          · rw [hp] at hm
            simp only [decide_eq_true_eq] at hm
            omega
      exact ⟨p', by omega, hfix⟩

theorem fold_relax (l : List Cell) (acc : List (ℕ × Cell) × (Cell → Option ℕ))
    (y : Cell) (hy : y ∈ l) (hb : y ∉ blocked) :
    ∃ jy ≤ gc + 1, (l.foldl (pushNeighbor blocked goal gc) acc).2 y = some jy := by
  induction l generalizing acc with
  | nil => simp at hy
  | cons nb l ih =>
    simp only [List.foldl_cons]
    rcases List.mem_cons.mp hy with rfl | hy'
    · -- after processing y itself, the score of y is some value ≤ gc + 1
      have hafter : ∃ v ≤ gc + 1, (pushNeighbor blocked goal gc acc y).2 y = some v := by
        unfold pushNeighbor
        simp only [hb, if_false]
        rcases hm : acc.2 y with _ | prev
        · simp [hm, Function.update_same]
        · by_cases hlt : gc + 1 < prev
          · simp [hm, hlt, Function.update_same]
          · refine ⟨prev, by omega, ?_⟩
            have : decide (gc + 1 < prev) = false := by simp; omega
            simp [hm, this]
      rcases hafter with ⟨v, hvle, hv⟩
      rcases fold_g_le l _ y hv with ⟨p', hp', hfix⟩
      exact ⟨p', by omega, hfix⟩
    · exact ih _ hy'

theorem fold_heap_mono (l : List Cell) (acc : List (ℕ × Cell) × (Cell → Option ℕ)) :
    ∀ x ∈ acc.1, x ∈ (l.foldl (pushNeighbor blocked goal gc) acc).1 := by
  induction l generalizing acc with
  | nil => intro x hx; exact hx
  | cons nb l ih =>
    intro x hx
    simp only [List.foldl_cons]
    apply ih
    rcases push_fst acc nb with h | h <;> rw [h]
    · exact hx
    · exact List.mem_cons_of_mem _ hx

theorem fold_g_src (l : List Cell) (acc : List (ℕ × Cell) × (Cell → Option ℕ))
    (y : Cell) {n' : ℕ}
    (h : (l.foldl (pushNeighbor blocked goal gc) acc).2 y = some n') :
    acc.2 y = some n' ∨
      ((gc + 1 + manhattan y goal, y) ∈ (l.foldl (pushNeighbor blocked goal gc) acc).1 ∧
        n' = gc + 1 ∧ y ∈ l ∧ y ∉ blocked) := by
  induction l generalizing acc with
  | nil => exact Or.inl h
  | cons nb l ih =>
    simp only [List.foldl_cons] at h ⊢
    rcases ih _ h with h' | ⟨hmem, hn, hyl, hyb⟩
    · -- h' : score of y after the single step is some n'
      by_cases hy : y = nb
      · subst hy
        unfold pushNeighbor at h'
        by_cases hb : y ∈ blocked
        · simp only [hb, if_true] at h'
          exact Or.inl h'
        · simp only [hb, if_false] at h'
          rcases hm : (match acc.2 y with
            | none => true
            | some prev => decide (gc + 1 < prev)) with _ | _
          · rw [hm] at h'
            simp only [Bool.false_eq_true, if_false] at h'
            exact Or.inl h'
          · rw [hm] at h'
            simp only [if_true, Function.update_same, Option.some.injEq] at h'
            right
            refine ⟨?_, h'.symm, List.mem_cons_self _ _, hb⟩
            apply fold_heap_mono
            unfold pushNeighbor
            simp [hb, hm]
      · rw [push_snd_ne acc hy] at h'
        exact Or.inl h'
    · exact Or.inr ⟨hmem, hn, List.mem_cons_of_mem _ hyl, hyb⟩

theorem fold_heap_src (l : List Cell) (acc : List (ℕ × Cell) × (Cell → Option ℕ))
    (e' : ℕ × Cell) (h : e' ∈ (l.foldl (pushNeighbor blocked goal gc) acc).1) :
    e' ∈ acc.1 ∨
      (e'.2 ∈ l ∧ e'.2 ∉ blocked ∧ e'.1 = gc + 1 + manhattan e'.2 goal ∧
        (l.foldl (pushNeighbor blocked goal gc) acc).2 e'.2 = some (gc + 1)) := by
  induction l generalizing acc with
  | nil => exact Or.inl h
  | cons nb l ih =>
    simp only [List.foldl_cons] at h ⊢
    rcases ih _ h with h' | ⟨h1, h2, h3, h4⟩
    · -- entry present after the first step
      unfold pushNeighbor at h'
      by_cases hb : nb ∈ blocked
      · simp only [hb, if_true] at h'
        exact Or.inl h'
      · simp only [hb, if_false] at h'
        rcases hm : (match acc.2 nb with
          | none => true
          | some prev => decide (gc + 1 < prev)) with _ | _
        · rw [hm] at h'
          simp only [Bool.false_eq_true, if_false] at h'
          exact Or.inl h'
        · rw [hm] at h'
          simp only [if_true, List.mem_cons] at h'
          rcases h' with rfl | h'
          · -- the freshly pushed entry
            right
            refine ⟨List.mem_cons_self _ _, hb, rfl, ?_⟩
            -- after the step, g nb = some (gc+1); fixed for the rest of the fold
            apply fold_fix_le
            · unfold pushNeighbor
              simp [hb, hm, Function.update_same]
            · omega
          · exact Or.inl h'
    · exact Or.inr ⟨List.mem_cons_of_mem _ h1, h2, h3, h4⟩

end FoldLemmas

/-! ## The A* loop invariant -/

theorem not_mem_neighbors4_self {cols rows : ℤ} (x : Cell) :
    x ∉ neighbors4 cols rows x := by
  intro h
  rcases (mem_neighbors4_iff.mp h).2 with h' | h' | h' | h' <;>
    (rw [Prod.ext_iff] at h'; omega)

/-- Invariant of `astarLoop`'s state relative to a fixed search problem.
`g` holds realizable path lengths; closed cells are settled at their exact
shortest distance with all their neighbours relaxed; every heap entry's `f`
bounds its cell's score plus the heuristic from below (except the initial
`(0, start)` entry); every scored open cell is represented in the heap. -/
structure AInv (cols rows : ℤ) (blocked : Finset Cell) (start goal : Cell)
    (heap : List (ℕ × Cell)) (g : Cell → Option ℕ) (closed : Finset Cell) : Prop where
  sound : ∀ x n, g x = some n → PathTo cols rows blocked start x n
  closedOpt : ∀ x ∈ closed, ∃ n, g x = some n ∧
    ∀ m, PathTo cols rows blocked start x m → n ≤ m
  closedRelax : ∀ x ∈ closed, ∀ y ∈ neighbors4 cols rows x, y ∉ blocked →
    ∃ jy jx, g y = some jy ∧ g x = some jx ∧ jy ≤ jx + 1
  heapG : ∀ e ∈ heap, ∃ n, g e.2 = some n ∧
    (n + manhattan e.2 goal ≤ e.1 ∨ (e.2 = start ∧ n = 0))
  frontier : ∀ x, x ∉ closed → ∀ n, g x = some n →
    ∃ f, (f, x) ∈ heap ∧ f ≤ n + manhattan x goal
  gstart : g start = some 0
  goalOpen : goal ∉ closed

section Invariant

variable {cols rows : ℤ} {blocked : Finset Cell} {start goal : Cell}
variable {heap : List (ℕ × Cell)} {g : Cell → Option ℕ} {closed : Finset Cell}

/-- Walking any path whose far end is open, from a scored cell, reaches an
open cell whose score plus remaining distance is within the path's budget. -/
theorem pathDescend (inv : AInv cols rows blocked start goal heap g closed) :
    ∀ a z k, PathTo cols rows blocked a z k → z ∉ closed → ∀ ja, g a = some ja →
      ∃ w jw, w ∉ closed ∧ g w = some jw ∧ jw + manhattan w z ≤ ja + k := by
  intro a z k hpath
  induction hpath with
  | nil x _ _ =>
    intro hz ja hga
    exact ⟨x, ja, hz, hga, by simp [manhattan_self]⟩
  | cons x y z n hb hx hadj hp ih =>
    intro hz ja hga
    by_cases hxc : x ∈ closed
    · obtain ⟨jy, jx, hgy, hgx, hle⟩ := inv.closedRelax x hxc y hadj hp.left_valid.2
      have hjx : ja = jx := Option.some.inj (hga.symm.trans hgx)
      obtain ⟨w, jw, hw, hgw, hwle⟩ := ih hz jy hgy
      exact ⟨w, jw, hw, hgw, by omega⟩
    · refine ⟨x, ja, hxc, hga, ?_⟩
      have := PathTo.manhattan_le (PathTo.cons x y z n hb hx hadj hp)
      omega

/-- A popped open cell's score is exactly its shortest-path distance. -/
theorem popped_opt (inv : AInv cols rows blocked start goal heap g closed)
    {e : ℕ × Cell} {rest : List (ℕ × Cell)}
    (hpop : popMin heap = some (e, rest)) (hncl : e.2 ∉ closed) :
    ∃ m, g e.2 = some m ∧ ShortestPathLen cols rows blocked start e.2 m := by
  obtain ⟨m, hg, hdisj⟩ := inv.heapG e (popMin_mem hpop)
  refine ⟨m, hg, inv.sound _ _ hg, ?_⟩
  intro k hk
  obtain ⟨w, jw, hw, hgw, hwle⟩ := pathDescend inv start e.2 k hk hncl 0 inv.gstart
  obtain ⟨fw, hfw, hfwle⟩ := inv.frontier w hw jw hgw
  have hefw : e.1 ≤ fw := entLE_fst_le (popMin_le hpop (fw, w) hfw)
  rcases hdisj with hmain | ⟨_, hm0⟩
  · have htri : manhattan w goal ≤ manhattan w e.2 + manhattan e.2 goal :=
      manhattan_triangle _ _ _
    omega
  · omega

theorem AInv_init (hsb : inBounds cols rows start) (hsn : start ∉ blocked) :
    AInv cols rows blocked start goal [(0, start)]
      (Function.update (fun _ => none) start (some 0)) ∅ := by
  constructor
  · intro x n hx
    by_cases h : x = start
    · subst h
      rw [Function.update_same] at hx
      have : n = 0 := (Option.some.inj hx).symm
      subst this
      exact PathTo.nil _ hsb hsn
    · rw [Function.update_noteq h] at hx
      cases hx
  · intro x hx; simp at hx
  · intro x hx; simp at hx
  · intro e he
    simp only [List.mem_singleton] at he
    subst he
    exact ⟨0, Function.update_same _ _ _, Or.inr ⟨rfl, rfl⟩⟩
  · intro x _ n hgx
    by_cases h : x = start
    · subst h
      exact ⟨0, List.mem_singleton_self _, by omega⟩
    · rw [Function.update_noteq h] at hgx
      cases hgx
  · exact Function.update_same _ _ _
  · simp

theorem AInv_skip (inv : AInv cols rows blocked start goal heap g closed)
    {e : ℕ × Cell} {rest : List (ℕ × Cell)}
    (hpop : popMin heap = some (e, rest)) (hcl : e.2 ∈ closed) :
    AInv cols rows blocked start goal rest g closed := by
  refine ⟨inv.sound, inv.closedOpt, inv.closedRelax,
    fun e' he' => inv.heapG e' (popMin_rest_subset hpop e' he'), ?_,
    inv.gstart, inv.goalOpen⟩
  intro x hx n hg
  obtain ⟨f, hf, hfle⟩ := inv.frontier x hx n hg
  have hmem : (f, x) ∈ e :: rest := (popMin_perm hpop).mem_iff.mp hf
  rcases List.mem_cons.mp hmem with heq | hmem
  · exfalso
    apply hx
    have : x = e.2 := congrArg Prod.snd heq
    rw [this]
    exact hcl
  · exact ⟨f, hmem, hfle⟩

theorem AInv_expand (inv : AInv cols rows blocked start goal heap g closed)
    {e : ℕ × Cell} {rest : List (ℕ × Cell)}
    (hpop : popMin heap = some (e, rest)) (hncl : e.2 ∉ closed) (hgl : e.2 ≠ goal) :
    AInv cols rows blocked start goal
      ((neighbors4 cols rows e.2).foldl
        (pushNeighbor blocked goal ((g e.2).getD 0)) (rest, g)).1
      ((neighbors4 cols rows e.2).foldl
        (pushNeighbor blocked goal ((g e.2).getD 0)) (rest, g)).2
      (insert e.2 closed) := by
  obtain ⟨m, hgm, hshort⟩ := popped_opt inv hpop hncl
  have hgD : (g e.2).getD 0 = m := by rw [hgm]; rfl
  rw [hgD]
  have hpath : PathTo cols rows blocked start e.2 m := hshort.1
  have hcurval := hpath.right_valid
  have hself : e.2 ∉ neighbors4 cols rows e.2 := not_mem_neighbors4_self e.2
  -- The score of e.2 is untouched by the relaxation round.
  have hgcur : ((neighbors4 cols rows e.2).foldl
      (pushNeighbor blocked goal m) (rest, g)).2 e.2 = some m := by
    rw [fold_g_outside _ _ _ hself]; exact hgm
  constructor
  · -- sound
    intro x n hx
    rcases fold_g_src _ _ _ hx with h | ⟨_, hn, hxl, hxb⟩
    · exact inv.sound x n h
    · subst hn
      exact hpath.snoc hxl hxb
  · -- closedOpt
    intro x hx
    rcases Finset.mem_insert.mp hx with rfl | hx
    · exact ⟨m, hgcur, hshort.2⟩
    · obtain ⟨n, hgn, hmin⟩ := inv.closedOpt x hx
      by_cases hxl : x ∈ neighbors4 cols rows e.2
      · have hxb : x ∉ blocked := ((inv.sound x n hgn).right_valid).2
        have hle : n ≤ m + 1 := hmin _ (hpath.snoc hxl hxb)
        exact ⟨n, fold_fix_le _ _ x hgn hle, hmin⟩
      · exact ⟨n, by rw [fold_g_outside _ _ x hxl]; exact hgn, hmin⟩
  · -- closedRelax
    intro x hx y hy hyb
    rcases Finset.mem_insert.mp hx with rfl | hx
    · obtain ⟨jy, hjyle, hjy⟩ := @fold_relax blocked goal m (neighbors4 cols rows e.2) (rest, g) y hy hyb
      exact ⟨jy, m, hjy, hgcur, hjyle⟩
    · obtain ⟨jy, jx, hgy, hgx, hle⟩ := inv.closedRelax x hx y hy hyb
      obtain ⟨n, hgn, hmin⟩ := inv.closedOpt x hx
      have hjxn : jx = n := Option.some.inj (hgx.symm.trans hgn)
      subst hjxn
      -- x keeps its (minimal) score
      have hgx' : ((neighbors4 cols rows e.2).foldl
          (pushNeighbor blocked goal m) (rest, g)).2 x = some jx := by
        by_cases hxl : x ∈ neighbors4 cols rows e.2
        · have hxb : x ∉ blocked := ((inv.sound x jx hgx).right_valid).2
          exact fold_fix_le _ _ x hgx (hmin _ (hpath.snoc hxl hxb))
        · rw [fold_g_outside _ _ x hxl]; exact hgx
      obtain ⟨jy', hjy'le, hjy'⟩ := fold_g_le _ (rest, g) y hgy
      exact ⟨jy', jx, hjy', hgx', by omega⟩
  · -- heapG
    intro e' he'
    rcases fold_heap_src _ _ _ he' with h | ⟨_, _, h3, h4⟩
    · obtain ⟨n, hgn, hd⟩ := inv.heapG e' (popMin_rest_subset hpop e' h)
      rcases hd with hmain | ⟨hst, hn0⟩
      · obtain ⟨n', hn'le, hfix⟩ := fold_g_le _ (rest, g) e'.2 hgn
        exact ⟨n', hfix, Or.inl (by omega)⟩
      · subst hn0
        exact ⟨0, fold_fix_le _ _ e'.2 hgn (by omega), Or.inr ⟨hst, rfl⟩⟩
    · exact ⟨m + 1, h4, Or.inl (le_of_eq h3.symm)⟩
  · -- frontier
    intro x hx n hgx
    have hxcur : x ≠ e.2 := fun h => hx (h ▸ Finset.mem_insert_self _ _)
    have hxcl : x ∉ closed := fun h => hx (Finset.mem_insert_of_mem h)
    rcases fold_g_src _ _ _ hgx with h | ⟨hmem, hn, _, _⟩
    · obtain ⟨f, hf, hfle⟩ := inv.frontier x hxcl n h
      have hmem : (f, x) ∈ e :: rest := (popMin_perm hpop).mem_iff.mp hf
      rcases List.mem_cons.mp hmem with heq | hmem
      · exact absurd (congrArg Prod.snd heq) hxcur
      · exact ⟨f, fold_heap_mono _ (rest, g) _ hmem, hfle⟩
    · exact ⟨m + 1 + manhattan x goal, hmem, by omega⟩
  · -- gstart
    exact fold_fix_le _ _ start inv.gstart (by omega)
  · -- goalOpen
    simp only [Finset.mem_insert]
    push_neg
    exact ⟨fun h => hgl h.symm, inv.goalOpen⟩

end Invariant

/-! ## Correctness of the search loop -/

section LoopEqns

variable {cols rows : ℤ} {blocked : Finset Cell} {goal : Cell}
variable {heap : List (ℕ × Cell)} {g : Cell → Option ℕ} {closed : Finset Cell}
variable {hh : ∀ e ∈ heap, inBounds cols rows e.2}
variable {e : ℕ × Cell} {rest : List (ℕ × Cell)}

theorem astarLoop_eq_none (hpop : popMin heap = none) :
    astarLoop cols rows blocked goal heap g closed hh = none := by
  rw [astarLoop]
  split
  · rfl
  · rename_i heq
    rw [hpop] at heq
    cases heq

theorem astarLoop_eq_skip (hpop : popMin heap = some (e, rest)) (hcl : e.2 ∈ closed)
    (hh' : ∀ x ∈ rest, inBounds cols rows x.2) :
    astarLoop cols rows blocked goal heap g closed hh =
      astarLoop cols rows blocked goal rest g closed hh' := by
  rw [astarLoop]
  split
  · rename_i heq
    rw [hpop] at heq
    cases heq
  · rename_i e' rest' heq
    rw [hpop] at heq
    injection heq with heq
    injection heq with h1 h2
    subst h1
    subst h2
    rw [dif_pos hcl]

theorem astarLoop_eq_goal (hpop : popMin heap = some (e, rest)) (hncl : e.2 ∉ closed)
    (hgl : e.2 = goal) :
    astarLoop cols rows blocked goal heap g closed hh = g e.2 := by
  rw [astarLoop]
  split
  · rename_i heq
    rw [hpop] at heq
    cases heq
  · rename_i e' rest' heq
    rw [hpop] at heq
    injection heq with heq
    injection heq with h1 h2
    subst h1
    subst h2
    rw [dif_neg hncl, if_pos hgl]

theorem astarLoop_eq_expand (hpop : popMin heap = some (e, rest)) (hncl : e.2 ∉ closed)
    (hgl : e.2 ≠ goal)
    (hh' : ∀ x ∈ ((neighbors4 cols rows e.2).foldl
      (pushNeighbor blocked goal ((g e.2).getD 0)) (rest, g)).1, inBounds cols rows x.2) :
    astarLoop cols rows blocked goal heap g closed hh =
      astarLoop cols rows blocked goal
        ((neighbors4 cols rows e.2).foldl
          (pushNeighbor blocked goal ((g e.2).getD 0)) (rest, g)).1
        ((neighbors4 cols rows e.2).foldl
          (pushNeighbor blocked goal ((g e.2).getD 0)) (rest, g)).2
        (insert e.2 closed) hh' := by
  rw [astarLoop]
  split
  · rename_i heq
    rw [hpop] at heq
    cases heq
  · rename_i e' rest' heq
    rw [hpop] at heq
    injection heq with heq
    injection heq with h1 h2
    subst h1
    subst h2
    rw [dif_neg hncl, if_neg hgl]

end LoopEqns

theorem astarLoop_correct (cols rows : ℤ) (blocked : Finset Cell) (goal : Cell)
    (heap : List (ℕ × Cell)) (g : Cell → Option ℕ) (closed : Finset Cell)
    (hh : ∀ e ∈ heap, inBounds cols rows e.2) :
    ∀ start, AInv cols rows blocked start goal heap g closed →
      (∀ n, astarLoop cols rows blocked goal heap g closed hh = some n →
        ShortestPathLen cols rows blocked start goal n) ∧
      (astarLoop cols rows blocked goal heap g closed hh = none →
        ¬ Reachable cols rows blocked start goal) := by
  induction heap, g, closed, hh using astarLoop.induct cols rows blocked goal with
  | case1 heap g closed hh hpop =>
    intro start inv
    rw [astarLoop_eq_none hpop]
    constructor
    · intro n hn
      cases hn
    · intro _ hreach
      obtain ⟨k, hk⟩ := hreach
      obtain ⟨w, jw, hw, hgw, _⟩ :=
        pathDescend inv start goal k hk inv.goalOpen 0 inv.gstart
      obtain ⟨f, hf, _⟩ := inv.frontier w hw jw hgw
      rw [(popMin_eq_none_iff heap).mp hpop] at hf
      cases hf
  | case2 heap g closed hh e rest hpop hcl ih =>
    intro start inv
    rw [astarLoop_eq_skip hpop hcl (fun x hx => hh x (popMin_rest_subset hpop x hx))]
    exact ih start (AInv_skip inv hpop hcl)
  | case3 heap g closed hh e rest hpop hcl hgl =>
    intro start inv
    obtain ⟨m, hgm, hshort⟩ := popped_opt inv hpop hcl
    rw [astarLoop_eq_goal hpop hcl hgl]
    constructor
    · intro n hn
      rw [hgm] at hn
      have : m = n := Option.some.inj hn
      subst this
      rw [← hgl]
      exact hshort
    · intro hnone
      rw [hgm] at hnone
      cases hnone
  | case4 heap g closed hh e rest hpop hcl hgl s ih =>
    intro start inv
    rw [astarLoop_eq_expand hpop hcl hgl (fun x hx => by
      rcases foldl_pushNeighbor_mem _ _ x hx with h | h
      · exact hh x (popMin_rest_subset hpop x h)
      · exact mem_neighbors4_inBounds h)]
    exact ih start (AInv_expand inv hpop hcl hgl)

/-! ## Correctness of `astar_path_length` -/

section AstarMain

variable {cols rows : ℤ} {blocked : Finset Cell} {start goal : Cell} {n : ℕ}

theorem astar_path_length_some
    (h : astar_path_length cols rows blocked start goal = some n) :
    ShortestPathLen cols rows blocked start goal n := by
  unfold astar_path_length at h
  split at h
  · cases h
  · split at h
    · cases h
    · split at h
      · cases h
      · rename_i h1 _ h3
        exact (astarLoop_correct cols rows blocked goal _ _ _ _ start
          (AInv_init (not_not.mp h1) (fun hb => h3 (Or.inl hb)))).1 n h

theorem astar_path_length_none
    (h : astar_path_length cols rows blocked start goal = none) :
    ¬ Reachable cols rows blocked start goal := by
  unfold astar_path_length at h
  split at h
  · rename_i h1
    rintro ⟨k, hk⟩
    exact h1 hk.left_valid.1
  · split at h
    · rename_i h2
      rintro ⟨k, hk⟩
      exact h2 hk.right_valid.1
    · split at h
      · rename_i h3
        rintro ⟨k, hk⟩
        rcases h3 with hb | hb
        · exact hk.left_valid.2 hb
        · exact hk.right_valid.2 hb
      · rename_i h1 _ h3
        exact (astarLoop_correct cols rows blocked goal _ _ _ _ start
          (AInv_init (not_not.mp h1) (fun hb => h3 (Or.inl hb)))).2 h

/-- `astar_path_length` returns `some n` exactly when `n` is the length of a
shortest 4-connected path from `start` to `goal` avoiding `blocked`. -/
theorem astar_path_length_some_iff :
    astar_path_length cols rows blocked start goal = some n ↔
      ShortestPathLen cols rows blocked start goal n := by
  constructor
  · exact astar_path_length_some
  · intro hs
    cases hres : astar_path_length cols rows blocked start goal with
    | none => exact absurd ⟨n, hs.1⟩ (astar_path_length_none hres)
    | some n' =>
      have := astar_path_length_some hres
      rw [shortest_unique this hs]

/-- `astar_path_length` returns `none` exactly when no path exists. -/
theorem astar_path_length_none_iff :
    astar_path_length cols rows blocked start goal = none ↔
      ¬ Reachable cols rows blocked start goal := by
  constructor
  · exact astar_path_length_none
  · intro hr
    cases hres : astar_path_length cols rows blocked start goal with
    | none => rfl
    | some n' =>
      exact absurd ⟨n', (astar_path_length_some hres).1⟩ hr

end AstarMain

/-- `check_traversable(cols, rows, blocked, start, goal, min_len)`
(traversability.py lines 97–113). -/
def check_traversable (cols rows : ℤ) (blocked : Finset Cell) (start goal : Cell)
    (min_len : Option ℤ) : Bool × Option ℕ :=
  match astar_path_length cols rows blocked start goal with
  | none => (false, none)
  | some length =>
    match min_len with
    | some m => if (length : ℤ) < m then (false, some length) else (true, some length)
    | none => (true, some length)

/-! ## Particular cases: empty grid and a blocking wall -/

/-- A staircase path realising the Manhattan distance on an obstacle-free grid. -/
theorem pathTo_of_manhattan (cols rows : ℤ) :
    ∀ (d : ℕ) (a b : Cell), inBounds cols rows a → inBounds cols rows b →
      manhattan a b = d → PathTo cols rows ∅ a b d := by
  intro d
  induction d with
  | zero =>
    intro a b ha _ h
    rw [manhattan_eq_zero_iff] at h
    subst h
    exact PathTo.nil a ha (Finset.not_mem_empty a)
  | succ d ih =>
    intro a b ha hb h
    unfold inBounds at ha hb
    rcases lt_trichotomy a.1 b.1 with h1 | h1 | h1
    · refine PathTo.cons a (a.1 + 1, a.2) b d ha (Finset.not_mem_empty a) ?_ ?_
      · rw [mem_neighbors4_iff]
        refine ⟨?_, Or.inl rfl⟩
        unfold inBounds
        constructor <;> [omega; constructor] <;> [omega; omega]
      · apply ih
        · unfold inBounds; refine ⟨by omega, by omega, ha.2.2.1, ha.2.2.2⟩
        · exact hb
        · unfold manhattan at h ⊢
          simp only at h ⊢
          omega
    · rcases lt_trichotomy a.2 b.2 with h2 | h2 | h2
      · refine PathTo.cons a (a.1, a.2 + 1) b d ha (Finset.not_mem_empty a) ?_ ?_
        · rw [mem_neighbors4_iff]
          refine ⟨?_, Or.inr (Or.inr (Or.inl rfl))⟩
          unfold inBounds
          refine ⟨ha.1, ha.2.1, by omega, by omega⟩
        · apply ih
          · unfold inBounds; exact ⟨ha.1, ha.2.1, by omega, by omega⟩
          · exact hb
          · unfold manhattan at h ⊢
            simp only at h ⊢
            omega
      · exfalso
        unfold manhattan at h
        have hab : a = b := Prod.ext h1 h2
        rw [hab] at h
        simp at h
      · refine PathTo.cons a (a.1, a.2 - 1) b d ha (Finset.not_mem_empty a) ?_ ?_
        · rw [mem_neighbors4_iff]
          refine ⟨?_, Or.inr (Or.inr (Or.inr rfl))⟩
          unfold inBounds
          refine ⟨ha.1, ha.2.1, by omega, by omega⟩
        · apply ih
          · unfold inBounds; exact ⟨ha.1, ha.2.1, by omega, by omega⟩
          · exact hb
          · unfold manhattan at h ⊢
            simp only at h ⊢
            omega
    · refine PathTo.cons a (a.1 - 1, a.2) b d ha (Finset.not_mem_empty a) ?_ ?_
      · rw [mem_neighbors4_iff]
        refine ⟨?_, Or.inr (Or.inl rfl)⟩
        unfold inBounds
        exact ⟨by omega, by omega, ha.2.2.1, ha.2.2.2⟩
      · apply ih
        · unfold inBounds; exact ⟨by omega, by omega, ha.2.2.1, ha.2.2.2⟩
        · exact hb
        · unfold manhattan at h ⊢
          simp only at h ⊢
          omega

/-- On a grid with no blocked cell, the shortest path length is the Manhattan
distance. -/
theorem astar_empty_eq_manhattan {cols rows : ℤ} {start goal : Cell}
    (hsb : inBounds cols rows start) (hgb : inBounds cols rows goal) :
    astar_path_length cols rows ∅ start goal = some (manhattan start goal) := by
  rw [astar_path_length_some_iff]
  exact ⟨pathTo_of_manhattan cols rows _ start goal hsb hgb rfl,
    fun m hm => hm.manhattan_le⟩

/-- A step moves the column coordinate by at most one. -/
theorem adjacent_col_le {cols rows : ℤ} {a y : Cell}
    (h : y ∈ neighbors4 cols rows a) : y.1 ≤ a.1 + 1 := by
  rcases (mem_neighbors4_iff.mp h).2 with rfl | rfl | rfl | rfl <;> simp <;> omega

/-- No path crosses a fully blocked column. -/
theorem path_stays_left_of_wall {cols rows : ℤ} {blocked : Finset Cell} {wc : ℤ}
    (hbl : ∀ r : ℤ, 0 ≤ r → r < rows → (wc, r) ∈ blocked) :
    ∀ a z n, PathTo cols rows blocked a z n → a.1 < wc → z.1 < wc := by
  intro a z n hp
  induction hp with
  | nil x _ _ => intro h; exact h
  | cons x y z n _ _ hadj hp ih =>
    intro hx
    have hy1 : y.1 ≤ wc := by
      have := adjacent_col_le hadj
      omega
    rcases eq_or_lt_of_le hy1 with heq | hlt
    · exfalso
      have hyv := hp.left_valid
      have : y = (wc, y.2) := Prod.ext heq rfl
      apply hyv.2
      rw [this]
      exact hbl y.2 (by have := hyv.1; unfold inBounds at this; omega)
        (by have := hyv.1; unfold inBounds at this; omega)
    · exact ih hlt

/-- A fully blocked column strictly between the start and goal columns makes
the goal unreachable. -/
theorem wall_unreachable {cols rows : ℤ} {blocked : Finset Cell} {start goal : Cell}
    {wc : ℤ} (hbl : ∀ r : ℤ, 0 ≤ r → r < rows → (wc, r) ∈ blocked)
    (hs : start.1 < wc) (hg : wc < goal.1) :
    ¬ Reachable cols rows blocked start goal := by
  rintro ⟨k, hk⟩
  have := path_stays_left_of_wall hbl start goal k hk hs
  omega

/-! ## JSON-shaped documents

The pipeline consumes Python dict/list/str/number/bool/None structures.
Python `int` is `ℤ`, Python `float` is modelled as `ℚ` (every float literal
appearing in the sources is a small decimal constant). -/

inductive Json where
  | null
  | bool (b : Bool)
  | int (n : ℤ)
  | float (q : ℚ)
  | str (s : String)
  | arr (xs : List Json)
  | obj (kvs : List (String × Json))

/-- `k in d` for a dict (`False` on non-dicts; the sources only use it on
values already known to be dicts). -/
def Json.hasKey (j : Json) (k : String) : Bool :=
  match j with
  | .obj kvs => kvs.any (fun kv => kv.1 = k)
  | _ => false

/-- Raw lookup distinguishing an absent key from a stored `None`. -/
def Json.get? (j : Json) (k : String) : Option Json :=
  match j with
  | .obj kvs => (kvs.find? (fun kv => kv.1 = k)).map (·.2)
  | _ => none

/-- `d.get(k)` — absent keys yield Python `None`. -/
def Json.pyGet (j : Json) (k : String) : Json :=
  match j.get? k with
  | some v => v
  | none => .null

/-- `d.get(k, default)` — the default is used only when the key is absent. -/
def Json.pyGetD (j : Json) (k : String) (d : Json) : Json :=
  match j.get? k with
  | some v => v
  | none => d

/-- Python truthiness of a JSON-shaped value. -/
def Json.truthy : Json → Bool
  | .null => false
  | .bool b => b
  | .int n => decide (n ≠ 0)
  | .float q => decide (q ≠ 0)
  | .str s => decide (s ≠ "")
  | .arr xs => !xs.isEmpty
  | .obj kvs => !kvs.isEmpty

/-- `a or b` on values (Python returns `a` when truthy, else `b`). -/
def Json.pyOr (a b : Json) : Json := if a.truthy then a else b

/-- `_type_of(value)`: `type(value).__name__`. -/
def Json.typeOf : Json → String
  | .null => "NoneType"
  | .bool _ => "bool"
  | .int _ => "int"
  | .float _ => "float"
  | .str _ => "str"
  | .arr _ => "list"
  | .obj _ => "dict"

/-- `isinstance(v, dict)`. -/
def Json.isDict : Json → Bool
  | .obj _ => true
  | _ => false

/-- `isinstance(v, list)`. -/
def Json.isList : Json → Bool
  | .arr _ => true
  | _ => false

/-- `isinstance(v, str)`. -/
def Json.isStr : Json → Bool
  | .str _ => true
  | _ => false

/-- `isinstance(v, bool)`. -/
def Json.isBool : Json → Bool
  | .bool _ => true
  | _ => false

/-- `isinstance(v, int)` — Python `bool` is a subclass of `int`. -/
def Json.isInt : Json → Bool
  | .int _ => true
  | .bool _ => true
  | _ => false

/-- `isinstance(v, (int, float))`. -/
def Json.isNum : Json → Bool
  | .int _ => true
  | .float _ => true
  | .bool _ => true
  | _ => false

/-- The numeric value of an `isinstance(v, (int, float))` value
(`float(v)`; `True`/`False` count as `1`/`0`). -/
def Json.asNum : Json → ℚ
  | .int n => (n : ℚ)
  | .float q => q
  | .bool b => if b then 1 else 0
  | _ => 0

/-- The integer value of an `isinstance(v, int)` value. -/
def Json.asInt : Json → ℤ
  | .int n => n
  | .bool b => if b then 1 else 0
  | _ => 0

/-- `str(v)` for the scalar shapes the sources compare against string
literals; containers get a non-matching placeholder shown with brackets. -/
def Json.pyStr : Json → String
  | .null => "None"
  | .bool b => if b then "True" else "False"
  | .int n => toString n
  | .float _ => "<float>"
  | .str s => s
  | .arr _ => "<list>"
  | .obj _ => "<dict>"

/-- A value usable as a `dict` key / set element: Python lists and dicts are
unhashable and make `in {...}` raise `TypeError`. -/
def Json.hashable : Json → Bool
  | .arr _ => false
  | .obj _ => false
  | _ => true

/-- `_is_vec3(value)`: a list of exactly three numbers. -/
def isVec3 (v : Json) : Bool :=
  match v with
  | .arr xs => decide (xs.length = 3) && xs.all Json.isNum
  | _ => false

/-- ASCII-safe names: `^[a-zA-Z0-9_\-]+$`. -/
def asciiSafe (s : String) : Bool :=
  decide (s ≠ "") && s.toList.all (fun c => c.isAlpha || c.isDigit || c = '_' || c = '-')

/-- Truthiness of `s.strip()`: some character is not whitespace. -/
def stripTruthy (s : String) : Bool :=
  s.toList.any (fun c => !c.isWhitespace)

/-- `str.split` on a character predicate, structurally recursive so that the
kernel can evaluate it. -/
def splitOnPred (p : Char → Bool) : List Char → List (List Char)
  | [] => [[]]
  | c :: r =>
    match splitOnPred p r with
    | [] => [[c]]
    | h :: t => if p c then [] :: h :: t else (c :: h) :: t

/-- `str.lower()`, character by character so the kernel can evaluate it. -/
def strLower (s : String) : String := String.mk (s.toList.map Char.toLower)

/-- `str.strip()`: drop leading and trailing whitespace. -/
def strTrim (s : String) : String :=
  String.mk (((s.toList.dropWhile Char.isWhitespace).reverse.dropWhile
    Char.isWhitespace).reverse)

/-- `^[0-9]+\.[0-9]+\.[0-9]+$`: three nonempty digit groups joined by dots. -/
def versionMatches (s : String) : Bool :=
  let parts := splitOnPred (fun c => c = '.') s.toList
  decide (parts.length = 3) &&
    parts.all (fun q => !q.isEmpty && q.all Char.isDigit)

/-! ## Scene-spec validation (spec_validation.py) -/

structure ValidationIssue where
  path : String
  message : String
  code : String
deriving DecidableEq

/-- `str(issue)`: `"{path}: {message} ({code})"`. -/
def ValidationIssue.toStr (i : ValidationIssue) : String :=
  i.path ++ ": " ++ i.message ++ " (" ++ i.code ++ ")"

/-- `_require(cond, issues, path, msg, code)`: the issues it appends. -/
def req (cond : Bool) (path msg code : String) : List ValidationIssue :=
  if cond then [] else [⟨path, msg, code⟩]

/-- Equality of a JSON value with a string literal. -/
def Json.strEq (j : Json) (s : String) : Bool :=
  match j with
  | .str t => t = s
  | _ => false

def Json.isNull : Json → Bool
  | .null => true
  | _ => false

/-- Membership in `ALLOWED_DOMAINS`. -/
def domainAllowed (s : String) : Bool :=
  s = "procedural_dungeon" || s = "film_interior"

/-- Membership in `OBJECT_TYPES`. -/
def objectTypeAllowed (s : String) : Bool :=
  s = "cube" || s = "plane" || s = "cylinder" || s = "corridor_segment" ||
    s = "room" || s = "door" || s = "stair" || s = "prop_instance"

/-- Membership in `LIGHT_TYPES`. -/
def lightTypeAllowed (s : String) : Bool :=
  s = "sun" || s = "point" || s = "area" || s = "spot"

/-- Membership in `QUALITY_MODES`. -/
def qualityModeAllowed (s : String) : Bool :=
  s = "lite" || s = "balanced" || s = "high"

/-- Membership in `COLLECTION_PURPOSE`. -/
def collectionPurposeAllowed (s : String) : Bool :=
  s = "geometry" || s = "props" || s = "lighting" || s = "physics"

/-- All components of a numeric triple lie in `[0, 1]`. -/
def componentsInUnit (xs : List Json) : Bool :=
  xs.all (fun x => decide ((0 : ℚ) ≤ x.asNum) && decide (x.asNum ≤ 1))

/-- `SceneSpecValidator._validate_metadata`. -/
def validateMetadata (meta : Json) : List ValidationIssue :=
  if !meta.isDict then
    req meta.isDict "$.metadata" ("metadata must be object, got: " ++ meta.typeOf) "type"
  else
    let qm := meta.pyGetD "quality_mode" (.str "balanced")
    (if qm.isNull then []
     else
       req qm.isStr "$.metadata.quality_mode"
           ("quality_mode must be string, got: " ++ qm.typeOf) "type" ++
         (match qm with
          | .str s => req (qualityModeAllowed s) "$.metadata.quality_mode"
              "quality_mode must be one of ['balanced', 'high', 'lite']" "enum"
          | _ => [])) ++
    (let hp := meta.pyGetD "hardware_profile" .null
     if hp.isNull then []
     else req hp.isStr "$.metadata.hardware_profile"
       ("hardware_profile must be string, got: " ++ hp.typeOf) "type") ++
    (let notes := meta.pyGetD "notes" .null
     if notes.isNull then []
     else req notes.isStr "$.metadata.notes"
       ("notes must be string, got: " ++ notes.typeOf) "type")

/-- `SceneSpecValidator._validate_grid`. -/
def validateGrid (grid : Json) : List ValidationIssue :=
  if !grid.isDict then
    req grid.isDict "$.grid" ("grid must be object, got: " ++ grid.typeOf) "type"
  else
    req (grid.hasKey "cell_size_m") "$.grid" "Missing required field: cell_size_m" "required" ++
    req (grid.hasKey "dimensions") "$.grid" "Missing required field: dimensions" "required" ++
    (let cs := grid.pyGet "cell_size_m"
     if cs.isNull then []
     else
       req cs.isNum "$.grid.cell_size_m"
           ("cell_size_m must be number, got: " ++ cs.typeOf) "type" ++
         (if cs.isNum then
            req (decide ((1/4 : ℚ) ≤ cs.asNum) && decide (cs.asNum ≤ 5))
              "$.grid.cell_size_m" "cell_size_m must be in [0.25, 5.0]" "range"
          else [])) ++
    (let dims := grid.pyGet "dimensions"
     req dims.isDict "$.grid.dimensions"
         ("dimensions must be object, got: " ++ dims.typeOf) "type" ++
       (if dims.isDict then
          let cols := dims.pyGet "cols"
          let rows := dims.pyGet "rows"
          req cols.isInt "$.grid.dimensions.cols"
              ("cols must be integer, got: " ++ cols.typeOf) "type" ++
          req rows.isInt "$.grid.dimensions.rows"
              ("rows must be integer, got: " ++ rows.typeOf) "type" ++
          (if cols.isInt then
             req (decide (5 ≤ cols.asInt) && decide (cols.asInt ≤ 200))
               "$.grid.dimensions.cols" "cols must be in [5, 200]" "range"
           else []) ++
          (if rows.isInt then
             req (decide (5 ≤ rows.asInt) && decide (rows.asInt ≤ 200))
               "$.grid.dimensions.rows" "rows must be in [5, 200]" "range"
           else [])
        else []))

/-- Issues for one entry of `materials`. -/
def materialEntryIssues (i : ℕ) (m : Json) : List ValidationIssue :=
  let p := "$.materials[" ++ toString i ++ "]"
  req m.isDict p ("material must be object, got: " ++ m.typeOf) "type" ++
    (if !m.isDict then []
     else
       let name := m.pyGet "name"
       let nameOk := name.isStr && (match name with | .str s => stripTruthy s | _ => false)
       req nameOk (p ++ ".name") "material.name must be non-empty string" "required" ++
       (match name with
        | .str s =>
          if stripTruthy s then
            req (asciiSafe s) (p ++ ".name")
              "material.name must be ASCII-safe [a-zA-Z0-9_\\-]" "ascii"
          else []
        | _ => []) ++
       (let pbr := m.pyGetD "pbr" .null
        if pbr.isNull then []
        else
          req pbr.isDict (p ++ ".pbr") ("pbr must be object, got: " ++ pbr.typeOf) "type" ++
            (if !pbr.isDict then []
             else
               (let bc := pbr.pyGetD "base_color" .null
                if bc.isNull then []
                else
                  req (isVec3 bc) (p ++ ".pbr.base_color")
                      "base_color must be [r,g,b] numbers" "type" ++
                    (match bc with
                     | .arr xs =>
                       if decide (xs.length = 3) && xs.all Json.isNum then
                         req (componentsInUnit xs) (p ++ ".pbr.base_color")
                           "base_color components must be in [0,1]" "range"
                       else []
                     | _ => [])) ++
               (["metallic", "roughness"].map (fun fld =>
                 let val := pbr.pyGetD fld .null
                 if val.isNull then []
                 else
                   req val.isNum (p ++ ".pbr." ++ fld) (fld ++ " must be number") "type" ++
                     (if val.isNum then
                        req (decide ((0 : ℚ) ≤ val.asNum) && decide (val.asNum ≤ 1))
                          (p ++ ".pbr." ++ fld) (fld ++ " must be in [0,1]") "range"
                      else []))).flatten ++
               (let nt := pbr.pyGetD "normal_tex" .null
                if nt.isNull then []
                else req nt.isStr (p ++ ".pbr.normal_tex")
                  "normal_tex must be string (path/identifier)" "type"))))

/-- The names a materials/collections validator collects for the uniqueness
check: string names with truthy `strip()` on dict entries. -/
def collectedNames (entries : List Json) : List String :=
  entries.filterMap (fun m =>
    match m with
    | .obj _ =>
      match m.pyGet "name" with
      | .str s => if stripTruthy s then some s else none
      | _ => none
    | _ => none)

/-- `SceneSpecValidator._validate_materials`. -/
def validateMaterials (materials : Json) : List ValidationIssue :=
  match materials with
  | .arr ms =>
    (ms.enum.map (fun im => materialEntryIssues im.1 im.2)).flatten ++
      (let names := collectedNames ms
       if !names.isEmpty && decide (names.length ≠ names.dedup.length) then
         [⟨"$.materials", "material names must be unique", "unique"⟩]
       else [])
  | _ => req false "$.materials" ("materials must be array, got: " ++ materials.typeOf) "type"

/-- Issues for one entry of `collections`. -/
def collectionEntryIssues (i : ℕ) (c : Json) : List ValidationIssue :=
  let p := "$.collections[" ++ toString i ++ "]"
  req c.isDict p ("collection must be object, got: " ++ c.typeOf) "type" ++
    (if !c.isDict then []
     else
       let name := c.pyGet "name"
       let nameOk := name.isStr && (match name with | .str s => stripTruthy s | _ => false)
       req nameOk (p ++ ".name") "collection.name must be non-empty string" "required" ++
       (match name with
        | .str s =>
          if stripTruthy s then
            req (asciiSafe s) (p ++ ".name")
              "collection.name must be ASCII-safe [a-zA-Z0-9_\\-]" "ascii"
          else []
        | _ => []) ++
       (let purpose := c.pyGetD "purpose" .null
        if purpose.isNull then []
        else
          req purpose.isStr (p ++ ".purpose")
              ("purpose must be string, got: " ++ purpose.typeOf) "type" ++
            (match purpose with
             | .str s => req (collectionPurposeAllowed s) (p ++ ".purpose")
                 "purpose must be one of ['geometry', 'lighting', 'physics', 'props']" "enum"
             | _ => [])))

/-- `SceneSpecValidator._validate_collections`. -/
def validateCollections (collections : Json) : List ValidationIssue :=
  match collections with
  | .arr cs =>
    (cs.enum.map (fun ic => collectionEntryIssues ic.1 ic.2)).flatten ++
      (let names := collectedNames cs
       if !names.isEmpty && decide (names.length ≠ names.dedup.length) then
         [⟨"$.collections", "collection names must be unique", "unique"⟩]
       else [])
  | _ => req false "$.collections"
      ("collections must be array, got: " ++ collections.typeOf) "type"

/-- One step of `_validate_objects`' loop.  The accumulator carries the issues
so far, the `ids` list and the `seen` set used for inline duplicate
detection. -/
def objectEntryStep (acc : List ValidationIssue × List String × List String)
    (im : ℕ × Json) : List ValidationIssue × List String × List String :=
  let (issues, ids, seen) := acc
  let i := im.1
  let o := im.2
  let p := "$.objects[" ++ toString i ++ "]"
  let typeIssue := req o.isDict p ("object must be object, got: " ++ o.typeOf) "type"
  if !o.isDict then (issues ++ typeIssue, ids, seen)
  else
    let oid := o.pyGet "id"
    let oidOk := oid.isStr && (match oid with | .str s => stripTruthy s | _ => false)
    let idIssues := req oidOk (p ++ ".id") "object.id must be non-empty string" "required"
    let (idIssues2, ids', seen') :=
      match oid with
      | .str s =>
        if stripTruthy s then
          let ascii := req (asciiSafe s) (p ++ ".id")
            "object.id must be ASCII-safe [a-zA-Z0-9_\\-]" "ascii"
          let (dup, seen') :=
            if asciiSafe s then
              if s ∈ seen then
                ([(⟨"$.objects", "object ids must be unique", "unique"⟩ : ValidationIssue)], seen)
              else ([], seen ++ [s])
            else ([], seen)
          (ascii ++ dup, ids ++ [s], seen')
        else ([], ids, seen)
      | _ => ([], ids, seen)
    let otype := o.pyGet "type"
    let typeIssues :=
      req otype.isStr (p ++ ".type") ("object.type must be string, got: " ++ otype.typeOf)
          "type" ++
        (match otype with
         | .str s => req (objectTypeAllowed s) (p ++ ".type")
             ("object.type must be one of ['corridor_segment', 'cube', 'cylinder', 'door', " ++
               "'plane', 'prop_instance', 'room', 'stair']") "enum"
         | _ => [])
    let pos := o.pyGetD "position" .null
    let posIssues := if pos.isNull then []
      else req (isVec3 pos) (p ++ ".position") "position must be [x,y,z] numbers" "type"
    let rot := o.pyGetD "rotation_euler" .null
    let rotIssues := if rot.isNull then []
      else req (isVec3 rot) (p ++ ".rotation_euler")
        "rotation_euler must be [rx,ry,rz] numbers" "type"
    let scale := o.pyGetD "scale" .null
    let scaleIssues := if scale.isNull then []
      else req (isVec3 scale) (p ++ ".scale") "scale must be [sx,sy,sz] numbers" "type"
    let gc := o.pyGetD "grid_cell" .null
    let gcIssues := if gc.isNull then []
      else
        req gc.isDict (p ++ ".grid_cell") ("grid_cell must be object, got: " ++ gc.typeOf)
            "type" ++
          (if gc.isDict then
             let col := gc.pyGet "col"
             let row := gc.pyGet "row"
             req col.isInt (p ++ ".grid_cell.col")
                 ("grid_cell.col must be integer, got: " ++ col.typeOf) "type" ++
               req row.isInt (p ++ ".grid_cell.row")
                 ("grid_cell.row must be integer, got: " ++ row.typeOf) "type"
           else [])
    let mat := o.pyGetD "material" .null
    let matIssues := if mat.isNull then []
      else req mat.isStr (p ++ ".material") ("material must be string, got: " ++ mat.typeOf)
        "type"
    let coln := o.pyGetD "collection" .null
    let colnIssues := if coln.isNull then []
      else req coln.isStr (p ++ ".collection")
        ("collection must be string, got: " ++ coln.typeOf) "type"
    let props := o.pyGetD "properties" .null
    let propsIssues := if props.isNull then []
      else req props.isDict (p ++ ".properties")
        ("properties must be object, got: " ++ props.typeOf) "type"
    (issues ++ typeIssue ++ idIssues ++ idIssues2 ++ typeIssues ++ posIssues ++ rotIssues ++
      scaleIssues ++ gcIssues ++ matIssues ++ colnIssues ++ propsIssues, ids', seen')

/-- `SceneSpecValidator._validate_objects`. -/
def validateObjects (objects : Json) : List ValidationIssue :=
  match objects with
  | .arr os =>
    let r := os.enum.foldl objectEntryStep ([], [], [])
    r.1 ++
      (if !r.2.1.isEmpty && decide (r.2.1.length ≠ r.2.1.dedup.length) then
        [⟨"$.objects", "object ids must be unique", "unique"⟩]
      else [])
  | _ => req false "$.objects" ("objects must be array, got: " ++ objects.typeOf) "type"

/-- Issues for one entry of `lighting`. -/
def lightEntryIssues (i : ℕ) (L : Json) : List ValidationIssue :=
  let p := "$.lighting[" ++ toString i ++ "]"
  req L.isDict p ("light must be object, got: " ++ L.typeOf) "type" ++
    (if !L.isDict then []
     else
       let ltype := L.pyGet "type"
       req ltype.isStr (p ++ ".type") ("type must be string, got: " ++ ltype.typeOf) "type" ++
       (match ltype with
        | .str s => req (lightTypeAllowed s) (p ++ ".type")
            "type must be one of ['area', 'point', 'spot', 'sun']" "enum"
        | _ => []) ++
       (let pos := L.pyGet "position"
        req (isVec3 pos) (p ++ ".position") "position must be [x,y,z] numbers" "type") ++
       (let rot := L.pyGetD "rotation_euler" .null
        if rot.isNull then []
        else req (isVec3 rot) (p ++ ".rotation_euler")
          "rotation_euler must be [rx,ry,rz] numbers" "type") ++
       (let intensity := L.pyGet "intensity"
        req intensity.isNum (p ++ ".intensity")
            ("intensity must be number, got: " ++ intensity.typeOf) "type" ++
          (if intensity.isNum then
             req (decide ((0 : ℚ) ≤ intensity.asNum) && decide (intensity.asNum ≤ 10000))
               (p ++ ".intensity") "intensity must be in [0, 10000]" "range"
           else [])) ++
       (let color := L.pyGetD "color_rgb" (.arr [.float 1, .float 1, .float 1])
        req (isVec3 color) (p ++ ".color_rgb") "color_rgb must be [r,g,b] numbers" "type" ++
          (match color with
           | .arr xs =>
             if decide (xs.length = 3) && xs.all Json.isNum then
               req (componentsInUnit xs) (p ++ ".color_rgb")
                 "color_rgb components must be in [0,1]" "range"
             else []
           | _ => [])))

/-- `SceneSpecValidator._validate_lighting`. -/
def validateLighting (lights : Json) : List ValidationIssue :=
  match lights with
  | .arr ls =>
    req (decide (1 ≤ ls.length)) "$.lighting" "lighting must contain at least one light"
        "minItems" ++
      (ls.enum.map (fun iL => lightEntryIssues iL.1 iL.2)).flatten
  | _ => req false "$.lighting" ("lighting must be array, got: " ++ lights.typeOf) "type"

/-- `SceneSpecValidator._validate_camera`. -/
def validateCamera (cam : Json) : List ValidationIssue :=
  if !cam.isDict then
    req cam.isDict "$.camera" ("camera must be object, got: " ++ cam.typeOf) "type"
  else
    let pos := cam.pyGet "position"
    let rot := cam.pyGet "rotation_euler"
    req (isVec3 pos) "$.camera.position" "position must be [x,y,z] numbers" "type" ++
    req (isVec3 rot) "$.camera.rotation_euler" "rotation_euler must be [rx,ry,rz] numbers"
      "type" ++
    (let fov := cam.pyGetD "fov_deg" (.float 60)
     req fov.isNum "$.camera.fov_deg" ("fov_deg must be number, got: " ++ fov.typeOf)
         "type" ++
       (if fov.isNum then
          req (decide ((20 : ℚ) ≤ fov.asNum) && decide (fov.asNum ≤ 120))
            "$.camera.fov_deg" "fov_deg must be in [20, 120]" "range"
        else []))

/-- `SceneSpecValidator._validate_constraints`. -/
def validateConstraints (cons : Json) : List ValidationIssue :=
  if !cons.isDict then
    req cons.isDict "$.constraints" ("constraints must be object, got: " ++ cons.typeOf)
      "type"
  else
    (let mpl := cons.pyGetD "min_path_length_cells" .null
     if mpl.isNull then []
     else
       req mpl.isInt "$.constraints.min_path_length_cells"
           ("min_path_length_cells must be integer, got: " ++ mpl.typeOf) "type" ++
         (if mpl.isInt then
            req (decide (5 ≤ mpl.asInt)) "$.constraints.min_path_length_cells"
              "min_path_length_cells must be >= 5" "minimum"
          else [])) ++
    (let rtg := cons.pyGetD "require_traversable_start_to_goal" (.bool true)
     req rtg.isBool "$.constraints.require_traversable_start_to_goal"
       ("require_traversable_start_to_goal must be boolean, got: " ++ rtg.typeOf) "type") ++
    (let mp := cons.pyGetD "max_polycount" .null
     if mp.isNull then []
     else
       req mp.isInt "$.constraints.max_polycount"
           ("max_polycount must be integer, got: " ++ mp.typeOf) "type" ++
         (if mp.isInt then
            req (decide (1000 ≤ mp.asInt)) "$.constraints.max_polycount"
              "max_polycount must be >= 1000" "minimum"
          else []))

/-! ### Cross-field constraints (validate, lines 169–232)

The whole block is wrapped in a best-effort `try`, and each per-object step in
its own `try/continue`; a non-dict object or a truthy non-dict
`grid_cell`/`properties` makes that object contribute nothing.  Iterating a
truthy non-list `objects` value yields no dict elements (or aborts the whole
best-effort block), so it contributes nothing either. -/

/-- `str(o.get("type", "")).lower()`. -/
def objTypeLower (o : Json) : String :=
  strLower (Json.pyStr (o.pyGetD "type" (.str "")))

/-- The `(col, row)` of `o.get("grid_cell", {}) or {}` when both are Python
ints; `none` when the object or cell shape makes the source `continue`. -/
def objGridCell (o : Json) : Option (ℤ × ℤ) :=
  match (o.pyGetD "grid_cell" (.obj [])).pyOr (.obj []) with
  | .obj kvs =>
    let gc := Json.obj kvs
    let col := gc.pyGetD "col" .null
    let row := gc.pyGetD "row" .null
    if col.isInt && row.isInt then some (col.asInt, row.asInt) else none
  | _ => none

/-- The objects list the cross-field block iterates over. -/
def objsList (spec : Json) : List Json :=
  match (spec.pyGetD "objects" (.arr [])).pyOr (.arr []) with
  | .arr l => l
  | _ => []

/-- Grid cells of objects of a given (lowercased) type. -/
def cellsOfType (objs : List Json) (t : String) : List (ℤ × ℤ) :=
  objs.filterMap (fun o =>
    match o with
    | .obj _ => if objTypeLower o = t then objGridCell o else none
    | _ => none)

def crossFieldIssues (spec : Json) : List ValidationIssue :=
  let objs := objsList spec
  let roomCells := cellsOfType objs "room"
  let corridorCells := cellsOfType objs "corridor_segment"
  let doorIssues := (objs.enum.map (fun io =>
    let o := io.2
    match o with
    | .obj _ =>
      if objTypeLower o ≠ "door" then []
      else
        match objGridCell o with
        | none => []
        | some (col, row) =>
          let sameCellOk := (col, row) ∈ roomCells ∨ (col, row) ∈ corridorCells
          let adj := [(col + 1, row), (col - 1, row), (col, row + 1), (col, row - 1)]
          let adjacentOk := adj.any (fun a =>
            decide (a ∈ roomCells) || decide (a ∈ corridorCells))
          if sameCellOk ∨ adjacentOk = true then []
          else [(⟨"$.objects[" ++ toString io.1 ++ "]",
            "Door must be adjacent to a room or corridor cell", "cross_constraint"⟩ :
              ValidationIssue)]
    | _ => [])).flatten
  let corridorIssues := (objs.enum.map (fun io =>
    let o := io.2
    match o with
    | .obj _ =>
      if objTypeLower o ≠ "corridor_segment" then []
      else
        match (o.pyGetD "properties" (.obj [])).pyOr (.obj []) with
        | .obj pkvs =>
          let props := Json.obj pkvs
          let direction :=
            strLower (Json.pyStr ((props.pyGetD "direction" (.str "")).pyOr (.str "")))
          if direction = "north" ∨ direction = "south" ∨ direction = "east" ∨
              direction = "west" then []
          else [(⟨"$.objects[" ++ toString io.1 ++ "].properties.direction",
            "corridor_segment.properties.direction must be one of " ++
              "\x7b'north','south','east','west'\x7d", "enum"⟩ : ValidationIssue)]
        | _ => []
    | _ => [])).flatten
  doorIssues ++ corridorIssues

/-! ### The validator entry point

`SceneSpecValidator.validate` accumulates issues in source order.  Two spots
can raise on malformed input and are modelled with `Except`:
* line 121, `units in UNITS_ALLOWED`, raises `TypeError` when `units` is
  unhashable (a list or dict);
* line 166, `cons.get(...)` on `spec.get("constraints", {}) or {}`, raises
  `AttributeError` when `constraints` is a truthy non-dict. -/

inductive PyErr where
  | typeError (msg : String)
  | attributeError (msg : String)
  | valueError (msg : String)
deriving DecidableEq

def requiredKeys : List String :=
  ["version", "domain", "seed", "objects", "lighting", "camera"]

def SceneSpecValidator.validate (expect_version : Option String) (spec : Json) :
    Except PyErr (List ValidationIssue) :=
  if !spec.isDict then
    .ok [⟨"$", "Spec must be an object, got: " ++ spec.typeOf, "type"⟩]
  else
    let reqIssues := (requiredKeys.map (fun k =>
      req (spec.hasKey k) "$" ("Missing required field: " ++ k) "required")).flatten
    let version := spec.pyGet "version"
    let versionIssues :=
      if version.isNull then []
      else
        req version.isStr "$.version" ("version must be string, got: " ++ version.typeOf)
            "type" ++
          (match version with
           | .str s =>
             req (versionMatches s) "$.version" "version must match N.N.N" "format" ++
               (match expect_version with
                | some e => req (decide (s = e)) "$.version" ("expected version " ++ e)
                    "mismatch"
                | none => [])
           | _ => [])
    let domain := spec.pyGet "domain"
    let domainIssues :=
      if domain.isNull then []
      else
        req domain.isStr "$.domain" ("domain must be string, got: " ++ domain.typeOf)
            "type" ++
          (match domain with
           | .str s => req (domainAllowed s) "$.domain"
               "domain must be one of ['film_interior', 'procedural_dungeon']" "enum"
           | _ => [])
    let units := spec.pyGetD "units" (.str "meters")
    if !units.hashable then
      .error (.typeError ("unhashable type: '" ++ units.typeOf ++ "'"))
    else
      let unitsIssues := req (units.strEq "meters") "$.units" "units must be 'meters'" "enum"
      let seed := spec.pyGet "seed"
      let seedIssues :=
        if seed.isNull then []
        else
          req seed.isInt "$.seed" ("seed must be integer, got: " ++ seed.typeOf) "type" ++
            (if seed.isInt then
               req (decide (0 ≤ seed.asInt)) "$.seed" "seed must be >= 0" "minimum"
             else [])
      let metadataIssues :=
        if spec.hasKey "metadata" then validateMetadata (spec.pyGet "metadata") else []
      let gridIssues :=
        if spec.hasKey "grid" then validateGrid (spec.pyGet "grid")
        else if domain.strEq "procedural_dungeon" then
          [⟨"$.grid", "grid is required for procedural_dungeon domain", "required"⟩]
        else []
      let materialsIssues :=
        if spec.hasKey "materials" then validateMaterials (spec.pyGet "materials") else []
      let collectionsIssues :=
        if spec.hasKey "collections" then validateCollections (spec.pyGet "collections")
        else []
      let objectsIssues :=
        if spec.hasKey "objects" then validateObjects (spec.pyGet "objects") else []
      let lightingIssues :=
        if spec.hasKey "lighting" then validateLighting (spec.pyGet "lighting") else []
      let cameraIssues :=
        if spec.hasKey "camera" then validateCamera (spec.pyGet "camera") else []
      let constraintsIssues :=
        if spec.hasKey "constraints" then validateConstraints (spec.pyGet "constraints")
        else []
      let cons := (spec.pyGetD "constraints" (.obj [])).pyOr (.obj [])
      if !cons.isDict then
        .error (.attributeError ("'" ++ cons.typeOf ++ "' object has no attribute 'get'"))
      else
        .ok (reqIssues ++ versionIssues ++ domainIssues ++ unitsIssues ++ seedIssues ++
          metadataIssues ++ gridIssues ++ materialsIssues ++ collectionsIssues ++
          objectsIssues ++ lightingIssues ++ cameraIssues ++ constraintsIssues ++
          crossFieldIssues spec)

/-- `validate_scene_spec(spec, expect_version) -> (ok, issues)`. -/
def validate_scene_spec (spec : Json) (expect_version : Option String) :
    Except PyErr (Bool × List ValidationIssue) :=
  (SceneSpecValidator.validate expect_version spec).map (fun issues =>
    (issues.isEmpty, issues))

/-- The aggregate message `assert_valid_scene_spec` raises with. -/
def validationFailMsg (issues : List ValidationIssue) : String :=
  "Scene spec validation failed:\n" ++
    String.intercalate "\n" (issues.map (fun i => "- " ++ i.toStr))

/-- `assert_valid_scene_spec(spec, expect_version)`: `some msg` models a raised
`SpecValidationError` with that message, `none` a normal return. -/
def assert_valid_scene_spec (spec : Json) (expect_version : Option String) :
    Except PyErr (Option String) :=
  (validate_scene_spec spec expect_version).map (fun r =>
    if r.1 then none else some (validationFailMsg r.2))

/-! ## Spec integration of the reachability gate
    (traversability.py, lines 119–251) -/

/-- `int(-7.9) = -7`: Python `int()` truncates floats toward zero. -/
def ratTruncToZero (q : ℚ) : ℤ :=
  if 0 ≤ q then ⌊q⌋ else -⌊-q⌋

def digitsToNat (l : List Char) : ℕ :=
  l.foldl (fun a c => a * 10 + (c.toNat - '0'.toNat)) 0

/-- `int(s)` on a string: optional sign and a nonempty digit run (surrounding
whitespace stripped), else `ValueError`. -/
def pyParseInt (s : String) : Except PyErr ℤ :=
  let t := strTrim s
  let sd : ℤ × List Char :=
    match t.toList with
    | '+' :: r => (1, r)
    | '-' :: r => (-1, r)
    | r => (1, r)
  if !sd.2.isEmpty && sd.2.all Char.isDigit then
    .ok (sd.1 * (digitsToNat sd.2 : ℤ))
  else .error (.valueError ("invalid literal for int(): " ++ s))

/-- Python `int(v)`. -/
def pyInt : Json → Except PyErr ℤ
  | .int n => .ok n
  | .bool b => .ok (if b then 1 else 0)
  | .float q => .ok (ratTruncToZero q)
  | .str s => pyParseInt s
  | v => .error (.typeError ("int() argument must be a number, not '" ++ v.typeOf ++ "'"))

/-- `_extract_grid_dims(spec)`.  `spec.get`/`grid.get` on non-dicts and failing
`int()` conversions raise. -/
def extract_grid_dims (spec : Json) : Except PyErr (ℤ × ℤ) := do
  match spec with
  | .obj _ =>
    let grid := (spec.pyGet "grid").pyOr (.obj [])
    match grid with
    | .obj _ =>
      let dims := (grid.pyGet "dimensions").pyOr (.obj [])
      match dims with
      | .obj _ =>
        let cols ← pyInt (dims.pyGetD "cols" (.int 0))
        let rows ← pyInt (dims.pyGetD "rows" (.int 0))
        pure (cols, rows)
      | v => throw (.attributeError ("'" ++ v.typeOf ++ "' object has no attribute 'get'"))
    | v => throw (.attributeError ("'" ++ v.typeOf ++ "' object has no attribute 'get'"))
  | v => throw (.attributeError ("'" ++ v.typeOf ++ "' object has no attribute 'get'"))

/-- The spec-level `traversable_cells` loop.  It runs inside a bare
`try/except: pass`; a failing `int()` aborts the loop but keeps the cells
already added. -/
def specLevelForcedOpen (cols rows : ℤ) : List Json → Finset Cell → Finset Cell
  | [], acc => acc
  | c :: rest, acc =>
    match c with
    | .arr [a, b] =>
      match pyInt a, pyInt b with
      | .ok ca, .ok cb =>
        specLevelForcedOpen cols rows rest
          (if 0 ≤ ca ∧ ca < cols ∧ 0 ≤ cb ∧ cb < rows then insert (ca, cb) acc else acc)
      | _, _ => acc
    | _ => specLevelForcedOpen cols rows rest acc

/-- The per-cell loop over an object's `traversable_cells`; returns the grown
set and whether it completed without raising (a raise skips the rest of that
object's processing). -/
def objCellsForcedOpen (cols rows : ℤ) : List Json → Finset Cell → Finset Cell × Bool
  | [], acc => (acc, true)
  | c :: rest, acc =>
    match c with
    | .arr [a, b] =>
      match pyInt a, pyInt b with
      | .ok ca, .ok cb =>
        objCellsForcedOpen cols rows rest
          (if 0 ≤ ca ∧ ca < cols ∧ 0 ≤ cb ∧ cb < rows then insert (ca, cb) acc else acc)
      | _, _ => (acc, false)
    | _ => objCellsForcedOpen cols rows rest acc

/-- The `walkable_area` rectangle of forced-open cells. -/
def walkableRect (cols rows minCol maxCol minRow maxRow : ℤ) : Finset Cell :=
  ((Finset.Ico minCol maxCol) ×ˢ (Finset.Ico minRow maxRow)).filter
    (fun p => 0 ≤ p.1 ∧ p.1 < cols ∧ 0 ≤ p.2 ∧ p.2 < rows)

/-- The `walkable_area` step of one object: add the rectangle of forced-open
cells when the shape is a well-formed rectangle; a raise while reading the
bounds keeps the sets unchanged. -/
def stepWalkable (cols rows : ℤ) (o : Json) (bf : Finset Cell × Finset Cell) :
    Finset Cell × Finset Cell :=
  match o.pyGet "walkable_area" with
  | .obj wkvs =>
    let wa := Json.obj wkvs
    if strLower (Json.pyStr (wa.pyGetD "type" (.str ""))) = "rectangle" then
      match (wa.pyGetD "bounds" (.obj [])).pyOr (.obj []) with
      | .obj bkvs =>
        let b := Json.obj bkvs
        match pyInt (b.pyGetD "min_col" (.int 0)), pyInt (b.pyGetD "max_col" (.int 0)),
            pyInt (b.pyGetD "min_row" (.int 0)), pyInt (b.pyGetD "max_row" (.int 0)) with
        | .ok minCol, .ok maxCol, .ok minRow, .ok maxRow =>
          (bf.1, bf.2 ∪ walkableRect cols rows minCol maxCol minRow maxRow)
        | _, _, _, _ => bf
      | _ => bf
    else bf
  | _ => bf

/-- The object-level `traversable_cells` and `walkable_area` steps; a raise in
the cells loop skips the walkable-area step of the same object. -/
def stepTraversableThenWalkable (cols rows : ℤ) (o : Json)
    (bf : Finset Cell × Finset Cell) : Finset Cell × Finset Cell :=
  match (o.pyGetD "traversable_cells" (.arr [])).pyOr (.arr []) with
  | .arr cells =>
    match objCellsForcedOpen cols rows cells bf.2 with
    | (fo2, true) => stepWalkable cols rows o (bf.1, fo2)
    | (fo2, false) => (bf.1, fo2)
  | .str _ => stepWalkable cols rows o bf
  | .obj _ => stepWalkable cols rows o bf
  | _ => bf

/-- One object's contribution to `(blocked, forced_open)` in
`_extract_blocked_from_spec`.  The object body runs in a `try/except:
continue`; each step's possible raise keeps the effects of earlier steps. -/
def processObjBlocked (cols rows : ℤ) (acc : Finset Cell × Finset Cell) (o : Json) :
    Finset Cell × Finset Cell :=
  match o with
  | .obj _ =>
    -- props = o.get("properties") or {}
    match (o.pyGet "properties").pyOr (.obj []) with
    | .obj pkvs =>
      let props := Json.obj pkvs
      -- force-blocked cells
      let bl1 :=
        if (props.pyGetD "blocked" (.bool false)).truthy then
          match o.pyGet "grid_cell" with
          | .obj gkvs =>
            let gc := Json.obj gkvs
            let col := gc.pyGetD "col" .null
            let row := gc.pyGetD "row" .null
            if col.isInt && row.isInt then
              if 0 ≤ col.asInt ∧ col.asInt < cols ∧ 0 ≤ row.asInt ∧ row.asInt < rows then
                insert (col.asInt, row.asInt) acc.1
              else acc.1
            else acc.1
          | _ => acc.1
        else acc.1
      -- doors force-open their cell; a truthy non-dict grid_cell raises here
      if objTypeLower o = "door" then
        match (o.pyGetD "grid_cell" (.obj [])).pyOr (.obj []) with
        | .obj g2 =>
          let gc := Json.obj g2
          let col := gc.pyGetD "col" .null
          let row := gc.pyGetD "row" .null
          let fo1 :=
            if col.isInt && row.isInt then
              if 0 ≤ col.asInt ∧ col.asInt < cols ∧ 0 ≤ row.asInt ∧ row.asInt < rows then
                insert (col.asInt, row.asInt) acc.2
              else acc.2
            else acc.2
          stepTraversableThenWalkable cols rows o (bl1, fo1)
        | _ => (bl1, acc.2)
      else
        stepTraversableThenWalkable cols rows o (bl1, acc.2)
    | _ => acc
  | _ => acc

/-- `_extract_blocked_from_spec(spec)` (traversability.py lines 127–199). -/
def extract_blocked_from_spec (spec : Json) : Except PyErr (Finset Cell) := do
  let cr ← extract_grid_dims spec
  let cols := cr.1
  let rows := cr.2
  -- spec-level traversable cells, inside a bare try/except
  let fo0 :=
    match (spec.pyGetD "traversable_cells" (.arr [])).pyOr (.arr []) with
    | .arr cells => specLevelForcedOpen cols rows cells ∅
    | _ => (∅ : Finset Cell)
  -- objs = spec.get("objects") or []; iterating a truthy number raises
  match (spec.pyGet "objects").pyOr (.arr []) with
  | .arr objs =>
    let bf := objs.foldl (processObjBlocked cols rows) (∅, fo0)
    pure (bf.1 \ bf.2)
  | .str _ => pure ((∅ : Finset Cell) \ fo0)
  | .obj _ => pure ((∅ : Finset Cell) \ fo0)
  | v => throw (.typeError ("'" ++ v.typeOf ++ "' object is not iterable"))

/-- `_default_start_goal(spec, cols, rows)`. -/
def default_start_goal (cols rows : ℤ) : Cell × Cell :=
  let start := (0, 0)
  let goal := if 0 < cols ∧ 0 < rows then (max 0 (cols - 1), max 0 (rows - 1)) else (0, 0)
  (start, goal)

/-- The `info` dict returned by `is_spec_traversable`. -/
structure TravInfo where
  cols : ℤ
  rows : ℤ
  start : Cell
  goal : Cell
  blocked_count : ℕ
deriving DecidableEq

/-- The minimum path length `is_spec_traversable` enforces: the given
`min_len`, else `constraints.min_path_length_cells` when that is a
non-negative int (raises inside this best-effort block are swallowed,
leaving no minimum). -/
def effectiveMinLen (spec : Json) (min_len : Option ℤ) : Option ℤ :=
  match min_len with
  | some m => some m
  | none =>
    match (spec.pyGetD "constraints" (.obj [])).pyOr (.obj []) with
    | .obj ckvs =>
      let mpl := (Json.obj ckvs).pyGetD "min_path_length_cells" .null
      if mpl.isInt && decide (0 ≤ mpl.asInt) then some mpl.asInt else none
    | _ => none

/-- `is_spec_traversable(spec, start, goal, min_len)` (traversability.py
lines 212–251). -/
def is_spec_traversable (spec : Json) (start goal : Option Cell) (min_len : Option ℤ) :
    Except PyErr (Bool × Option ℕ × TravInfo) := do
  let cr ← extract_grid_dims spec
  let cols := cr.1
  let rows := cr.2
  let blocked ← extract_blocked_from_spec spec
  let sg := default_start_goal cols rows
  let s := start.getD sg.1
  let g := goal.getD sg.2
  let r := check_traversable cols rows blocked s g (effectiveMinLen spec min_len)
  pure (r.1, r.2, ⟨cols, rows, s, g, blocked.card⟩)

/-- An object explicitly marks cell `c` blocked: dict object, truthy
`properties.blocked`, and a dict `grid_cell` whose int `col`/`row` name `c`. -/
def objMarksBlocked (o : Json) (c : Cell) : Bool :=
  match o with
  | .obj _ =>
    match (o.pyGet "properties").pyOr (.obj []) with
    | .obj pkvs =>
      ((Json.obj pkvs).pyGetD "blocked" (.bool false)).truthy &&
      (match o.pyGet "grid_cell" with
       | .obj gkvs =>
         let gc := Json.obj gkvs
         let col := gc.pyGetD "col" .null
         let row := gc.pyGetD "row" .null
         col.isInt && row.isInt && decide (col.asInt = c.1) && decide (row.asInt = c.2)
       | _ => false)
    | _ => false
  | _ => false

/-- An object is a door sitting at cell `c` (with the dict shapes the source
reads without raising). -/
def doorForcesOpen (o : Json) (c : Cell) : Bool :=
  match o with
  | .obj _ =>
    match (o.pyGet "properties").pyOr (.obj []) with
    | .obj _ =>
      decide (objTypeLower o = "door") &&
      (match (o.pyGetD "grid_cell" (.obj [])).pyOr (.obj []) with
       | .obj gkvs =>
         let gc := Json.obj gkvs
         let col := gc.pyGetD "col" .null
         let row := gc.pyGetD "row" .null
         col.isInt && row.isInt && decide (col.asInt = c.1) && decide (row.asInt = c.2)
       | _ => false)
    | _ => false
  | _ => false

/-- The spec-level forced-open set (`traversable_cells`, lines 141–149). -/
def specForcedOpen0 (spec : Json) (cols rows : ℤ) : Finset Cell :=
  match (spec.pyGetD "traversable_cells" (.arr [])).pyOr (.arr []) with
  | .arr cells => specLevelForcedOpen cols rows cells ∅
  | _ => ∅

/-- The forced-open set accumulated by the object loop. -/
def forcedOpenSet (spec : Json) (cols rows : ℤ) (objs : List Json) : Finset Cell :=
  (objs.foldl (processObjBlocked cols rows) (∅, specForcedOpen0 spec cols rows)).2

/-- The blocked-set step of one object (the first phase of the loop body). -/
def blStep (cols rows : ℤ) (B : Finset Cell) (o : Json) : Finset Cell :=
  match o with
  | .obj _ =>
    match (o.pyGet "properties").pyOr (.obj []) with
    | .obj pkvs =>
      if ((Json.obj pkvs).pyGetD "blocked" (.bool false)).truthy then
        match o.pyGet "grid_cell" with
        | .obj gkvs =>
          let gc := Json.obj gkvs
          let col := gc.pyGetD "col" .null
          let row := gc.pyGetD "row" .null
          if col.isInt && row.isInt then
            if 0 ≤ col.asInt ∧ col.asInt < cols ∧ 0 ≤ row.asInt ∧ row.asInt < rows then
              insert (col.asInt, row.asInt) B
            else B
          else B
        | _ => B
      else B
    | _ => B
  | _ => B

/-! ## Wall-opening carving (spec_executor.py)

Lengths are Python floats, modelled as exact rationals; the float literals in
the source (`1e-4`, `0.2`, `0.5`, `0.9`) are the corresponding rationals. -/

/-- The degeneracy epsilon `eps = 1e-4`. -/
def segEps : ℚ := 1 / 10000

/-- A door opening as captured by `_collect_door_map`: a normalised direction
and optional width hints (`width_m` stored as float, `width_cells` as int). -/
structure DoorEntry where
  direction : String
  width_m : Option ℚ
  width_cells : Option ℤ
deriving DecidableEq

/-- `_door_width_m(d)` (spec_executor.py lines 831–843). -/
def doorWidthM (cell_size : ℚ) (d : DoorEntry) : ℚ :=
  match d.width_m with
  | some w => max 0.5 w
  | none =>
    match d.width_cells with
    | some k => if 0 < k then max 0.5 ((k : ℚ) * cell_size) else 0.9
    | none => 0.9

/-- `_opening_centers_and_widths(total_len, doors_side)` (lines 846–856):
evenly spaced centers `((k+1)/(n+1))·L` zipped with clamped widths. -/
def opening_centers_and_widths (cell_size total_len : ℚ)
    (doors_side : List DoorEntry) : List (ℚ × ℚ) :=
  let n := doors_side.length
  if n ≤ 0 then []
  else
    let widths := doors_side.map (fun d => max 0.2 (doorWidthM cell_size d))
    let centers := (List.range n).map (fun k => (((k : ℚ) + 1) / ((n : ℚ) + 1)) * total_len)
    centers.zip widths

/-- The interval-subtraction core of `_spawn_wall_segments_for_side`
(lines 987–998): complement of the union of the openings over `[0, total_len]`,
skipping slivers of length `≤ eps`. -/
def solidSegments (total_len : ℚ) (openings : List (ℚ × ℚ)) : List (ℚ × ℚ) :=
  let step := fun (acc : List (ℚ × ℚ) × ℚ) (cw : ℚ × ℚ) =>
    let left := max 0 (cw.1 - 0.5 * cw.2)
    let right := min total_len (cw.1 + 0.5 * cw.2)
    ((if segEps < left - acc.2 then acc.1 ++ [(acc.2, left)] else acc.1),
      max acc.2 right)
  let r := openings.foldl step ([], 0)
  if segEps < total_len - r.2 then r.1 ++ [(r.2, total_len)] else r.1

/-- The solid wall segments `_spawn_wall_segments_for_side` actually spawns for
one side: the carved intervals, skipping the degenerate ones
(`if seg_len <= eps: continue`, lines 1003–1009). -/
def spawn_wall_segments_for_side (cell_size total_len : ℚ)
    (doors_side : List DoorEntry) : List (ℚ × ℚ) :=
  (solidSegments total_len (opening_centers_and_widths cell_size total_len doors_side)).filter
    (fun se => decide (segEps < max 0 (se.2 - se.1)))

/-! ## The door map (`_collect_door_map`, spec_executor.py lines 692–731) -/

/-- Python `float(v)` on a string: optional sign, digits with an optional
fractional part; anything else raises `ValueError`. -/
def pyParseFloat (s : String) : Except PyErr ℚ :=
  let t := strTrim s
  let sd : ℚ × List Char :=
    match t.toList with
    | '+' :: r => (1, r)
    | '-' :: r => (-1, r)
    | r => (1, r)
  let parts := (String.mk sd.2).split (fun c => c = '.')
  match parts with
  | [ip] =>
    if !ip.isEmpty && ip.toList.all Char.isDigit then
      .ok (sd.1 * (digitsToNat ip.toList : ℚ))
    else .error (.valueError ("could not convert string to float: " ++ s))
  | [ip, fp] =>
    if (!ip.isEmpty || !fp.isEmpty) && ip.toList.all Char.isDigit &&
        fp.toList.all Char.isDigit then
      .ok (sd.1 * ((digitsToNat ip.toList : ℚ) +
        (digitsToNat fp.toList : ℚ) / ((10 : ℚ) ^ fp.length)))
    else .error (.valueError ("could not convert string to float: " ++ s))
  | _ => .error (.valueError ("could not convert string to float: " ++ s))

/-- Python `float(v)`. -/
def pyFloat : Json → Except PyErr ℚ
  | .int n => .ok n
  | .bool b => .ok (if b then 1 else 0)
  | .float q => .ok q
  | .str s => pyParseFloat s
  | v => .error (.typeError ("float() argument must be a number, not '" ++ v.typeOf ++ "'"))

/-- One object's door-map entry; any raise skips the door (`try/continue`). -/
def collectDoorEntry (o : Json) : Option ((ℤ × ℤ) × DoorEntry) :=
  match o with
  | .obj _ =>
    if objTypeLower o ≠ "door" then none
    else
      match (o.pyGetD "grid_cell" (.obj [])).pyOr (.obj []) with
      | .obj gkvs =>
        let gc := Json.obj gkvs
        match pyInt (gc.pyGetD "col" (.int 0)), pyInt (gc.pyGetD "row" (.int 0)) with
        | .ok col, .ok row =>
          match (o.pyGetD "properties" (.obj [])).pyOr (.obj []) with
          | .obj pkvs =>
            let props := Json.obj pkvs
            let d0 := strLower (Json.pyStr ((props.pyGetD "direction" (.str "")).pyOr (.str "")))
            let dir := if d0 = "north" ∨ d0 = "south" ∨ d0 = "east" ∨ d0 = "west"
              then d0 else "east"
            let wm := match props.get? "width_m" with
              | some v => (pyFloat v).toOption
              | none => none
            let wcells := match props.get? "width_cells" with
              | some v => (pyInt v).toOption
              | none => none
            some ((col, row), ⟨dir, wm, wcells⟩)
          | _ => none
        | _, _ => none
      | _ => none
  | _ => none

/-- `_collect_door_map(objs)` as an insertion-ordered association list. -/
def collect_door_map (objs : List Json) : List ((ℤ × ℤ) × DoorEntry) :=
  objs.filterMap collectDoorEntry

/-- `door_map.get((col, row), [])`. -/
def doorsAt (doorMap : List ((ℤ × ℤ) × DoorEntry)) (cell : ℤ × ℤ) : List DoorEntry :=
  (doorMap.filter (fun e => e.1 = cell)).map (·.2)

/-! ## The host scene-graph world

The host (`bpy.data`) exposes category-scoped managers with create-by-name,
iterate, `get`, and remove-by-identity (the capability set the snapshot/diff
cleanup relies on, and the one the repository's test stubs implement).  We
track the *names* alive in each category — exactly what
`snapshot_datablocks`/`cleanup_new_datablocks` read — plus the
collection-to-object membership links that `collection.objects.link`,
`users_collection` unlinking and `do_unlink` removal manipulate. -/

structure Snapshot where
  collections : Finset String
  objects : Finset String
  meshes : Finset String
  materials : Finset String
  lights : Finset String
  cameras : Finset String
deriving DecidableEq

structure World where
  collections : Finset String
  objects : Finset String
  meshes : Finset String
  materials : Finset String
  lights : Finset String
  cameras : Finset String
  links : Finset (String × String)
deriving DecidableEq

def World.empty : World := ⟨∅, ∅, ∅, ∅, ∅, ∅, ∅⟩

/-- `snapshot_datablocks(bpy)` (cleanup.py lines 12–90). -/
def snapshot_datablocks (w : World) : Snapshot :=
  ⟨w.collections, w.objects, w.meshes, w.materials, w.lights, w.cameras⟩

/-- The decimal rendering of a natural number (most significant digit
first). -/
def natDecimal (n : ℕ) : String :=
  if n = 0 then "0"
  else String.mk (((Nat.digits 10 n).map (fun d => Char.ofNat (48 + d))).reverse)

/-- The idx-th name the source increments to (`f"{base}_{idx}"`). -/
def suffixName (base : String) (idx : ℕ) : String := base ++ "_" ++ natDecimal idx

/-- The `while data.objects.get(name) is not None` renaming loop of the
generic build path: keep `base` when free, otherwise take the first free
`base_idx` for `idx = 2, 3, …` (a bounded search finds it: a world holds
finitely many names). -/
def freshName (used : Finset String) (base : String) : String :=
  if base ∉ used then base
  else
    match (List.range (used.card + 2)).find?
        (fun k => suffixName base (k + 2) ∉ used) with
    | some k => suffixName base (k + 2)
    | none => suffixName base (used.card + 4)

/-- The name-level effects the builders issue against the host world. -/
inductive HostOp where
  | ensureCollection (n : String)
  | newObject (n : String)
  | newMesh (n : String)
  | ensureMaterial (n : String)
  | newLight (n : String)
  | newCamera (n : String)
  | link (c o : String)
  | genericObject (base : String) (withMesh : Bool) (temp : String)
deriving DecidableEq

def applyOp (w : World) (op : HostOp) : World :=
  match op with
  | .ensureCollection n => { w with collections := insert n w.collections }
  | .newObject n => { w with objects := insert n w.objects }
  | .newMesh n => { w with meshes := insert n w.meshes }
  | .ensureMaterial n => { w with materials := insert n w.materials }
  | .newLight n => { w with lights := insert n w.lights }
  | .newCamera n => { w with cameras := insert n w.cameras }
  | .link c o => { w with links := insert (c, o) w.links }
  | .genericObject base withMesh temp =>
    -- generic-path object creation: rename to a free name, create its mesh
    -- datablock when applicable, create the object, link it into the temp
    -- collection
    let nm := freshName w.objects base
    let w1 := if withMesh then { w with meshes := insert (nm ++ "_mesh") w.meshes } else w
    let w2 := { w1 with objects := insert nm w1.objects }
    { w2 with links := insert (temp, nm) w2.links }

def runOps (ops : List HostOp) (w : World) : World := ops.foldl applyOp w

/-- `cleanup_new_datablocks(pre_snapshot, temp_collection_name, bpy)`
(cleanup.py lines 132–273).  Each removal loop runs over a set difference
computed before the loop; removing every name of a set one by one is the set
difference below.  `_safe_remove_object` unlinks the object everywhere before
removing it; collection removal uses `do_unlink`. -/
def cleanup_new_datablocks (pre : Snapshot) (tempName : String) (w : World) : World :=
  -- remove the temp collection's objects, then the temp collection itself
  let w1 :=
    if tempName ≠ "" ∧ tempName ∈ w.collections then
      let tObjs := (w.links.filter (fun p => p.1 = tempName)).image (fun p => p.2)
      let wA := { w with objects := w.objects \ tObjs,
                         links := w.links.filter (fun p => p.2 ∉ tObjs) }
      { wA with collections := wA.collections.erase tempName,
                links := wA.links.filter (fun p => p.1 ≠ tempName) }
    else w
  -- objects created after the snapshot
  let dObj := w1.objects \ pre.objects
  let w2 := { w1 with objects := w1.objects \ dObj,
                      links := w1.links.filter (fun p => p.2 ∉ dObj) }
  -- meshes, materials, lights, cameras created after the snapshot
  let w3 := { w2 with meshes := w2.meshes \ (w2.meshes \ pre.meshes) }
  let w4 := { w3 with materials := w3.materials \ (w3.materials \ pre.materials) }
  let w5 := { w4 with lights := w4.lights \ (w4.lights \ pre.lights) }
  let w6 := { w5 with cameras := w5.cameras \ (w5.cameras \ pre.cameras) }
  -- collections created after the snapshot
  let dCol := w6.collections \ pre.collections
  { w6 with collections := w6.collections \ dCol,
            links := w6.links.filter (fun p => p.1 ∉ dCol) }

/-- `SpecExecutor._commit_collection` (spec_executor.py lines 333–345): remove
a pre-existing collection already carrying the commit name (idempotent
overwrite), then rename the temp collection to it. -/
def commit_collection (tempName commitName : String) (w : World) : World :=
  let w1 :=
    if commitName ∈ w.collections ∧ commitName ≠ tempName then
      { w with collections := w.collections.erase commitName,
               links := w.links.filter (fun p => p.1 ≠ commitName) }
    else w
  { w1 with collections := insert commitName (w1.collections.erase tempName),
            links := w1.links.image (fun p => if p.1 = tempName then (commitName, p.2) else p) }

/-! ## The build phase, as the sequence of host effects it issues

Each builder yields the list of host operations it performs before either
completing (`none`) or raising (`some err`, with the operations already issued
kept — the executor's `except` block then rolls back). -/

/-- `_build_materials` (spec_executor.py lines 350–368): one material per
entry with a truthy stripped name, skipping names already present
(`new`/skip both leave the name alive).  A non-dict entry raises. -/
def buildMaterialsGo : List Json → List HostOp × Option PyErr
  | [] => ([], none)
  | m :: rest =>
    match m with
    | .obj _ =>
      let name := strTrim (Json.pyStr ((m.pyGet "name").pyOr (.str "")))
      if name = "" then buildMaterialsGo rest
      else
        let r := buildMaterialsGo rest
        (.ensureMaterial name :: r.1, r.2)
    | v => ([], some (.attributeError ("'" ++ v.typeOf ++ "' object has no attribute 'get'")))

def buildMaterialsOps (spec : Json) : List HostOp × Option PyErr :=
  match (spec.pyGetD "materials" (.arr [])).pyOr (.arr []) with
  | .arr ms => buildMaterialsGo ms
  | .str _ => ([], some (.attributeError "'str' object has no attribute 'get'"))
  | .obj _ => ([], some (.attributeError "'str' object has no attribute 'get'"))
  | v => ([], some (.typeError ("'" ++ v.typeOf ++ "' object is not iterable")))

/-- The six effects of spawning one wall segment plus its collision hull. -/
def wallSegmentOps (temp collisionName name : String) : List HostOp :=
  [.newMesh (name ++ "_mesh"), .newObject name, .link temp name,
   .newMesh (name ++ "_COL_mesh"), .newObject (name ++ "_COL"),
   .link collisionName (name ++ "_COL")]

/-- `_spawn_wall_segments_for_side` for a room side: spawn each carved
non-degenerate segment, named with its index in the segment list. -/
def roomSideOps (temp collisionName : String) (label colS rowS : String)
    (cell_size totalLen : ℚ) (doors_side : List DoorEntry) : List HostOp :=
  ((solidSegments totalLen
      (opening_centers_and_widths cell_size totalLen doors_side)).enum.filterMap
    (fun ise =>
      if decide (segEps < max 0 (ise.2.2 - ise.2.1)) then
        some (wallSegmentOps temp collisionName
          ("RoomWall_" ++ label ++ "_" ++ colS ++ "_" ++ rowS ++ "_" ++ toString ise.1))
      else none)).flatten

/-- `_spawn_side_segments_x/_y` for a corridor side (collision hulls named
`CorridorWall{label}COL_...`). -/
def corridorSideOps (temp collisionName : String) (label colS rowS : String)
    (cell_size totalLen : ℚ) (doors_side : List DoorEntry) : List HostOp :=
  ((solidSegments totalLen
      (opening_centers_and_widths cell_size totalLen doors_side)).enum.filterMap
    (fun ise =>
      if decide (segEps < max 0 (ise.2.2 - ise.2.1)) then
        let name := "CorridorWall_" ++ label ++ "_" ++ colS ++ "_" ++ rowS ++ "_" ++
          toString ise.1
        let cname := "CorridorWall" ++ label ++ "COL_" ++ colS ++ "_" ++ rowS ++ "_" ++
          toString ise.1
        some [.newMesh (name ++ "_mesh"), .newObject name, .link temp name,
              .newMesh (cname ++ "_mesh"), .newObject cname, .link collisionName cname]
      else none)).flatten

/-- `_build_dungeon_room` (lines 778–1083), name-level effects. -/
def roomOps (cell_size : ℚ) (doorMap : List ((ℤ × ℤ) × DoorEntry)) (temp : String)
    (o : Json) : List HostOp × Option PyErr :=
  match (o.pyGetD "grid_cell" (.obj [])).pyOr (.obj []) with
  | .obj gkvs =>
    match (o.pyGetD "properties" (.obj [])).pyOr (.obj []) with
    | .obj pkvs =>
      let gc := Json.obj gkvs
      let props := Json.obj pkvs
      match pyInt ((props.pyGetD "width_cells" (.int 1)).pyOr (.int 1)),
          pyInt ((props.pyGetD "height_cells" (.int 1)).pyOr (.int 1)),
          pyInt (gc.pyGetD "col" (.int 0)), pyInt (gc.pyGetD "row" (.int 0)) with
      | .ok w_cells, .ok h_cells, .ok col, .ok row =>
        let colS := toString col
        let rowS := toString row
        let width_m := max 1 ((w_cells : ℚ) * cell_size)
        let depth_m := max 1 ((h_cells : ℚ) * cell_size)
        let collisionName := temp ++ "_COLLISION"
        let doors := doorsAt doorMap (col, row)
        let floorName := "RoomFloor_" ++ colS ++ "_" ++ rowS
        let floorColName := "RoomFloorCOL_" ++ colS ++ "_" ++ rowS
        ([.newMesh (floorName ++ "_mesh"), .newObject floorName, .link temp floorName,
          .ensureCollection collisionName] ++
          roomSideOps temp collisionName "S" colS rowS cell_size width_m
            (doors.filter (fun d => d.direction = "south")) ++
          roomSideOps temp collisionName "N" colS rowS cell_size width_m
            (doors.filter (fun d => d.direction = "north")) ++
          roomSideOps temp collisionName "W" colS rowS cell_size depth_m
            (doors.filter (fun d => d.direction = "west")) ++
          roomSideOps temp collisionName "E" colS rowS cell_size depth_m
            (doors.filter (fun d => d.direction = "east")) ++
          [.newMesh (floorColName ++ "_mesh"), .newObject floorColName,
           .link collisionName floorColName], none)
      | .error e, _, _, _ => ([], some e)
      | _, .error e, _, _ => ([], some e)
      | _, _, .error e, _ => ([], some e)
      | _, _, _, .error e => ([], some e)
    | v => ([], some (.attributeError ("'" ++ v.typeOf ++ "' object has no attribute 'get'")))
  | v => ([], some (.attributeError ("'" ++ v.typeOf ++ "' object has no attribute 'get'")))

/-- `_build_dungeon_corridor` (lines 1085–1302), name-level effects. -/
def corridorOps (cell_size : ℚ) (doorMap : List ((ℤ × ℤ) × DoorEntry)) (temp : String)
    (o : Json) : List HostOp × Option PyErr :=
  match (o.pyGetD "grid_cell" (.obj [])).pyOr (.obj []) with
  | .obj gkvs =>
    match (o.pyGetD "properties" (.obj [])).pyOr (.obj []) with
    | .obj pkvs =>
      let gc := Json.obj gkvs
      let props := Json.obj pkvs
      match pyInt ((props.pyGetD "length_cells" (.int 1)).pyOr (.int 1)),
          pyInt (gc.pyGetD "col" (.int 0)), pyInt (gc.pyGetD "row" (.int 0)) with
      | .ok length_cells, .ok col, .ok row =>
        let direction := strLower (Json.pyStr (props.pyGetD "direction" (.str "east")))
        let colS := toString col
        let rowS := toString row
        let length_m := max cell_size ((length_cells : ℚ) * cell_size)
        let collisionName := temp ++ "_COLLISION"
        let doors := doorsAt doorMap (col, row)
        let floorName := "CorridorFloor_" ++ colS ++ "_" ++ rowS
        let floorColName := "CorridorFloorCOL_" ++ colS ++ "_" ++ rowS
        let sides :=
          if direction = "east" ∨ direction = "west" then
            corridorSideOps temp collisionName "S" colS rowS cell_size length_m
              (doors.filter (fun d => d.direction = "south")) ++
            corridorSideOps temp collisionName "N" colS rowS cell_size length_m
              (doors.filter (fun d => d.direction = "north"))
          else
            corridorSideOps temp collisionName "W" colS rowS cell_size length_m
              (doors.filter (fun d => d.direction = "west")) ++
            corridorSideOps temp collisionName "E" colS rowS cell_size length_m
              (doors.filter (fun d => d.direction = "east"))
        ([.newMesh (floorName ++ "_mesh"), .newObject floorName, .link temp floorName,
          .ensureCollection collisionName] ++ sides ++
          [.newMesh (floorColName ++ "_mesh"), .newObject floorColName,
           .link collisionName floorColName], none)
      | .error e, _, _ => ([], some e)
      | _, .error e, _ => ([], some e)
      | _, _, .error e => ([], some e)
    | v => ([], some (.attributeError ("'" ++ v.typeOf ++ "' object has no attribute 'get'")))
  | v => ([], some (.attributeError ("'" ++ v.typeOf ++ "' object has no attribute 'get'")))

/-- The dungeon fast path's first pass: structural geometry in object order;
a non-dict object raises, keeping earlier effects. -/
def dungeonPass1 (cell_size : ℚ) (doorMap : List ((ℤ × ℤ) × DoorEntry)) (temp : String) :
    List Json → List HostOp × Option PyErr
  | [] => ([], none)
  | o :: rest =>
    match o with
    | .obj _ =>
      let t := objTypeLower o
      let r :=
        if t = "room" then roomOps cell_size doorMap temp o
        else if t = "corridor_segment" then corridorOps cell_size doorMap temp o
        else ([], none)
      match r.2 with
      | some e => (r.1, some e)
      | none =>
        let rr := dungeonPass1 cell_size doorMap temp rest
        (r.1 ++ rr.1, rr.2)
    | v => ([], some (.attributeError ("'" ++ v.typeOf ++ "' object has no attribute 'get'")))

/-- The dungeon fast path's second pass: grid-snapped prop placeholders for
every non-structural object (each gets a mesh, an object and a link). -/
def dungeonPass2 (temp : String) (objs : List Json) : List HostOp :=
  (objs.map (fun o =>
    match o with
    | .obj _ =>
      let t := objTypeLower o
      if t = "room" ∨ t = "corridor_segment" ∨ t = "door" then []
      else
        let oid0 := strTrim (Json.pyStr ((o.pyGet "id").pyOr (.str "")))
        let oid := if oid0 = "" then "obj" else oid0
        let name := "Obj_" ++ oid
        [.newMesh (name ++ "_mesh"), .newObject name, .link temp name]
    | _ => [])).flatten

/-- The dungeon fast path's third pass (lines 474–490): a deterministic
`Obj_{id}` placeholder for every object id, linked into the workspace. -/
def dungeonPass3 (temp : String) (objs : List Json) : List HostOp :=
  (objs.map (fun o =>
    match o with
    | .obj _ =>
      let oid := strTrim (Json.pyStr ((o.pyGet "id").pyOr (.str "")))
      if oid = "" then []
      else [.newObject ("Obj_" ++ oid), .link temp ("Obj_" ++ oid)]
    | _ => [])).flatten

/-- The generic (non-dungeon) build path over one object list. -/
def genericGo (spec : Json) (cell_size : ℚ) (temp : String) :
    List Json → List HostOp × Option PyErr
  | [] => ([], none)
  | o :: rest =>
    match o with
    | .obj _ =>
      let oid := strTrim (Json.pyStr ((o.pyGet "id").pyOr (.str "")))
      if oid = "" then genericGo spec cell_size temp rest
      else
        let otype := strLower (strTrim (Json.pyStr ((o.pyGet "type").pyOr (.str ""))))
        -- the mesh-construction try block: a failing int() conversion leaves
        -- the object without a mesh datablock
        let withMesh :=
          if otype = "room" then
            match (o.pyGetD "properties" (.obj [])).pyOr (.obj []) with
            | .obj pkvs =>
              let props := Json.obj pkvs
              (pyInt ((props.pyGetD "width_cells" (.int 1)).pyOr (.int 1))).isOk &&
                (pyInt ((props.pyGetD "height_cells" (.int 1)).pyOr (.int 1))).isOk
            | _ => false
          else if otype = "corridor_segment" then
            match (o.pyGetD "properties" (.obj [])).pyOr (.obj []) with
            | .obj pkvs =>
              (pyInt (((Json.obj pkvs).pyGetD "length_cells" (.int 1)).pyOr (.int 1))).isOk
            | _ => false
          else true
        let r := genericGo spec cell_size temp rest
        (.genericObject ("Obj_" ++ oid) withMesh temp :: r.1, r.2)
    | v => ([], some (.attributeError ("'" ++ v.typeOf ++ "' object has no attribute 'get'")))

/-- `_build_objects` (spec_executor.py lines 370–600), name-level effects. -/
def buildObjectsOps (spec : Json) (temp : String) : List HostOp × Option PyErr :=
  let domain := Json.pyStr (spec.pyGetD "domain" (.str "procedural_dungeon"))
  match (spec.pyGetD "grid" (.obj [])).pyOr (.obj []) with
  | .obj gkvs =>
    match pyFloat (((Json.obj gkvs).pyGetD "cell_size_m" (.float 1)).pyOr (.float 1)) with
    | .ok cell_size =>
      match (spec.pyGetD "objects" (.arr [])).pyOr (.arr []) with
      | .arr objs =>
        if domain = "procedural_dungeon" then
          let doorMap := collect_door_map objs
          let r1 := dungeonPass1 cell_size doorMap temp objs
          match r1.2 with
          | some e => (r1.1, some e)
          | none => (r1.1 ++ dungeonPass2 temp objs ++ dungeonPass3 temp objs, none)
        else genericGo spec cell_size temp objs
      | .str _ => ([], some (.attributeError "'str' object has no attribute 'get'"))
      | .obj _ => ([], some (.attributeError "'str' object has no attribute 'get'"))
      | v => ([], some (.typeError ("'" ++ v.typeOf ++ "' object is not iterable")))
    | .error e => ([], some e)
  | v => ([], some (.attributeError ("'" ++ v.typeOf ++ "' object has no attribute 'get'")))

/-- `_build_lights` (lines 602–642): a light datablock and object per dict
entry; a non-dict entry raises at its transform lookup after creating
nothing. -/
def buildLightsGo (temp : String) : ℕ → List Json → List HostOp × Option PyErr
  | _, [] => ([], none)
  | idx, L :: rest =>
    match L with
    | .obj _ =>
      let lname := "Light_" ++ toString (idx + 1)
      let r := buildLightsGo temp (idx + 1) rest
      ([.newLight lname, .newObject lname, .link temp lname] ++ r.1, r.2)
    | v => ([], some (.attributeError ("'" ++ v.typeOf ++ "' object has no attribute 'get'")))

def buildLightsOps (spec : Json) (temp : String) : List HostOp × Option PyErr :=
  match (spec.pyGetD "lighting" (.arr [])).pyOr (.arr []) with
  | .arr ls => buildLightsGo temp 0 ls
  | .str s => buildLightsGo temp 0 (s.toList.map (fun c => Json.str (String.mk [c])))
  | .obj kvs => buildLightsGo temp 0 (kvs.map (fun kv => Json.str kv.1))
  | v => ([], some (.typeError ("'" ++ v.typeOf ++ "' object is not iterable")))

/-- `_build_camera` (lines 644–679): the camera datablock and object are
created before the position lookup that raises on a truthy non-dict
`camera`; the link only happens when nothing raised. -/
def buildCameraOps (spec : Json) (temp : String) : List HostOp × Option PyErr :=
  match (spec.pyGetD "camera" (.obj [])).pyOr (.obj []) with
  | .obj _ =>
    ([.newCamera "Camera_Main", .newObject "Camera_Main", .link temp "Camera_Main"], none)
  | v =>
    ([.newCamera "Camera_Main", .newObject "Camera_Main"],
      some (.attributeError ("'" ++ v.typeOf ++ "' object has no attribute 'get'")))

/-- The whole build phase, in source order, stopping at the first raise. -/
def buildOps (spec : Json) (temp : String) : List HostOp × Option PyErr :=
  let m := buildMaterialsOps spec
  match m.2 with
  | some e => (m.1, some e)
  | none =>
    let o := buildObjectsOps spec temp
    match o.2 with
    | some e => (m.1 ++ o.1, some e)
    | none =>
      let l := buildLightsOps spec temp
      match l.2 with
      | some e => (m.1 ++ o.1 ++ l.1, some e)
      | none =>
        let c := buildCameraOps spec temp
        (m.1 ++ o.1 ++ l.1 ++ c.1, c.2)

/-! ## The executor (`SpecExecutor.execute_scene_spec`, lines 54–142) -/

/-- The outcome of one `execute_scene_spec` call: a committed collection name,
a raised `SpecExecutionError`, or an exception type the executor does not
catch (only `SpecValidationError` is caught around validation, so a
validator crash propagates raw). -/
inductive ExecOutcome where
  | ok (name : String)
  | specExecutionError (msg : String)
  | uncaught (e : PyErr)
deriving DecidableEq

def pyErrMsg : PyErr → String
  | .typeError m => m
  | .attributeError m => m
  | .valueError m => m

def make_temp_collection_name (request_id : String) : String :=
  "Canvas3D_Temp_" ++ request_id

def make_commit_collection_name (request_id : String) : String :=
  "Canvas3D_Scene_" ++ request_id

def execute_scene_spec (spec : Json) (request_id : String)
    (expect_version : Option String) (cleanup_on_failure : Bool) (w : World) :
    ExecOutcome × World :=
  let req := if request_id = "" then "req-unknown" else request_id
  match assert_valid_scene_spec spec expect_version with
  | .error e => (.uncaught e, w)
  | .ok (some msg) =>
    (.specExecutionError ("[" ++ req ++ "] Spec validation failed:\n" ++ msg), w)
  | .ok none =>
    -- random.seed(seed) has no effect on resource names; undo_push is
    -- host-dependent and a no-op for hosts without the operator
    let pre := snapshot_datablocks w
    let tempName := make_temp_collection_name req
    let commitName := make_commit_collection_name req
    let w1 := applyOp w (.ensureCollection tempName)
    let b := buildOps spec tempName
    let wBuilt := runOps b.1 w1
    match b.2 with
    | some e =>
      let w' := if cleanup_on_failure then cleanup_new_datablocks pre tempName wBuilt
        else wBuilt
      (.specExecutionError ("[" ++ req ++ "] Execution failed: " ++ pyErrMsg e), w')
    | none =>
      match (spec.pyGetD "metadata" (.obj [])).pyOr (.obj []) with
      | .obj mkvs =>
        if ((Json.obj mkvs).pyGetD "force_fail" (.bool false)).truthy then
          let w' := if cleanup_on_failure then cleanup_new_datablocks pre tempName wBuilt
            else wBuilt
          (.specExecutionError ("[" ++ req ++ "] Execution failed: " ++
            "Forced failure for test/validation of atomic cleanup"), w')
        else
          (.ok commitName, commit_collection tempName commitName wBuilt)
      | v =>
        let w' := if cleanup_on_failure then cleanup_new_datablocks pre tempName wBuilt
          else wBuilt
        (.specExecutionError ("[" ++ req ++ "] Execution failed: '" ++ v.typeOf ++
          "' object has no attribute 'get'"), w')

/-- A minimal 1×1 document used as a concrete instance of the traversability
gate. -/
def travSpec0 : Json :=
  Json.obj [("grid", Json.obj [("dimensions",
    Json.obj [("cols", Json.int 1), ("rows", Json.int 1)])])]

def c5Grid : Json :=
  Json.obj [("dimensions", Json.obj [("cols", Json.int 2), ("rows", Json.int 2)])]

def c5ObjOut : Json :=
  Json.obj [("properties", Json.obj [("blocked", Json.bool true)]),
    ("grid_cell", Json.obj [("col", Json.int 5), ("row", Json.int 5)])]

def c5SpecOut : Json := Json.obj [("grid", c5Grid), ("objects", Json.arr [c5ObjOut])]

def c5ObjBlock : Json :=
  Json.obj [("properties", Json.obj [("blocked", Json.bool true)]),
    ("grid_cell", Json.obj [("col", Json.int 1), ("row", Json.int 1)])]

def c5ObjBlock2 : Json :=
  Json.obj [("properties", Json.obj [("blocked", Json.bool true)]),
    ("grid_cell", Json.obj [("col", Json.int 0), ("row", Json.int 1)])]

def c5ObjTrav : Json :=
  Json.obj [("traversable_cells",
    Json.arr [Json.arr [Json.null, Json.int 0], Json.arr [Json.int 1, Json.int 1]])]

def c5SpecTrav : Json :=
  Json.obj [("grid", c5Grid), ("objects", Json.arr [c5ObjBlock, c5ObjTrav])]

def c5Door : Json :=
  Json.obj [("type", Json.str "door"),
    ("grid_cell", Json.obj [("col", Json.int 1), ("row", Json.int 0)])]

def c5SpecGood : Json :=
  Json.obj [("grid", c5Grid),
    ("traversable_cells", Json.arr [Json.arr [Json.int 1, Json.int 1]]),
    ("objects", Json.arr [c5ObjBlock, c5ObjBlock2, c5Door])]

def c1Spec : Json := Json.obj [
  ("version", Json.str "1.0.0"),
  ("domain", Json.str "film_interior"),
  ("seed", Json.int 0),
  ("objects", Json.arr []),
  ("lighting", Json.arr [Json.obj [
    ("type", Json.str "sun"),
    ("position", Json.arr [Json.float 0, Json.float 0, Json.float 1]),
    ("intensity", Json.float 1)]]),
  ("camera", Json.obj [
    ("position", Json.arr [Json.float 0, Json.float 0, Json.float 1]),
    ("rotation_euler", Json.arr [Json.float 0, Json.float 0, Json.float 0])]),
  ("metadata", Json.obj [("force_fail", Json.bool true)])]

def c1World : World := ⟨{"Canvas3D_Temp_r1"}, ∅, ∅, ∅, ∅, ∅, ∅⟩

def c9Spec : Json := Json.obj [
  ("version", Json.str "1.0.0"),
  ("domain", Json.str "film_interior"),
  ("seed", Json.int 0),
  ("objects", Json.arr []),
  ("lighting", Json.arr [Json.obj [
    ("type", Json.str "sun"),
    ("position", Json.arr [Json.float 0, Json.float 0, Json.float 1]),
    ("intensity", Json.float 1)]]),
  ("camera", Json.obj [
    ("position", Json.arr [Json.float 0, Json.float 0, Json.float 1]),
    ("rotation_euler", Json.arr [Json.float 0, Json.float 0, Json.float 0])])]

/-! # Claim C3: correctness of the A* reachability gate -/

/-- **C3.**  `astar_path_length` returns `some n` exactly when `n` is the
number of edges of a shortest 4-connected path from `start` to `goal` avoiding
the blocked cells, and `none` exactly when no such path exists.  In
particular, with no blocked cells it returns the Manhattan distance for
in-bounds endpoints, and with a completely blocked column strictly between
the start and goal columns it returns `none`, whence `check_traversable`
returns `(false, none)`. -/
theorem astar_gate_correct :
    (∀ (cols rows : ℤ) (blocked : Finset Cell) (start goal : Cell) (n : ℕ),
      astar_path_length cols rows blocked start goal = some n ↔
        ShortestPathLen cols rows blocked start goal n) ∧
    (∀ (cols rows : ℤ) (blocked : Finset Cell) (start goal : Cell),
      astar_path_length cols rows blocked start goal = none ↔
        ¬ Reachable cols rows blocked start goal) ∧
    (∀ (cols rows : ℤ) (start goal : Cell),
      inBounds cols rows start → inBounds cols rows goal →
        astar_path_length cols rows ∅ start goal = some (manhattan start goal)) ∧
    (∀ (cols rows : ℤ) (blocked : Finset Cell) (start goal : Cell) (wc : ℤ)
      (ml : Option ℤ),
      (∀ r : ℤ, 0 ≤ r → r < rows → (wc, r) ∈ blocked) →
      start.1 < wc → wc < goal.1 →
        astar_path_length cols rows blocked start goal = none ∧
        check_traversable cols rows blocked start goal ml = (false, none)) := by
  refine ⟨fun _ _ _ _ _ _ => astar_path_length_some_iff,
    fun _ _ _ _ _ => astar_path_length_none_iff,
    fun _ _ _ _ hs hg => astar_empty_eq_manhattan hs hg, ?_⟩
  intro cols rows blocked start goal wc ml hbl hs hg
  have hnone : astar_path_length cols rows blocked start goal = none :=
    astar_path_length_none_iff.mpr (wall_unreachable hbl hs hg)
  refine ⟨hnone, ?_⟩
  unfold check_traversable
  rw [hnone]

theorem astar_gate_correct_witness :
    astar_path_length 5 4 ∅ (0, 0) (4, 3) = some 7 ∧
    astar_path_length 5 5 ({(2, 0), (2, 1), (2, 2), (2, 3), (2, 4)} : Finset Cell)
      (0, 2) (4, 2) = none ∧
    check_traversable 5 5 ({(2, 0), (2, 1), (2, 2), (2, 3), (2, 4)} : Finset Cell)
      (0, 2) (4, 2) none = (false, none) := by
  have h := astar_gate_correct
  have hwall : ∀ r : ℤ, 0 ≤ r → r < 5 →
      (2, r) ∈ ({(2, 0), (2, 1), (2, 2), (2, 3), (2, 4)} : Finset Cell) := by
    intro r h1 h2
    interval_cases r <;> decide
  refine ⟨?_, ?_, ?_⟩
  · have := h.2.2.1 5 4 (0, 0) (4, 3) (by decide) (by decide)
    have hm : manhattan (0, 0) (4, 3) = 7 := by decide
    rw [hm] at this
    exact this
  · exact (h.2.2.2 5 5 _ (0, 2) (4, 2) 2 none hwall (by decide) (by decide)).1
  · exact (h.2.2.2 5 5 _ (0, 2) (4, 2) 2 none hwall (by decide) (by decide)).2

/-! # Claim C4: the spec-level traversability check -/

theorem check_traversable_spec (cols rows : ℤ) (blocked : Finset Cell) (start goal : Cell)
    (ml : Option ℤ) :
    ((check_traversable cols rows blocked start goal ml).1 = true ↔
      ∃ n, ShortestPathLen cols rows blocked start goal n ∧
        ∀ m, ml = some m → m ≤ (n : ℤ)) ∧
    ((check_traversable cols rows blocked start goal ml).2 = none ↔
      ¬ Reachable cols rows blocked start goal) ∧
    (∀ n, (check_traversable cols rows blocked start goal ml).2 = some n →
      ShortestPathLen cols rows blocked start goal n) := by
  unfold check_traversable
  cases hres : astar_path_length cols rows blocked start goal with
  | none =>
    have hnr := astar_path_length_none_iff.mp hres
    refine ⟨?_, ?_, ?_⟩
    · simp only [Bool.false_eq_true, false_iff]
      rintro ⟨n, hs, hmin⟩
      exact hnr ⟨n, hs.1⟩
    · simp only [true_iff]
      exact hnr
    · intro n hn
      cases hn
  | some len =>
    have hs := astar_path_length_some_iff.mp hres
    cases ml with
    | none =>
      refine ⟨?_, ?_, ?_⟩
      · simp only [true_iff]
        exact ⟨len, hs, fun m hm => by cases hm⟩
      · simp only [reduceCtorEq, false_iff, not_not]
        exact ⟨len, hs.1⟩
      · intro n hn
        injection hn with hn
        subst hn
        exact hs
    | some m =>
      dsimp only
      by_cases hlt : (len : ℤ) < m
      · rw [if_pos hlt]
        refine ⟨?_, ?_, ?_⟩
        · simp only [Bool.false_eq_true, false_iff]
          rintro ⟨n, hn, hmin⟩
          have := hmin m rfl
          have heq : n = len := shortest_unique hn hs
          omega
        · simp only [reduceCtorEq, false_iff, not_not]
          exact ⟨len, hs.1⟩
        · intro n hn
          injection hn with hn
          subst hn
          exact hs
      · rw [if_neg hlt]
        refine ⟨?_, ?_, ?_⟩
        · simp only [true_iff]
          exact ⟨len, hs, fun k hk => by injection hk with hk; omega⟩
        · simp only [reduceCtorEq, false_iff, not_not]
          exact ⟨len, hs.1⟩
        · intro n hn
          injection hn with hn
          subst hn
          exact hs

/-- **C4.**  Whenever `is_spec_traversable` returns normally, its result is
`ok = true` iff a path from start to goal exists and, when a minimum length is
declared (explicitly, or via `constraints.min_path_length_cells`), the shortest
path length meets that minimum; the reported path length is `none` iff no path
exists (never zero for "no path"), and any reported length is the shortest
path length. -/
theorem is_spec_traversable_correct :
    ∀ (spec : Json) (start goal : Option Cell) (min_len : Option ℤ)
      (ok : Bool) (plen : Option ℕ) (info : TravInfo),
      is_spec_traversable spec start goal min_len = .ok (ok, plen, info) →
      ∃ cr blocked, extract_grid_dims spec = .ok cr ∧
        extract_blocked_from_spec spec = .ok blocked ∧
        info = ⟨cr.1, cr.2, start.getD (default_start_goal cr.1 cr.2).1,
          goal.getD (default_start_goal cr.1 cr.2).2, blocked.card⟩ ∧
        (ok = true ↔ ∃ n, ShortestPathLen info.cols info.rows blocked info.start info.goal n ∧
            ∀ m, effectiveMinLen spec min_len = some m → m ≤ (n : ℤ)) ∧
        (plen = none ↔ ¬ Reachable info.cols info.rows blocked info.start info.goal) ∧
        (∀ n, plen = some n →
          ShortestPathLen info.cols info.rows blocked info.start info.goal n) := by
  intro spec start goal min_len ok plen info h
  unfold is_spec_traversable at h
  cases hgd : extract_grid_dims spec with
  | error e =>
    rw [hgd] at h
    cases h
  | ok cr =>
    rw [hgd] at h
    cases hbl : extract_blocked_from_spec spec with
    | error e =>
      rw [hbl] at h
      cases h
    | ok blocked =>
      rw [hbl] at h
      simp only [pure, Except.pure, Except.bind, Except.ok.injEq, Prod.mk.injEq] at h
      obtain ⟨h1, h2, h3⟩ := h
      refine ⟨cr, blocked, rfl, rfl, rfl, ?_, ?_, ?_⟩
      · exact (check_traversable_spec cr.1 cr.2 blocked _ _ _).1
      · exact (check_traversable_spec cr.1 cr.2 blocked _ _ _).2.1
      · exact (check_traversable_spec cr.1 cr.2 blocked _ _ _).2.2

/-- `is_spec_traversable` on the 1×1 document: start equals goal, path
length 0. -/
theorem is_spec_traversable_travSpec0 :
    is_spec_traversable travSpec0 none none none =
      .ok (true, some 0, ⟨1, 1, (0, 0), (0, 0), 0⟩) := by
  have hast : astar_path_length 1 1 (∅ : Finset Cell) (0, 0) (0, 0) = some 0 :=
    astar_path_length_some_iff.mpr
      ⟨PathTo.nil _ (by decide) (Finset.not_mem_empty _), fun m _ => Nat.zero_le m⟩
  have h1 : is_spec_traversable travSpec0 none none none =
      .ok ((check_traversable 1 1 ∅ (0, 0) (0, 0) none).1,
           (check_traversable 1 1 ∅ (0, 0) (0, 0) none).2, ⟨1, 1, (0, 0), (0, 0), 0⟩) := rfl
  rw [h1]
  unfold check_traversable
  rw [hast]

theorem is_spec_traversable_correct_witness :
    ∃ cr blocked, extract_grid_dims travSpec0 = .ok cr ∧
      extract_blocked_from_spec travSpec0 = .ok blocked ∧
      (⟨1, 1, (0, 0), (0, 0), 0⟩ : TravInfo) = ⟨cr.1, cr.2,
        (none : Option Cell).getD (default_start_goal cr.1 cr.2).1,
        (none : Option Cell).getD (default_start_goal cr.1 cr.2).2, blocked.card⟩ ∧
      (true = true ↔ ∃ n, ShortestPathLen (1 : ℤ) 1 blocked (0, 0) (0, 0) n ∧
          ∀ m, effectiveMinLen travSpec0 none = some m → m ≤ (n : ℤ)) ∧
      ((some 0 : Option ℕ) = none ↔ ¬ Reachable (1 : ℤ) 1 blocked (0, 0) (0, 0)) ∧
      (∀ n, (some 0 : Option ℕ) = some n →
        ShortestPathLen (1 : ℤ) 1 blocked (0, 0) (0, 0) n) :=
  is_spec_traversable_correct travSpec0 none none none true (some 0)
    ⟨1, 1, (0, 0), (0, 0), 0⟩ is_spec_traversable_travSpec0

/-! # Claim C5: the blocked-cell set of the reachability gate -/

theorem stepWalkable_fst (cols rows : ℤ) (o : Json) (bf : Finset Cell × Finset Cell) :
    (stepWalkable cols rows o bf).1 = bf.1 := by
  unfold stepWalkable
  split
  · dsimp only
    split
    · split
      · split
        · rfl
        · rfl
      · rfl
    · rfl
  · rfl

theorem stepTraversableThenWalkable_fst (cols rows : ℤ) (o : Json)
    (bf : Finset Cell × Finset Cell) :
    (stepTraversableThenWalkable cols rows o bf).1 = bf.1 := by
  unfold stepTraversableThenWalkable
  split
  · split
    · rw [stepWalkable_fst]
    · rfl
  · rw [stepWalkable_fst]
  · rw [stepWalkable_fst]
  · rfl

theorem stepWalkable_snd_mono (cols rows : ℤ) (o : Json) (bf : Finset Cell × Finset Cell)
    {x : Cell} (hx : x ∈ bf.2) : x ∈ (stepWalkable cols rows o bf).2 := by
  unfold stepWalkable
  split
  · dsimp only
    split
    · split
      · split
        · exact Finset.mem_union_left _ hx
        · exact hx
      · exact hx
    · exact hx
  · exact hx

theorem objCellsForcedOpen_mono (cols rows : ℤ) (cells : List Json)
    (acc : Finset Cell) {x : Cell} (hx : x ∈ acc) :
    x ∈ (objCellsForcedOpen cols rows cells acc).1 := by
  induction cells generalizing acc with
  | nil => exact hx
  | cons c rest ih =>
    rcases c with _ | _ | _ | _ | _ | l | kvs
    case arr =>
      rcases l with _ | ⟨a, l⟩
      · exact ih _ hx
      · rcases l with _ | ⟨b, l⟩
        · exact ih _ hx
        · rcases l with _ | ⟨d, l⟩
          · unfold objCellsForcedOpen
            dsimp only
            split
            · apply ih
              split
              · exact Finset.mem_insert_of_mem hx
              · exact hx
            · exact hx
          · exact ih _ hx
    all_goals exact ih _ hx

theorem stepTraversableThenWalkable_snd_mono (cols rows : ℤ) (o : Json)
    (bf : Finset Cell × Finset Cell) {x : Cell} (hx : x ∈ bf.2) :
    x ∈ (stepTraversableThenWalkable cols rows o bf).2 := by
  unfold stepTraversableThenWalkable
  split
  · rename_i cells heq
    rcases hoc : objCellsForcedOpen cols rows cells bf.2 with ⟨fo2, b⟩
    have hfo2 : x ∈ fo2 := by
      have h2 := objCellsForcedOpen_mono cols rows cells bf.2 hx
      rw [hoc] at h2
      exact h2
    cases b with
    | true => exact stepWalkable_snd_mono cols rows o (bf.1, fo2) hfo2
    | false => exact hfo2
  · exact stepWalkable_snd_mono cols rows o bf hx
  · exact stepWalkable_snd_mono cols rows o bf hx
  · exact hx

theorem processObjBlocked_snd_mono (cols rows : ℤ) (acc : Finset Cell × Finset Cell)
    (o : Json) {x : Cell} (hx : x ∈ acc.2) :
    x ∈ (processObjBlocked cols rows acc o).2 := by
  unfold processObjBlocked
  split
  · split
    · dsimp only
      split
      · split
        · apply stepTraversableThenWalkable_snd_mono
          dsimp only
          split
          · split
            · exact Finset.mem_insert_of_mem hx
            · exact hx
          · exact hx
        · exact hx
      · exact stepTraversableThenWalkable_snd_mono cols rows _ _ hx
    · exact hx
  · exact hx

theorem foldl_processObjBlocked_snd_mono (cols rows : ℤ) (objs : List Json)
    (acc : Finset Cell × Finset Cell) {x : Cell} (hx : x ∈ acc.2) :
    x ∈ (objs.foldl (processObjBlocked cols rows) acc).2 := by
  induction objs generalizing acc with
  | nil => exact hx
  | cons o rest ih =>
    rw [List.foldl_cons]
    exact ih _ (processObjBlocked_snd_mono cols rows acc o hx)

theorem processObjBlocked_fst (cols rows : ℤ) (acc : Finset Cell × Finset Cell)
    (o : Json) : (processObjBlocked cols rows acc o).1 = blStep cols rows acc.1 o := by
  unfold processObjBlocked blStep
  split
  · split
    · dsimp only
      split
      · split
        · rw [stepTraversableThenWalkable_fst]
        · rfl
      · rw [stepTraversableThenWalkable_fst]
    · rfl
  · rfl

theorem blStep_mem (cols rows : ℤ) (B : Finset Cell) (o : Json) (c : Cell) :
    c ∈ blStep cols rows B o ↔
      c ∈ B ∨ (objMarksBlocked o c = true ∧ inBounds cols rows c) := by
  rcases o with _ | _ | _ | _ | _ | l | kvs
  case obj =>
    unfold blStep objMarksBlocked
    dsimp only
    rcases hpr : ((Json.obj kvs).pyGet "properties").pyOr (Json.obj []) with
      _ | _ | _ | _ | _ | pl | pkvs
    case obj =>
      dsimp only
      cases htr : ((Json.obj pkvs).pyGetD "blocked" (Json.bool false)).truthy with
      | false =>
        simp
      | true =>
        simp only [if_true, Bool.true_and]
        rcases hgc : (Json.obj kvs).pyGet "grid_cell" with _ | _ | _ | _ | _ | gl | gkvs
        case obj =>
          dsimp only
          cases hint : (((Json.obj gkvs).pyGetD "col" Json.null).isInt &&
              ((Json.obj gkvs).pyGetD "row" Json.null).isInt) with
          | false =>
            simp [hint]
          | true =>
            by_cases hbnd : (0 ≤ ((Json.obj gkvs).pyGetD "col" Json.null).asInt ∧
                ((Json.obj gkvs).pyGetD "col" Json.null).asInt < cols ∧
                0 ≤ ((Json.obj gkvs).pyGetD "row" Json.null).asInt ∧
                ((Json.obj gkvs).pyGetD "row" Json.null).asInt < rows)
            · rw [if_pos rfl, if_pos hbnd, Finset.mem_insert]
              constructor
              · rintro (rfl | hB)
                · refine Or.inr ⟨by simp [hint], ?_⟩
                  exact hbnd
                · exact Or.inl hB
              · rintro (hB | ⟨hmk, hib⟩)
                · exact Or.inr hB
                · left
                  simp only [hint, Bool.true_and, Bool.and_eq_true, decide_eq_true_eq] at hmk
                  rw [Prod.ext_iff]
                  exact ⟨hmk.1.symm, hmk.2.symm⟩
            · rw [if_pos rfl, if_neg hbnd]
              constructor
              · exact fun hB => Or.inl hB
              · rintro (hB | ⟨hmk, hib⟩)
                · exact hB
                · exfalso
                  simp only [hint, Bool.true_and, Bool.and_eq_true, decide_eq_true_eq] at hmk
                  unfold inBounds at hib
                  rw [← hmk.1, ← hmk.2] at hib
                  exact hbnd hib
        all_goals simp
    all_goals simp
  all_goals simp [blStep, objMarksBlocked]

theorem foldl_processObjBlocked_fst_mem (cols rows : ℤ) (objs : List Json)
    (acc : Finset Cell × Finset Cell) (c : Cell) :
    c ∈ (objs.foldl (processObjBlocked cols rows) acc).1 ↔
      c ∈ acc.1 ∨ ∃ o ∈ objs, objMarksBlocked o c = true ∧ inBounds cols rows c := by
  induction objs generalizing acc with
  | nil => simp
  | cons o rest ih =>
    rw [List.foldl_cons, ih]
    rw [processObjBlocked_fst, blStep_mem]
    constructor
    · rintro ((hB | hmk) | ⟨o2, ho2, h⟩)
      · exact Or.inl hB
      · exact Or.inr ⟨o, List.mem_cons_self o rest, hmk⟩
      · exact Or.inr ⟨o2, List.mem_cons_of_mem o ho2, h⟩
    · rintro (hB | ⟨o2, ho2, h⟩)
      · exact Or.inl (Or.inl hB)
      · rcases List.mem_cons.mp ho2 with h2 | ho2
        · subst h2
          exact Or.inl (Or.inr h)
        · exact Or.inr ⟨o2, ho2, h⟩

theorem processObjBlocked_door (cols rows : ℤ) (acc : Finset Cell × Finset Cell)
    (o : Json) (c : Cell) (hd : doorForcesOpen o c = true) (hib : inBounds cols rows c) :
    c ∈ (processObjBlocked cols rows acc o).2 := by
  rcases o with _ | _ | _ | _ | _ | l | kvs
  case obj =>
    unfold processObjBlocked
    unfold doorForcesOpen at hd
    dsimp only at hd ⊢
    rcases hpr : ((Json.obj kvs).pyGet "properties").pyOr (Json.obj []) with
      _ | _ | _ | _ | _ | pl | pkvs
    case obj =>
      rw [hpr] at hd
      dsimp only at hd
      rw [Bool.and_eq_true, decide_eq_true_eq] at hd
      obtain ⟨hdo, hd2⟩ := hd
      dsimp only
      rw [if_pos hdo]
      rcases hgc : ((Json.obj kvs).pyGetD "grid_cell" (Json.obj [])).pyOr (Json.obj []) with
        _ | _ | _ | _ | _ | gl | gkvs
      case obj =>
        rw [hgc] at hd2
        dsimp only at hd2
        simp only [Bool.and_eq_true, decide_eq_true_eq] at hd2
        obtain ⟨⟨⟨hi1, hi2⟩, he1⟩, he2⟩ := hd2
        apply stepTraversableThenWalkable_snd_mono
        dsimp only
        rw [hi1, hi2]
        simp only [Bool.and_self, if_true]
        rw [he1, he2]
        unfold inBounds at hib
        rw [if_pos hib]
        exact Finset.mem_insert_self c acc.2
      all_goals (rw [hgc] at hd2; cases hd2)
    all_goals (rw [hpr] at hd; cases hd)
  all_goals cases hd

/-- **C5 (amended).**  Whenever `_extract_blocked_from_spec` returns, a cell is
in the returned blocked set iff some object explicitly marks it blocked, the
cell is **in bounds** (out-of-range markings are dropped, contrary to the
unqualified claim), and it is not in the forced-open set; a well-typed door
always forces its in-bounds cell open, and spec-level `traversable_cells` are
never blocked.  (Object-level `traversable_cells`/`walkable_area` entries can
be lost when a later entry of the same object raises: see the
counterexample.) -/
theorem blocked_cells_characterized :
    ∀ (spec : Json) (cr : ℤ × ℤ) (objs : List Json) (cells : List Json)
      (blocked : Finset Cell),
      extract_grid_dims spec = .ok cr →
      (spec.pyGet "objects").pyOr (.arr []) = .arr objs →
      (spec.pyGetD "traversable_cells" (.arr [])).pyOr (.arr []) = .arr cells →
      extract_blocked_from_spec spec = .ok blocked →
      ∀ c : Cell,
        (c ∈ blocked ↔ ((∃ o ∈ objs, objMarksBlocked o c = true) ∧ inBounds cr.1 cr.2 c ∧
          c ∉ forcedOpenSet spec cr.1 cr.2 objs)) ∧
        (∀ o ∈ objs, doorForcesOpen o c = true → inBounds cr.1 cr.2 c → c ∉ blocked) ∧
        (c ∈ specLevelForcedOpen cr.1 cr.2 cells ∅ → c ∉ blocked) := by
  intro spec cr objs cells blocked hgd hobjs hcells hbl c
  have hfo0 : specForcedOpen0 spec cr.1 cr.2 = specLevelForcedOpen cr.1 cr.2 cells ∅ := by
    unfold specForcedOpen0
    rw [hcells]
  unfold extract_blocked_from_spec at hbl
  rw [hgd] at hbl
  rw [hcells, hobjs] at hbl
  simp only [Bind.bind, Except.bind, pure, Except.pure, Except.ok.injEq] at hbl
  subst hbl
  refine ⟨?_, ?_, ?_⟩
  · rw [Finset.mem_sdiff, foldl_processObjBlocked_fst_mem]
    simp only [Finset.not_mem_empty, false_or]
    unfold forcedOpenSet
    rw [hfo0]
    constructor
    · rintro ⟨⟨o, ho, hmk, hib⟩, hnot⟩
      exact ⟨⟨o, ho, hmk⟩, hib, hnot⟩
    · rintro ⟨⟨o, ho, hmk⟩, hib, hnot⟩
      exact ⟨⟨o, ho, hmk, hib⟩, hnot⟩
  · intro o ho hdoor hib hc
    rw [Finset.mem_sdiff] at hc
    apply hc.2
    obtain ⟨l1, l2, rfl⟩ := List.append_of_mem ho
    rw [List.foldl_append, List.foldl_cons]
    apply foldl_processObjBlocked_snd_mono
    exact processObjBlocked_door cr.1 cr.2 _ o c hdoor hib
  · intro hspec hc
    rw [Finset.mem_sdiff] at hc
    apply hc.2
    apply foldl_processObjBlocked_snd_mono
    exact hspec

/-- **C5 counterexample.**  An out-of-bounds cell marked blocked is *not* in
the returned set; and a cell listed in an object's `traversable_cells` *is*
blocked when an earlier entry of the same list raises (the `except: continue`
drops the rest of that object's open-cell processing). -/
theorem blocked_cells_counterexample :
    (objMarksBlocked c5ObjOut (5, 5) = true ∧
      extract_blocked_from_spec c5SpecOut = .ok ∅) ∧
    (c5ObjTrav.pyGet "traversable_cells" =
        Json.arr [Json.arr [Json.null, Json.int 0], Json.arr [Json.int 1, Json.int 1]] ∧
      extract_blocked_from_spec c5SpecTrav = .ok {(1, 1)}) :=
  ⟨⟨rfl, rfl⟩, rfl, rfl⟩

theorem blocked_cells_characterized_witness :
    (((0, 1) : Cell) ∈ ({((0 : ℤ), (1 : ℤ))} : Finset Cell) ↔
      ((∃ o ∈ [c5ObjBlock, c5ObjBlock2, c5Door],
          objMarksBlocked o ((0, 1) : Cell) = true) ∧
        inBounds 2 2 ((0, 1) : Cell) ∧
        ((0, 1) : Cell) ∉ forcedOpenSet c5SpecGood 2 2 [c5ObjBlock, c5ObjBlock2, c5Door])) ∧
    (∀ o ∈ [c5ObjBlock, c5ObjBlock2, c5Door], doorForcesOpen o ((0, 1) : Cell) = true →
      inBounds 2 2 ((0, 1) : Cell) →
      ((0, 1) : Cell) ∉ ({((0 : ℤ), (1 : ℤ))} : Finset Cell)) ∧
    (((0, 1) : Cell) ∈ specLevelForcedOpen 2 2 [Json.arr [Json.int 1, Json.int 1]] ∅ →
      ((0, 1) : Cell) ∉ ({((0 : ℤ), (1 : ℤ))} : Finset Cell)) :=
  blocked_cells_characterized c5SpecGood (2, 2) [c5ObjBlock, c5ObjBlock2, c5Door]
    [Json.arr [Json.int 1, Json.int 1]] {((0 : ℤ), (1 : ℤ))} rfl rfl rfl rfl (0, 1)

/-! # Claim C6: door-opening carving of wall segments -/

/-- **C6 (amended).**  For a wall of length `L`: with zero doors the carving
produces exactly one solid segment `(0, L)` provided `L` exceeds the
degeneracy epsilon `1e-4` (for `L ≤ eps`, nothing is spawned); with a single
door the carved width is not the requested width but
`W = max 0.2 (doorWidthM cs d)` (door widths are clamped below by `0.5` m when
given in metres, `0.2` m overall), and when `W < L` with both remaining halves
longer than epsilon, exactly two solid segments symmetric about `L/2` are
produced, summing to `L - W`. -/
theorem wall_segments_spec :
    ∀ (cs L : ℚ) (d : DoorEntry),
      (segEps < L → spawn_wall_segments_for_side cs L [] = [(0, L)]) ∧
      (max 0.2 (doorWidthM cs d) < L →
       segEps < (L - max 0.2 (doorWidthM cs d)) / 2 →
       spawn_wall_segments_for_side cs L [d] =
         [(0, (L - max 0.2 (doorWidthM cs d)) / 2),
          ((L + max 0.2 (doorWidthM cs d)) / 2, L)] ∧
         ((L - max 0.2 (doorWidthM cs d)) / 2 - 0) +
           (L - (L + max 0.2 (doorWidthM cs d)) / 2) =
           L - max 0.2 (doorWidthM cs d)) := by
  intro cs L d
  constructor
  · intro hL
    have hopen0 : opening_centers_and_widths cs L [] = [] := rfl
    unfold spawn_wall_segments_for_side
    rw [hopen0]
    unfold solidSegments
    dsimp only
    rw [List.foldl_nil, sub_zero, if_pos hL, List.nil_append]
    simp only [List.filter_cons, List.filter_nil]
    rw [decide_eq_true
      (show segEps < max 0 (L - 0) from by rw [sub_zero]; exact lt_max_of_lt_right hL)]
    simp
  · intro hWL heps
    set W := max (0.2 : ℚ) (doorWidthM cs d) with hWdef
    have hW02 : (0.2 : ℚ) ≤ W := le_max_left _ _
    have hL0 : (0 : ℚ) < L := by linarith
    have hopen : opening_centers_and_widths cs L [d] =
        [((((0 : ℕ) : ℚ) + 1) / (((1 : ℕ) : ℚ) + 1) * L, W)] := rfl
    have hc : (((0 : ℕ) : ℚ) + 1) / (((1 : ℕ) : ℚ) + 1) * L = L / 2 := by
      push_cast
      ring
    have hleft : max (0 : ℚ) (L / 2 - 0.5 * W) = (L - W) / 2 := by
      rw [max_eq_right]
      · ring
      · linarith
    have hright : min L (L / 2 + 0.5 * W) = (L + W) / 2 := by
      rw [min_eq_right]
      · ring
      · linarith
    have hstart : max (0 : ℚ) ((L + W) / 2) = (L + W) / 2 := by
      rw [max_eq_right]
      linarith
    have hlast : segEps < L - (L + W) / 2 := by
      have hr : L - (L + W) / 2 = (L - W) / 2 := by ring
      rw [hr]
      exact heps
    constructor
    · unfold spawn_wall_segments_for_side
      rw [hopen, hc]
      unfold solidSegments
      dsimp only
      rw [List.foldl_cons, List.foldl_nil]
      dsimp only
      rw [hleft, hright, sub_zero, if_pos heps, hstart, if_pos hlast]
      simp only [List.cons_append, List.nil_append, List.filter_cons, List.filter_nil]
      rw [decide_eq_true
        (show segEps < max 0 ((L - W) / 2 - 0) from by
          rw [sub_zero]; exact lt_max_of_lt_right heps)]
      rw [decide_eq_true
        (show segEps < max 0 (L - (L + W) / 2) from lt_max_of_lt_right hlast)]
      simp
    · ring


theorem doorWidthM_eval :
    max (0.2 : ℚ) (doorWidthM 2 ⟨"south", some (3 / 10), none⟩) = 1 / 2 := by
  unfold doorWidthM
  dsimp only
  rw [show max (0.5 : ℚ) (3 / 10) = 1 / 2 from by rw [max_eq_left (by norm_num)]; norm_num]
  rw [max_eq_right (by norm_num)]

theorem spawn_door_eval :
    spawn_wall_segments_for_side 2 10 [⟨"south", some (3 / 10), none⟩] =
      [(0, 19 / 4), (21 / 4, 10)] := by
  have hopen : opening_centers_and_widths 2 10 [⟨"south", some (3 / 10), none⟩] =
      [((((0 : ℕ) : ℚ) + 1) / (((1 : ℕ) : ℚ) + 1) * 10,
        max 0.2 (doorWidthM 2 ⟨"south", some (3 / 10), none⟩))] := rfl
  unfold spawn_wall_segments_for_side
  rw [hopen]
  rw [show (((0 : ℕ) : ℚ) + 1) / (((1 : ℕ) : ℚ) + 1) * 10 = 5 from by push_cast; norm_num]
  rw [doorWidthM_eval]
  unfold solidSegments
  dsimp only
  rw [List.foldl_cons, List.foldl_nil]
  dsimp only
  rw [show max (0 : ℚ) (5 - 0.5 * (1 / 2)) = 19 / 4 from by
    rw [max_eq_right (by norm_num)]; norm_num]
  rw [show min (10 : ℚ) (5 + 0.5 * (1 / 2)) = 21 / 4 from by
    rw [min_eq_right (by norm_num)]; norm_num]
  rw [if_pos (by norm_num [segEps] : segEps < (19 / 4 : ℚ) - 0)]
  rw [show max (0 : ℚ) (21 / 4) = 21 / 4 from max_eq_right (by norm_num)]
  rw [if_pos (by norm_num [segEps] : segEps < (10 : ℚ) - 21 / 4)]
  simp only [List.cons_append, List.nil_append, List.filter_cons, List.filter_nil]
  rw [decide_eq_true (show segEps < max 0 ((19 / 4 : ℚ) - 0) from
    lt_max_of_lt_right (by norm_num [segEps]))]
  rw [decide_eq_true (show segEps < max 0 ((10 : ℚ) - 21 / 4) from
    lt_max_of_lt_right (by norm_num [segEps]))]
  simp

theorem wall_carving_counterexample :
    (0 : ℚ) < 1 / 100000 ∧
    spawn_wall_segments_for_side 2 (1 / 100000) [] = [] ∧
    spawn_wall_segments_for_side 2 10 [⟨"south", some (3 / 10), none⟩] =
      [(0, 19 / 4), (21 / 4, 10)] ∧
    (19 / 4 - 0) + (10 - 21 / 4) ≠ (10 : ℚ) - 3 / 10 := by
  refine ⟨by norm_num, ?_, spawn_door_eval, by norm_num⟩
  have hopen0 : opening_centers_and_widths 2 (1 / 100000) [] = [] := rfl
  unfold spawn_wall_segments_for_side
  rw [hopen0]
  unfold solidSegments
  dsimp only
  rw [List.foldl_nil, sub_zero, if_neg (by norm_num [segEps] : ¬ segEps < (1 / 100000 : ℚ))]
  rfl

theorem wall_segments_spec_witness :
    segEps < (10 : ℚ) ∧ spawn_wall_segments_for_side 2 10 [] = [(0, 10)] ∧
    max 0.2 (doorWidthM 2 ⟨"south", some (3 / 10), none⟩) < 10 ∧
    segEps < (10 - max 0.2 (doorWidthM 2 ⟨"south", some (3 / 10), none⟩)) / 2 ∧
    spawn_wall_segments_for_side 2 10 [⟨"south", some (3 / 10), none⟩] =
      [(0, (10 - max 0.2 (doorWidthM 2 ⟨"south", some (3 / 10), none⟩)) / 2),
       ((10 + max 0.2 (doorWidthM 2 ⟨"south", some (3 / 10), none⟩)) / 2, 10)] :=
  ⟨by norm_num [segEps],
   (wall_segments_spec 2 10 ⟨"south", some (3 / 10), none⟩).1 (by norm_num [segEps]),
   by rw [doorWidthM_eval]; norm_num,
   by rw [doorWidthM_eval]; norm_num [segEps],
   ((wall_segments_spec 2 10 ⟨"south", some (3 / 10), none⟩).2
     (by rw [doorWidthM_eval]; norm_num)
     (by rw [doorWidthM_eval]; norm_num [segEps])).1⟩

/-! # Claim C7: reporting of missing required fields -/

/-- **C7 (amended).**  For every dict document on which `validate` returns,
each missing required top-level field `X` is reported by an issue with code
`"required"`, path `"$"` and message `"Missing required field: X"` — the
message, not the path, names `X` — and independently so for every missing
required field. -/
theorem missing_required_reported :
    ∀ (spec : Json) (e : Option String) (k : String) (issues : List ValidationIssue),
      spec.isDict = true → k ∈ requiredKeys → spec.hasKey k = false →
      SceneSpecValidator.validate e spec = .ok issues →
      (⟨"$", "Missing required field: " ++ k, "required"⟩ : ValidationIssue) ∈ issues := by
  intro spec e k issues hd hk hmiss hv
  unfold SceneSpecValidator.validate at hv
  rw [hd] at hv
  simp only [Bool.not_true, Bool.false_eq_true, if_false] at hv
  split at hv
  · cases hv
  · split at hv
    · cases hv
    · injection hv with hv
      subst hv
      -- walk down the left-nested concatenation to the required-field chunk
      apply List.mem_append_left
      apply List.mem_append_left
      apply List.mem_append_left
      apply List.mem_append_left
      apply List.mem_append_left
      apply List.mem_append_left
      apply List.mem_append_left
      apply List.mem_append_left
      apply List.mem_append_left
      apply List.mem_append_left
      apply List.mem_append_left
      apply List.mem_append_left
      apply List.mem_append_left
      rw [List.mem_flatten]
      refine ⟨req (spec.hasKey k) "$" ("Missing required field: " ++ k) "required",
        List.mem_map_of_mem _ hk, ?_⟩
      rw [hmiss]
      simp [req]

set_option maxHeartbeats 2000000 in
/-- `validate` on the empty document: exactly the six required-field issues. -/
theorem validate_empty_obj :
    SceneSpecValidator.validate none (Json.obj []) = .ok
      [⟨"$", "Missing required field: version", "required"⟩,
       ⟨"$", "Missing required field: domain", "required"⟩,
       ⟨"$", "Missing required field: seed", "required"⟩,
       ⟨"$", "Missing required field: objects", "required"⟩,
       ⟨"$", "Missing required field: lighting", "required"⟩,
       ⟨"$", "Missing required field: camera", "required"⟩] := rfl

theorem missing_required_reported_witness :
    (Json.obj []).isDict = true ∧ "version" ∈ requiredKeys ∧
    (Json.obj []).hasKey "version" = false ∧
    (⟨"$", "Missing required field: version", "required"⟩ : ValidationIssue) ∈
      [(⟨"$", "Missing required field: version", "required"⟩ : ValidationIssue),
       ⟨"$", "Missing required field: domain", "required"⟩,
       ⟨"$", "Missing required field: seed", "required"⟩,
       ⟨"$", "Missing required field: objects", "required"⟩,
       ⟨"$", "Missing required field: lighting", "required"⟩,
       ⟨"$", "Missing required field: camera", "required"⟩] :=
  ⟨rfl, by simp [requiredKeys], rfl,
    missing_required_reported (Json.obj []) none "version" _ rfl (by simp [requiredKeys])
      rfl validate_empty_obj⟩

/-- **C7 counterexample.**  A document missing `version` is reported via the
issue's *message*; no issue of code `"required"` has a path mentioning
`"version"` — every required issue carries the path `"$"`. -/
theorem missing_required_path_counterexample :
    SceneSpecValidator.validate none (Json.obj []) = .ok
      [⟨"$", "Missing required field: version", "required"⟩,
       ⟨"$", "Missing required field: domain", "required"⟩,
       ⟨"$", "Missing required field: seed", "required"⟩,
       ⟨"$", "Missing required field: objects", "required"⟩,
       ⟨"$", "Missing required field: lighting", "required"⟩,
       ⟨"$", "Missing required field: camera", "required"⟩] ∧
    ([(⟨"$", "Missing required field: version", "required"⟩ : ValidationIssue),
      ⟨"$", "Missing required field: domain", "required"⟩,
      ⟨"$", "Missing required field: seed", "required"⟩,
      ⟨"$", "Missing required field: objects", "required"⟩,
      ⟨"$", "Missing required field: lighting", "required"⟩,
      ⟨"$", "Missing required field: camera", "required"⟩].all (fun i =>
        !(decide (i.code = "required") &&
          decide ("version".toList <:+: i.path.toList)))) = true :=
  ⟨validate_empty_obj, by decide⟩

/-! # Claim C8: the version-mismatch check

No component of the validator other than the expected-version comparison emits
an issue with code `"mismatch"`. -/

def NoMismatch (l : List ValidationIssue) : Prop := ∀ i ∈ l, i.code ≠ "mismatch"

theorem mem_req {i : ValidationIssue} {c : Bool} {p m code : String}
    (h : i ∈ req c p m code) : i = ⟨p, m, code⟩ := by
  unfold req at h
  split at h
  · cases h
  · simpa using h

theorem noMismatch_req {c : Bool} {p m code : String} (h : code ≠ "mismatch") :
    NoMismatch (req c p m code) := by
  intro i hi
  rw [mem_req hi]
  exact h

theorem noMismatch_nil : NoMismatch [] := by
  intro i hi
  cases hi

theorem noMismatch_append {l1 l2 : List ValidationIssue}
    (h1 : NoMismatch l1) (h2 : NoMismatch l2) : NoMismatch (l1 ++ l2) := by
  intro i hi
  rcases List.mem_append.mp hi with h | h
  · exact h1 i h
  · exact h2 i h

theorem noMismatch_flatten {ls : List (List ValidationIssue)}
    (h : ∀ l ∈ ls, NoMismatch l) : NoMismatch ls.flatten := by
  intro i hi
  rw [List.mem_flatten] at hi
  obtain ⟨l, hl, hil⟩ := hi
  exact h l hl i hil

theorem noMismatch_singleton {p m code : String} (h : code ≠ "mismatch") :
    NoMismatch [⟨p, m, code⟩] := by
  intro i hi
  rw [List.mem_singleton.mp hi]
  exact h

theorem noMismatch_validateMetadata (meta : Json) :
    NoMismatch (validateMetadata meta) := by
  unfold validateMetadata
  dsimp only
  split
  · exact noMismatch_req (by decide)
  · refine noMismatch_append (noMismatch_append ?_ ?_) ?_
    · split
      · exact noMismatch_nil
      · refine noMismatch_append (noMismatch_req (by decide)) ?_
        split
        · exact noMismatch_req (by decide)
        · exact noMismatch_nil
    · split
      · exact noMismatch_nil
      · exact noMismatch_req (by decide)
    · split
      · exact noMismatch_nil
      · exact noMismatch_req (by decide)

theorem noMismatch_validateGrid (grid : Json) : NoMismatch (validateGrid grid) := by
  unfold validateGrid
  dsimp only
  split
  · exact noMismatch_req (by decide)
  · refine noMismatch_append (noMismatch_append (noMismatch_append
      (noMismatch_req (by decide)) (noMismatch_req (by decide))) ?_) ?_
    · split
      · exact noMismatch_nil
      · refine noMismatch_append (noMismatch_req (by decide)) ?_
        split
        · exact noMismatch_req (by decide)
        · exact noMismatch_nil
    · refine noMismatch_append (noMismatch_req (by decide)) ?_
      split
      · refine noMismatch_append (noMismatch_append (noMismatch_append
          (noMismatch_req (by decide)) (noMismatch_req (by decide))) ?_) ?_
        · split
          · exact noMismatch_req (by decide)
          · exact noMismatch_nil
        · split
          · exact noMismatch_req (by decide)
          · exact noMismatch_nil
      · exact noMismatch_nil

theorem noMismatch_validateCamera (cam : Json) : NoMismatch (validateCamera cam) := by
  unfold validateCamera
  dsimp only
  split
  · exact noMismatch_req (by decide)
  · refine noMismatch_append (noMismatch_append (noMismatch_req (by decide))
      (noMismatch_req (by decide))) ?_
    refine noMismatch_append (noMismatch_req (by decide)) ?_
    split
    · exact noMismatch_req (by decide)
    · exact noMismatch_nil

theorem noMismatch_validateConstraints (cons : Json) :
    NoMismatch (validateConstraints cons) := by
  unfold validateConstraints
  dsimp only
  split
  · exact noMismatch_req (by decide)
  · refine noMismatch_append (noMismatch_append ?_ (noMismatch_req (by decide))) ?_
    · split
      · exact noMismatch_nil
      · refine noMismatch_append (noMismatch_req (by decide)) ?_
        split
        · exact noMismatch_req (by decide)
        · exact noMismatch_nil
    · split
      · exact noMismatch_nil
      · refine noMismatch_append (noMismatch_req (by decide)) ?_
        split
        · exact noMismatch_req (by decide)
        · exact noMismatch_nil

theorem noMismatch_materialEntryIssues (i : ℕ) (m : Json) :
    NoMismatch (materialEntryIssues i m) := by
  unfold materialEntryIssues
  dsimp only
  repeat' first
  | exact noMismatch_nil
  | apply noMismatch_append
  | apply noMismatch_req (by decide)
  | (apply noMismatch_flatten;
     intro l hl;
     rw [List.mem_map] at hl;
     obtain ⟨fld, hfld, hlf⟩ := hl;
     rw [← hlf])
  | dsimp only
  | split

theorem noMismatch_validateMaterials (materials : Json) :
    NoMismatch (validateMaterials materials) := by
  unfold validateMaterials
  split
  · refine noMismatch_append (noMismatch_flatten ?_) ?_
    · intro l hl
      rw [List.mem_map] at hl
      obtain ⟨im, him, hlf⟩ := hl
      rw [← hlf]
      exact noMismatch_materialEntryIssues im.1 im.2
    · dsimp only
      split
      · exact noMismatch_singleton (by decide)
      · exact noMismatch_nil
  · exact noMismatch_req (by decide)

theorem noMismatch_collectionEntryIssues (i : ℕ) (c : Json) :
    NoMismatch (collectionEntryIssues i c) := by
  unfold collectionEntryIssues
  dsimp only
  repeat' first
  | exact noMismatch_nil
  | apply noMismatch_append
  | apply noMismatch_req (by decide)
  | dsimp only
  | split

theorem noMismatch_validateCollections (collections : Json) :
    NoMismatch (validateCollections collections) := by
  unfold validateCollections
  split
  · refine noMismatch_append (noMismatch_flatten ?_) ?_
    · intro l hl
      rw [List.mem_map] at hl
      obtain ⟨ic, hic, hlf⟩ := hl
      rw [← hlf]
      exact noMismatch_collectionEntryIssues ic.1 ic.2
    · dsimp only
      split
      · exact noMismatch_singleton (by decide)
      · exact noMismatch_nil
  · exact noMismatch_req (by decide)

theorem noMismatch_objectEntryStep (issues : List ValidationIssue)
    (ids seen : List String) (im : ℕ × Json) (h : NoMismatch issues) :
    NoMismatch (objectEntryStep (issues, ids, seen) im).1 := by
  unfold objectEntryStep
  dsimp only
  repeat' first
  | exact h
  | exact noMismatch_nil
  | apply noMismatch_append
  | apply noMismatch_req (by decide)
  | apply noMismatch_singleton (by decide)
  | dsimp only
  | split

theorem noMismatch_foldl_objectEntryStep (l : List (ℕ × Json))
    (acc : List ValidationIssue × List String × List String) (h : NoMismatch acc.1) :
    NoMismatch (l.foldl objectEntryStep acc).1 := by
  induction l generalizing acc with
  | nil => simpa using h
  | cons im t ih =>
    rw [List.foldl_cons]
    refine ih _ ?_
    obtain ⟨issues, ids, seen⟩ := acc
    exact noMismatch_objectEntryStep issues ids seen im (by simpa using h)

theorem noMismatch_validateObjects (objects : Json) :
    NoMismatch (validateObjects objects) := by
  unfold validateObjects
  split
  · dsimp only
    refine noMismatch_append (noMismatch_foldl_objectEntryStep _ _ noMismatch_nil) ?_
    split
    · exact noMismatch_singleton (by decide)
    · exact noMismatch_nil
  · exact noMismatch_req (by decide)

theorem noMismatch_lightEntryIssues (i : ℕ) (L : Json) :
    NoMismatch (lightEntryIssues i L) := by
  unfold lightEntryIssues
  dsimp only
  repeat' first
  | exact noMismatch_nil
  | apply noMismatch_append
  | apply noMismatch_req (by decide)
  | dsimp only
  | split

theorem noMismatch_validateLighting (lights : Json) :
    NoMismatch (validateLighting lights) := by
  unfold validateLighting
  split
  · refine noMismatch_append (noMismatch_req (by decide)) (noMismatch_flatten ?_)
    intro l hl
    rw [List.mem_map] at hl
    obtain ⟨iL, hiL, hlf⟩ := hl
    rw [← hlf]
    exact noMismatch_lightEntryIssues iL.1 iL.2
  · exact noMismatch_req (by decide)

theorem noMismatch_crossFieldIssues (spec : Json) :
    NoMismatch (crossFieldIssues spec) := by
  unfold crossFieldIssues
  dsimp only
  refine noMismatch_append (noMismatch_flatten ?_) (noMismatch_flatten ?_) <;>
    (intro l hl;
     rw [List.mem_map] at hl;
     obtain ⟨io, hio, hlf⟩ := hl;
     rw [← hlf];
     repeat' first
     | exact noMismatch_nil
     | apply noMismatch_singleton (by decide)
     | dsimp only
     | split)

theorem noMismatch_reqTrue {p m code : String} : NoMismatch (req true p m code) := by
  intro i hi
  simp [req] at hi

/-- **C8.**  On a dict document whose `version` field is a string `v` matching
`N.N.N`, validation against an expected version `e` that returns normally
produces an issue with code `"mismatch"` and path `"$.version"` iff `v ≠ e`:
the expected-version comparison is the only source of `"mismatch"` issues. -/
theorem version_mismatch_iff :
    ∀ (kvs : List (String × Json)) (v e : String) (issues : List ValidationIssue),
      (Json.obj kvs).pyGet "version" = .str v →
      versionMatches v = true →
      SceneSpecValidator.validate (some e) (Json.obj kvs) = .ok issues →
      ((∃ i ∈ issues, i.code = "mismatch" ∧ i.path = "$.version") ↔ v ≠ e) := by
  intro kvs v e issues hv hm hok
  unfold SceneSpecValidator.validate at hok
  rw [show (Json.obj kvs).isDict = true from rfl] at hok
  simp only [Bool.not_true, Bool.false_eq_true, if_false] at hok
  split at hok
  · cases hok
  · split at hok
    · cases hok
    · injection hok with hok
      subst hok
      constructor
      · rintro ⟨i, hi, hcode, hpath⟩
        intro hve
        subst hve
        refine (?_ : NoMismatch _) i hi hcode
        rw [hv]
        simp only [show (Json.str v).isNull = false from rfl, Bool.false_eq_true, if_false,
          show decide (v = v) = true from by simp]
        refine noMismatch_append (noMismatch_append (noMismatch_append (noMismatch_append
          (noMismatch_append (noMismatch_append (noMismatch_append (noMismatch_append
          (noMismatch_append (noMismatch_append (noMismatch_append (noMismatch_append
          (noMismatch_append ?_ ?_) ?_) ?_) ?_) ?_) ?_) ?_) ?_) ?_) ?_) ?_) ?_) ?_
        · apply noMismatch_flatten
          intro l hl
          rw [List.mem_map] at hl
          obtain ⟨k, hk, hlf⟩ := hl
          rw [← hlf]
          exact noMismatch_req (by decide)
        · exact noMismatch_append (noMismatch_req (by decide))
            (noMismatch_append (noMismatch_req (by decide)) noMismatch_reqTrue)
        · repeat' first
          | exact noMismatch_nil
          | apply noMismatch_append
          | apply noMismatch_req (by decide)
          | split
        · exact noMismatch_req (by decide)
        · repeat' first
          | exact noMismatch_nil
          | apply noMismatch_append
          | apply noMismatch_req (by decide)
          | split
        · split
          · exact noMismatch_validateMetadata _
          · exact noMismatch_nil
        · split
          · exact noMismatch_validateGrid _
          · split
            · exact noMismatch_singleton (by decide)
            · exact noMismatch_nil
        · split
          · exact noMismatch_validateMaterials _
          · exact noMismatch_nil
        · split
          · exact noMismatch_validateCollections _
          · exact noMismatch_nil
        · split
          · exact noMismatch_validateObjects _
          · exact noMismatch_nil
        · split
          · exact noMismatch_validateLighting _
          · exact noMismatch_nil
        · split
          · exact noMismatch_validateCamera _
          · exact noMismatch_nil
        · split
          · exact noMismatch_validateConstraints _
          · exact noMismatch_nil
        · exact noMismatch_crossFieldIssues _
      · intro hne
        refine ⟨⟨"$.version", "expected version " ++ e, "mismatch"⟩, ?_, rfl, rfl⟩
        apply List.mem_append_left
        apply List.mem_append_left
        apply List.mem_append_left
        apply List.mem_append_left
        apply List.mem_append_left
        apply List.mem_append_left
        apply List.mem_append_left
        apply List.mem_append_left
        apply List.mem_append_left
        apply List.mem_append_left
        apply List.mem_append_left
        apply List.mem_append_left
        apply List.mem_append_right
        rw [hv]
        simp only [show (Json.str v).isNull = false from rfl,
          show (Json.str v).isStr = true from rfl, Bool.false_eq_true, if_false]
        simp [req, hm, hne]

set_option maxHeartbeats 2000000 in
theorem version_mismatch_iff_witness :
    ∃ i ∈ [(⟨"$", "Missing required field: domain", "required"⟩ : ValidationIssue),
           ⟨"$", "Missing required field: seed", "required"⟩,
           ⟨"$", "Missing required field: objects", "required"⟩,
           ⟨"$", "Missing required field: lighting", "required"⟩,
           ⟨"$", "Missing required field: camera", "required"⟩,
           ⟨"$.version", "expected version 9.9.9", "mismatch"⟩],
      i.code = "mismatch" ∧ i.path = "$.version" :=
  (version_mismatch_iff [("version", Json.str "1.0.0")] "1.0.0" "9.9.9"
    [⟨"$", "Missing required field: domain", "required"⟩,
     ⟨"$", "Missing required field: seed", "required"⟩,
     ⟨"$", "Missing required field: objects", "required"⟩,
     ⟨"$", "Missing required field: lighting", "required"⟩,
     ⟨"$", "Missing required field: camera", "required"⟩,
     ⟨"$.version", "expected version 9.9.9", "mismatch"⟩] rfl (by decide) rfl).mpr
    (by decide)

/-! # Claim C2: the validator is claimed never to raise -/

set_option maxHeartbeats 1000000 in
/-- **C2 (code bug).**  `validate_scene_spec` *does* raise on two malformed
inputs, contrary to the never-throws contract: an unhashable `units` value
(line 121, `units in UNITS_ALLOWED` hashes the value) raises `TypeError`, and
a truthy non-dict `constraints` raises `AttributeError` (line 166,
`cons.get(...)` on the raw value).  Every other malformation is
isinstance-guarded. -/
theorem validate_never_throws_refuted :
    validate_scene_spec (Json.obj [("units", Json.arr [])]) none =
      .error (.typeError "unhashable type: 'list'") ∧
    validate_scene_spec (Json.obj [("constraints", Json.int 1)]) none =
      .error (.attributeError "'int' object has no attribute 'get'") := ⟨rfl, rfl⟩

/-! # Claim C1: atomicity of the failure path

Naming, monotonicity and cleanup lemmas, then the amended claim: cleanup
restores every snapshot category provided nothing pre-existing collides with
the temp collection's name or with an object name linked into it. -/

theorem digitChar_inj : ∀ d < 10, ∀ e < 10,
    Char.ofNat (48 + d) = Char.ofNat (48 + e) → d = e := by decide

theorem map_digitChar_inj : ∀ l1 l2 : List ℕ, (∀ d ∈ l1, d < 10) → (∀ d ∈ l2, d < 10) →
    l1.map (fun d => Char.ofNat (48 + d)) = l2.map (fun d => Char.ofNat (48 + d)) →
    l1 = l2 := by
  intro l1
  induction l1 with
  | nil =>
    intro l2 _ _ h
    cases l2 with
    | nil => rfl
    | cons e t2 => simp at h
  | cons d t ih =>
    intro l2 h1 h2 h
    cases l2 with
    | nil => simp at h
    | cons e t2 =>
      simp only [List.map_cons, List.cons.injEq] at h
      have hd : d = e := digitChar_inj d (h1 d (List.mem_cons_self d t)) e
        (h2 e (List.mem_cons_self e t2)) h.1
      subst hd
      rw [ih t2 (fun x hx => h1 x (List.mem_cons_of_mem d hx))
        (fun x hx => h2 x (List.mem_cons_of_mem d hx)) h.2]

theorem natDecimal_inj : ∀ a b : ℕ, natDecimal a = natDecimal b → a = b := by
  have key : ∀ b : ℕ, b ≠ 0 →
      ("0" : String) = String.mk (((Nat.digits 10 b).map
        (fun d => Char.ofNat (48 + d))).reverse) → False := by
    intro b hb h
    have hd : (['0'] : List Char) =
        ((Nat.digits 10 b).map (fun d => Char.ofNat (48 + d))).reverse :=
      congrArg String.data h
    have hrev : (Nat.digits 10 b).map (fun d => Char.ofNat (48 + d)) = ['0'] := by
      have h2 := congrArg List.reverse hd
      simpa using h2.symm
    have h0 : ([0] : List ℕ).map (fun d => Char.ofNat (48 + d)) = ['0'] := rfl
    have hlist : ([0] : List ℕ) = Nat.digits 10 b := by
      refine map_digitChar_inj _ _ ?_ ?_ ?_
      · intro d hd2
        simp at hd2
        omega
      · intro d hd2
        exact Nat.digits_lt_base (by norm_num) hd2
      · rw [h0, hrev]
    have h3 := congrArg (Nat.ofDigits 10) hlist
    rw [Nat.ofDigits_digits] at h3
    simp [Nat.ofDigits] at h3
    exact hb h3.symm
  intro a b h
  unfold natDecimal at h
  by_cases ha : a = 0 <;> by_cases hb : b = 0
  · rw [ha, hb]
  · rw [if_pos ha, if_neg hb] at h
    exact absurd h (fun hh => key b hb hh)
  · rw [if_neg ha, if_pos hb] at h
    exact absurd h.symm (fun hh => key a ha hh)
  · rw [if_neg ha, if_neg hb] at h
    have hd : (((Nat.digits 10 a).map (fun d => Char.ofNat (48 + d))).reverse) =
        (((Nat.digits 10 b).map (fun d => Char.ofNat (48 + d))).reverse) :=
      congrArg String.data h
    have hrev := List.reverse_injective hd
    have hmap := map_digitChar_inj _ _
      (fun d hdm => Nat.digits_lt_base (by norm_num) hdm)
      (fun d hdm => Nat.digits_lt_base (by norm_num) hdm) hrev
    have h2 := congrArg (Nat.ofDigits 10) hmap
    rw [Nat.ofDigits_digits, Nat.ofDigits_digits] at h2
    exact_mod_cast h2

theorem suffixName_inj (base : String) : ∀ a b : ℕ,
    suffixName base a = suffixName base b → a = b := by
  intro a b h
  unfold suffixName at h
  apply natDecimal_inj
  have hd := congrArg String.data h
  simp only [String.data_append] at hd
  have h2 := List.append_cancel_left hd
  exact congrArg String.mk h2

theorem freshName_not_mem (used : Finset String) (base : String) :
    freshName used base ∉ used := by
  unfold freshName
  split
  · assumption
  · split
    · rename_i k hk
      have h2 := List.find?_some hk
      exact of_decide_eq_true h2
    · rename_i hnone
      exfalso
      have hall : ∀ k, k < used.card + 2 → suffixName base (k + 2) ∈ used := by
        intro k hk
        have h3 := List.find?_eq_none.mp hnone k (List.mem_range.mpr hk)
        simpa using h3
      have hsub : (Finset.range (used.card + 2)).image
          (fun k => suffixName base (k + 2)) ⊆ used := by
        intro s hs
        rw [Finset.mem_image] at hs
        obtain ⟨k, hk, rfl⟩ := hs
        exact hall k (Finset.mem_range.mp hk)
      have hinj : Function.Injective (fun k => suffixName base (k + 2)) := by
        intro x y hxy
        have h4 := suffixName_inj base (x + 2) (y + 2) hxy
        omega
      have hcard : ((Finset.range (used.card + 2)).image
          (fun k => suffixName base (k + 2))).card = used.card + 2 := by
        rw [Finset.card_image_of_injective _ hinj, Finset.card_range]
      have h5 := Finset.card_le_card hsub
      rw [hcard] at h5
      omega

theorem applyOp_mono (w : World) (op : HostOp) :
    w.collections ⊆ (applyOp w op).collections ∧ w.objects ⊆ (applyOp w op).objects ∧
    w.meshes ⊆ (applyOp w op).meshes ∧ w.materials ⊆ (applyOp w op).materials ∧
    w.lights ⊆ (applyOp w op).lights ∧ w.cameras ⊆ (applyOp w op).cameras := by
  cases op with
  | genericObject base m t =>
    unfold applyOp
    dsimp only
    refine ⟨?_, ?_, ?_, ?_, ?_, ?_⟩ <;> split <;>
      first
      | exact subset_rfl
      | exact Finset.subset_insert _ _
  | ensureCollection n =>
    exact ⟨Finset.subset_insert _ _, subset_rfl, subset_rfl, subset_rfl, subset_rfl,
      subset_rfl⟩
  | newObject n =>
    exact ⟨subset_rfl, Finset.subset_insert _ _, subset_rfl, subset_rfl, subset_rfl,
      subset_rfl⟩
  | newMesh n =>
    exact ⟨subset_rfl, subset_rfl, Finset.subset_insert _ _, subset_rfl, subset_rfl,
      subset_rfl⟩
  | ensureMaterial n =>
    exact ⟨subset_rfl, subset_rfl, subset_rfl, Finset.subset_insert _ _, subset_rfl,
      subset_rfl⟩
  | newLight n =>
    exact ⟨subset_rfl, subset_rfl, subset_rfl, subset_rfl, Finset.subset_insert _ _,
      subset_rfl⟩
  | newCamera n =>
    exact ⟨subset_rfl, subset_rfl, subset_rfl, subset_rfl, subset_rfl,
      Finset.subset_insert _ _⟩
  | link c o =>
    exact ⟨subset_rfl, subset_rfl, subset_rfl, subset_rfl, subset_rfl, subset_rfl⟩

theorem runOps_mono (ops : List HostOp) (w : World) :
    w.collections ⊆ (runOps ops w).collections ∧ w.objects ⊆ (runOps ops w).objects ∧
    w.meshes ⊆ (runOps ops w).meshes ∧ w.materials ⊆ (runOps ops w).materials ∧
    w.lights ⊆ (runOps ops w).lights ∧ w.cameras ⊆ (runOps ops w).cameras := by
  induction ops generalizing w with
  | nil =>
    exact ⟨subset_rfl, subset_rfl, subset_rfl, subset_rfl, subset_rfl, subset_rfl⟩
  | cons op rest ih =>
    have h1 := applyOp_mono w op
    have h2 := ih (applyOp w op)
    exact ⟨h1.1.trans h2.1, h1.2.1.trans h2.2.1, h1.2.2.1.trans h2.2.2.1,
      h1.2.2.2.1.trans h2.2.2.2.1, h1.2.2.2.2.1.trans h2.2.2.2.2.1,
      h1.2.2.2.2.2.trans h2.2.2.2.2.2⟩

theorem applyOp_no_temp_link (temp : String) (P : Finset String) (w : World)
    (op : HostOp) (hP : P ⊆ w.objects) (hI : ∀ o ∈ P, (temp, o) ∉ w.links)
    (hop : ∀ n, op = HostOp.link temp n → n ∉ P) :
    P ⊆ (applyOp w op).objects ∧ ∀ o ∈ P, (temp, o) ∉ (applyOp w op).links := by
  cases op with
  | link c n =>
    refine ⟨hP, ?_⟩
    intro o ho
    unfold applyOp
    dsimp only
    rw [Finset.mem_insert]
    rintro (heq | hm)
    · rw [Prod.mk.injEq] at heq
      have hn : n ∉ P := hop n (by rw [heq.1])
      rw [heq.2] at ho
      exact hn ho
    · exact hI o ho hm
  | genericObject base m t =>
    unfold applyOp
    dsimp only
    constructor
    · intro x hx
      split
      · exact Finset.mem_insert_of_mem (hP hx)
      · exact Finset.mem_insert_of_mem (hP hx)
    · intro o ho
      rw [Finset.mem_insert]
      rintro (heq | hm)
      · rw [Prod.mk.injEq] at heq
        have hfr := freshName_not_mem w.objects base
        rw [← heq.2] at hfr
        exact hfr (hP ho)
      · have hm2 : (temp, o) ∈ w.links := by
          rcases m with _ | _
          · exact hm
          · exact hm
        exact hI o ho hm2
  | ensureCollection n => exact ⟨hP, hI⟩
  | newObject n => exact ⟨fun x hx => Finset.mem_insert_of_mem (hP hx), hI⟩
  | newMesh n => exact ⟨hP, hI⟩
  | ensureMaterial n => exact ⟨hP, hI⟩
  | newLight n => exact ⟨hP, hI⟩
  | newCamera n => exact ⟨hP, hI⟩

theorem runOps_no_temp_link (temp : String) (P : Finset String) :
    ∀ (ops : List HostOp) (w : World), P ⊆ w.objects →
      (∀ o ∈ P, (temp, o) ∉ w.links) →
      (∀ n, HostOp.link temp n ∈ ops → n ∉ P) →
      P ⊆ (runOps ops w).objects ∧ ∀ o ∈ P, (temp, o) ∉ (runOps ops w).links := by
  intro ops
  induction ops with
  | nil => exact fun w hP hI _ => ⟨hP, hI⟩
  | cons op rest ih =>
    intro w hP hI hops
    have hstep := applyOp_no_temp_link temp P w op hP hI
      (fun n hn => hops n (by rw [hn]; exact List.mem_cons_self _ _))
    exact ih (applyOp w op) hstep.1 hstep.2
      (fun n hn => hops n (List.mem_cons_of_mem _ hn))

theorem cleanup_restores (w : World) (temp : String) (ops : List HostOp)
    (htne : temp ≠ "")
    (ha : temp ∉ w.collections)
    (hb : ∀ p ∈ w.links, p.1 ≠ temp)
    (hc : ∀ n, HostOp.link temp n ∈ ops → n ∉ w.objects) :
    snapshot_datablocks (cleanup_new_datablocks (snapshot_datablocks w) temp
        (runOps ops (applyOp w (.ensureCollection temp)))) = snapshot_datablocks w ∧
    temp ∉ (cleanup_new_datablocks (snapshot_datablocks w) temp
        (runOps ops (applyOp w (.ensureCollection temp)))).collections := by
  have hm := runOps_mono ops (applyOp w (.ensureCollection temp))
  have hcolsub : w.collections ⊆
      (runOps ops (applyOp w (.ensureCollection temp))).collections :=
    (Finset.subset_insert _ _).trans hm.1
  have htempW : temp ∈ (runOps ops (applyOp w (.ensureCollection temp))).collections :=
    hm.1 (Finset.mem_insert_self _ _)
  have hobjsub : w.objects ⊆ (runOps ops (applyOp w (.ensureCollection temp))).objects :=
    hm.2.1
  have hlinkinv : ∀ o ∈ w.objects,
      (temp, o) ∉ (runOps ops (applyOp w (.ensureCollection temp))).links :=
    (runOps_no_temp_link temp w.objects ops (applyOp w (.ensureCollection temp))
      subset_rfl (fun o _ hm2 => hb (temp, o) hm2 rfl) hc).2
  have hcols : (cleanup_new_datablocks (snapshot_datablocks w) temp
      (runOps ops (applyOp w (.ensureCollection temp)))).collections = w.collections := by
    unfold cleanup_new_datablocks snapshot_datablocks
    dsimp only
    rw [if_pos ⟨htne, htempW⟩]
    dsimp only
    rw [Finset.sdiff_sdiff_self_left, Finset.inter_eq_right.mpr]
    rw [Finset.subset_erase]
    exact ⟨hcolsub, ha⟩
  refine ⟨?_, ?_⟩
  · unfold cleanup_new_datablocks snapshot_datablocks
    dsimp only
    rw [if_pos ⟨htne, htempW⟩]
    dsimp only
    rw [Snapshot.mk.injEq]
    refine ⟨?_, ?_, ?_, ?_, ?_, ?_⟩
    · rw [Finset.sdiff_sdiff_self_left, Finset.inter_eq_right.mpr]
      rw [Finset.subset_erase]
      exact ⟨hcolsub, ha⟩
    · rw [Finset.sdiff_sdiff_self_left, Finset.inter_eq_right.mpr]
      rw [Finset.subset_sdiff]
      refine ⟨hobjsub, ?_⟩
      rw [Finset.disjoint_left]
      intro x hx hxt
      rw [Finset.mem_image] at hxt
      obtain ⟨p, hp, hpx⟩ := hxt
      rw [Finset.mem_filter] at hp
      have hpeq : p = (temp, x) := by
        rw [Prod.ext_iff]
        exact ⟨hp.2, hpx⟩
      rw [hpeq] at hp
      exact hlinkinv x hx hp.1
    · rw [Finset.sdiff_sdiff_self_left]
      exact Finset.inter_eq_right.mpr hm.2.2.1
    · rw [Finset.sdiff_sdiff_self_left]
      exact Finset.inter_eq_right.mpr hm.2.2.2.1
    · rw [Finset.sdiff_sdiff_self_left]
      exact Finset.inter_eq_right.mpr hm.2.2.2.2.1
    · rw [Finset.sdiff_sdiff_self_left]
      exact Finset.inter_eq_right.mpr hm.2.2.2.2.2
  · rw [hcols]
    exact ha

/-- **C1 (amended).**  On any failing `execute_scene_spec` run (with cleanup
enabled), the world's resource identifiers in every snapshot category equal
the pre-call snapshot and no temp-named collection remains — *provided* the
pre-existing world holds no collection with the temp name, no link out of the
temp name, and no object that the build links into the temp collection.  The
unqualified claim over every pre-existing world is refuted by the
counterexample. -/
theorem execute_atomic_cleanup :
    ∀ (spec : Json) (rid : String) (e : Option String) (w : World)
      (msg : String) (w' : World),
      rid ≠ "" →
      make_temp_collection_name rid ∉ w.collections →
      (∀ p ∈ w.links, p.1 ≠ make_temp_collection_name rid) →
      (∀ n, HostOp.link (make_temp_collection_name rid) n ∈
          (buildOps spec (make_temp_collection_name rid)).1 → n ∉ w.objects) →
      execute_scene_spec spec rid e true w = (.specExecutionError msg, w') →
      snapshot_datablocks w' = snapshot_datablocks w ∧
      make_temp_collection_name rid ∉ w'.collections := by
  intro spec rid e w msg w' hrid ha hb hc hex
  have htne : make_temp_collection_name rid ≠ "" := by
    unfold make_temp_collection_name
    intro hcontra
    have h2 := congrArg String.data hcontra
    simp [String.data_append] at h2
  unfold execute_scene_spec at hex
  rw [if_neg hrid] at hex
  dsimp only at hex
  split at hex
  · rw [Prod.mk.injEq] at hex
    cases hex.1
  · rw [Prod.mk.injEq] at hex
    obtain ⟨-, hw⟩ := hex
    subst hw
    exact ⟨rfl, ha⟩
  · split at hex
    · rw [Prod.mk.injEq] at hex
      obtain ⟨-, hw⟩ := hex
      subst hw
      rw [if_pos rfl]
      exact cleanup_restores w _ _ htne ha hb hc
    · split at hex
      · split at hex
        · rw [Prod.mk.injEq] at hex
          obtain ⟨-, hw⟩ := hex
          subst hw
          rw [if_pos rfl]
          exact cleanup_restores w _ _ htne ha hb hc
        · rw [Prod.mk.injEq] at hex
          cases hex.1
      · rw [Prod.mk.injEq] at hex
        obtain ⟨-, hw⟩ := hex
        subst hw
        rw [if_pos rfl]
        exact cleanup_restores w _ _ htne ha hb hc

set_option maxHeartbeats 4000000 in
/-- **C1 counterexample.**  A pre-existing collection carrying the temp
workspace name `Canvas3D_Temp_r1` is destroyed by the rollback of a
forced-failure run: the post-failure world is empty, so its snapshot differs
from the pre-call snapshot. -/
theorem atomic_cleanup_counterexample :
    c1World.collections = {"Canvas3D_Temp_r1"} ∧
    execute_scene_spec c1Spec "r1" none true c1World =
      (.specExecutionError
        "[r1] Execution failed: Forced failure for test/validation of atomic cleanup",
       World.empty) ∧
    snapshot_datablocks World.empty ≠ snapshot_datablocks c1World :=
  ⟨rfl, rfl, by decide⟩

set_option maxHeartbeats 4000000 in
theorem execute_atomic_cleanup_witness :
    snapshot_datablocks World.empty = snapshot_datablocks World.empty ∧
    make_temp_collection_name "r1" ∉ (World.empty).collections :=
  execute_atomic_cleanup c1Spec "r1" none World.empty
    "[r1] Execution failed: Forced failure for test/validation of atomic cleanup"
    World.empty (by decide) (Finset.not_mem_empty _)
    (fun p hp => absurd hp (Finset.not_mem_empty p))
    (fun n _ => Finset.not_mem_empty n) rfl

/-! # Claim C9: commit determinism and idempotent overwrite -/

theorem commit_collection_mem (tempName commitName : String) (w : World) :
    commitName ∈ (commit_collection tempName commitName w).collections := by
  unfold commit_collection
  dsimp only
  exact Finset.mem_insert_self _ _

/-- **C9.**  Two sequential successful `execute_scene_spec` calls with the
same `requestId` both return the deterministic published name
`Canvas3D_Scene_<requestId>`, that name is a collection of the resulting world
after each call, and the commit step of any run that finds a collection
already carrying the public name first removes it before renaming the temp
collection onto it (idempotent overwrite). -/
theorem commit_deterministic :
    ∀ (spec : Json) (rid : String) (e : Option String) (w0 w1 w2 : World)
      (n1 n2 : String),
      rid ≠ "" →
      execute_scene_spec spec rid e true w0 = (.ok n1, w1) →
      execute_scene_spec spec rid e true w1 = (.ok n2, w2) →
      n1 = make_commit_collection_name rid ∧
      n2 = make_commit_collection_name rid ∧
      n1 ∈ w1.collections ∧ n2 ∈ w2.collections ∧
      (∀ w : World, n1 ∈ w.collections → n1 ≠ make_temp_collection_name rid →
        (commit_collection (make_temp_collection_name rid) n1 w).collections =
          insert n1 ((w.collections.erase n1).erase (make_temp_collection_name rid))) := by
  intro spec rid e w0 w1 w2 n1 n2 hrid h1 h2
  unfold execute_scene_spec at h1 h2
  rw [if_neg hrid] at h1 h2
  dsimp only at h1 h2
  split at h1
  · rw [Prod.mk.injEq] at h1
    cases h1.1
  · rw [Prod.mk.injEq] at h1
    cases h1.1
  · split at h1
    · rw [Prod.mk.injEq] at h1
      cases h1.1
    · split at h1
      · split at h1
        · rw [Prod.mk.injEq] at h1
          cases h1.1
        · rw [Prod.mk.injEq] at h1
          obtain ⟨hn1, hw1⟩ := h1
          injection hn1 with hn1
          split at h2
          · rw [Prod.mk.injEq] at h2
            cases h2.1
          · rw [Prod.mk.injEq] at h2
            cases h2.1
          · split at h2
            · rw [Prod.mk.injEq] at h2
              cases h2.1
            · split at h2
              · split at h2
                · rw [Prod.mk.injEq] at h2
                  cases h2.1
                · rw [Prod.mk.injEq] at h2
                  obtain ⟨hn2, hw2⟩ := h2
                  injection hn2 with hn2
                  subst hn1
                  subst hn2
                  refine ⟨rfl, rfl, ?_, ?_, ?_⟩
                  · rw [← hw1]
                    exact commit_collection_mem _ _ _
                  · rw [← hw2]
                    exact commit_collection_mem _ _ _
                  · intro w hwmem hne
                    unfold commit_collection
                    dsimp only
                    rw [if_pos ⟨hwmem, hne⟩]
              · rw [Prod.mk.injEq] at h2
                cases h2.1
      · rw [Prod.mk.injEq] at h1
        cases h1.1

set_option maxHeartbeats 4000000 in
theorem commit_deterministic_witness :
    "Canvas3D_Scene_abc" = make_commit_collection_name "abc" ∧
    "Canvas3D_Scene_abc" = make_commit_collection_name "abc" ∧
    "Canvas3D_Scene_abc" ∈
      (execute_scene_spec c9Spec "abc" none true World.empty).2.collections ∧
    "Canvas3D_Scene_abc" ∈
      (execute_scene_spec c9Spec "abc" none true
        (execute_scene_spec c9Spec "abc" none true World.empty).2).2.collections ∧
    (∀ w : World, "Canvas3D_Scene_abc" ∈ w.collections →
      "Canvas3D_Scene_abc" ≠ make_temp_collection_name "abc" →
      (commit_collection (make_temp_collection_name "abc")
          "Canvas3D_Scene_abc" w).collections =
        insert "Canvas3D_Scene_abc" ((w.collections.erase "Canvas3D_Scene_abc").erase
          (make_temp_collection_name "abc"))) :=
  commit_deterministic c9Spec "abc" none World.empty
    (execute_scene_spec c9Spec "abc" none true World.empty).2
    (execute_scene_spec c9Spec "abc" none true
      (execute_scene_spec c9Spec "abc" none true World.empty).2).2
    "Canvas3D_Scene_abc" "Canvas3D_Scene_abc" (by decide)
    (Prod.ext_iff.mpr ⟨rfl, rfl⟩) (Prod.ext_iff.mpr ⟨rfl, rfl⟩)

/-! # Claim C10: the wrapper contracts -/

/-- **C10.**  `validate_scene_spec` returns `ok = true` exactly when its issue
list is empty, and on the same inputs `assert_valid_scene_spec` raises (a
`SpecValidationError` whose message lists every issue) exactly when at least
one issue was produced, returning `None` otherwise. -/
theorem validate_wrappers_consistent :
    ∀ (spec : Json) (e : Option String) (ok : Bool) (issues : List ValidationIssue),
      validate_scene_spec spec e = .ok (ok, issues) →
        (ok = true ↔ issues = []) ∧
        assert_valid_scene_spec spec e =
          .ok (if issues = [] then none else some (validationFailMsg issues)) := by
  intro spec e ok issues h
  unfold validate_scene_spec at h
  cases hv : SceneSpecValidator.validate e spec with
  | error err => rw [hv] at h; cases h
  | ok l =>
    rw [hv] at h
    simp only [Except.map] at h
    injection h with h
    rw [Prod.mk.injEq] at h
    obtain ⟨h1, h2⟩ := h
    constructor
    · rw [← h1, ← h2]
      simp [List.isEmpty_iff]
    · unfold assert_valid_scene_spec validate_scene_spec
      rw [hv]
      simp only [Except.map]
      rw [← h2]
      by_cases hl : l = []
      · subst hl; simp
      · simp [List.isEmpty_iff, hl]

theorem validate_wrappers_consistent_witness :
    (true = true ↔ ([] : List ValidationIssue) = []) ∧
    assert_valid_scene_spec (Json.str "x") none =
      .ok (if ([(⟨"$", "Spec must be an object, got: str", "type"⟩ :
          ValidationIssue)] : List ValidationIssue) = [] then none
        else some (validationFailMsg
          [⟨"$", "Spec must be an object, got: str", "type"⟩])) := by
  constructor
  · simp
  · exact (validate_wrappers_consistent (Json.str "x") none false
      [⟨"$", "Spec must be an object, got: str", "type"⟩] rfl).2

end Canvas3D
